import Mathlib

/-!
aegistudio/process: a shallow embedding of `process.c`

The C functions `proc_fork`, `proc_join`, `proc_kill` and `proc_pid` are
translated into pure Lean functions.

* A handle (`proc_t`) and its masked control block (`proccb_t`) are records of
  integers.  Pointer arguments are modelled by the value they point to, so the
  `NULL` guards of the C code (lines 38-39, 175, 196, 207) have no counterpart.
* The operating system is an oracle (`Sys`): it fixes the outcome of every
  system call a function may issue (`pipe2`, `fork`, `waitpid`, `kill`, and in
  the child `open`, `dup2`, `malloc`, `exec*`).
* Every system call that is issued is recorded, in program order, in a trace
  of `Event`s.  "No pipe is created", "no fork", "descriptor d is closed" are
  statements about that trace.
* The descriptor table `fds` is the list of its `fnum` entries, so
  `fnum = fds.length`.
* `errno` is recorded only where the library itself assigns it.
* `fork` returns twice.  The parent's return of `proc_fork` is the result
  under an oracle whose `fork` returns the child pid; what the child of the
  same launch does is the trace under the same oracle with `fork` returning 0
  (`childView`), where `proc_fork` does not return (`ret = none`).
-/

namespace Process

/-! ## Constants (process.h lines 16-41, process.c lines 15-20) -/

def PROC_NONE : Nat := 0
def PROC_PIN : Nat := 1 <<< 0
def PROC_POUT : Nat := 1 <<< 1
def PROC_PERR : Nat := 1 <<< 2
def PROC_NOPATH : Nat := 1 <<< 3
def PROC_RIN : Nat := 1 <<< 4
def PROC_ROUT : Nat := 1 <<< 5
def PROC_RERR : Nat := 1 <<< 6

def kValidMagic : Int := 0x0eadbeef
def kPipeMagic : Int := 0x0eefdead

/-- Value of `EINVAL` in the Linux `errno.h`. -/
def EINVAL : Int := 22
/-- Value of `EAGAIN` in the Linux `errno.h`. -/
def EAGAIN : Int := 11
/-- Value of `ECHILD` in the Linux `errno.h`. -/
def ECHILD : Int := 10

/-- The C test `mode & flag` (non-zero is true). -/
def hasFlag (mode flag : Nat) : Bool := (mode &&& flag) != 0

/-! ## Data model (process.h lines 46-70, process.c lines 23-31) -/

/-- The masked control block `proccb_t`. -/
structure proccb_t where
  magic : Int
  pipeMagic : Int
  pid : Int
  sRpin : Int
  sWpout : Int
  sWperr : Int
deriving DecidableEq, Repr

/-- The handle `proc_t`; `pcb` is the byte buffer read through `proccb_t`. -/
structure proc_t where
  pin : Int
  pout : Int
  perr : Int
  retval : Int
  pcb : proccb_t
deriving DecidableEq, Repr

/-- A zero-filled control block. -/
def pcbZero : proccb_t :=
  { magic := 0, pipeMagic := 0, pid := 0, sRpin := 0, sWpout := 0, sWperr := 0 }

/-- The launch request `procinfo_t`; `argv = args.length`, `envs = envp.length`. -/
structure procinfo_t where
  path : String
  args : List String
  envp : List String
  mode : Nat
deriving DecidableEq, Repr

/-- The three standard streams, naming the local arrays `pins`, `pouts`, `perrs`. -/
inductive Stream where
  | stdin
  | stdout
  | stderr
deriving DecidableEq, Repr

/-- A system call issued by the library, with its outcome where one is used.
`pipe2 s none` is a failed pipe creation, `pipe2 s (some (r, w))` a successful
one returning the read end `r` and the write end `w`.  A `NULL` entry of an
argument vector is `none`. -/
inductive Event where
  | pipe2 (s : Stream) (res : Option (Int × Int))
  | fork (ret : Int)
  | waitpid (pid : Int)
  | close (fd : Int)
  | kill (pid : Int) (signum : Int)
  | openDevNull (ret : Int)
  | dup2 (src : Int) (dst : Int) (ret : Int)
  | malloc (ok : Bool)
  | execv (path : String) (args : List (Option String))
  | execvpe (path : String) (args : List (Option String)) (envp : List (Option String))
  | exit (code : Int)
deriving DecidableEq, Repr

/-- Outcomes of the system calls one library call may issue. -/
structure Sys where
  /-- Result of `pipe2(pins, O_CLOEXEC)`: `none` on failure, else `(pins[sR], pins[sW])`. -/
  pipeIn : Option (Int × Int)
  /-- Result of `pipe2(pouts, O_CLOEXEC)`. -/
  pipeOut : Option (Int × Int)
  /-- Result of `pipe2(perrs, O_CLOEXEC)`. -/
  pipeErr : Option (Int × Int)
  /-- Return value of `fork()`. -/
  forkRet : Int
  /-- Status stored by `waitpid`; `none` when `waitpid` fails and stores nothing. -/
  waitStatus : Option Int
  /-- Return value of `kill`. -/
  killRet : Int
  /-- Return value of `open("/dev/null", O_RDWR)` in the child. -/
  devNull : Int
  /-- Return value of `dup2 src dst` in the child. -/
  dup2Ret : Int → Int → Int
  /-- Whether `malloc` for the argument vector succeeds. -/
  mallocArgs : Bool
  /-- Whether `malloc` for the environment vector succeeds. -/
  mallocEnvp : Bool
  /-- Return value of `execv` / `execvpe` when the program load fails; `none`
  when the image is replaced. -/
  execRet : Option Int

/-! ## proc_join (process.c lines 174-192) -/

/-- Result of `proc_join`: the handle afterwards and the system calls issued. -/
structure JoinResult where
  proc : proc_t
  trace : List Event
deriving DecidableEq, Repr

/-- Lines 179-183: wait for the child when the handle is valid. -/
def joinWait (sys : Sys) (proc : proc_t) : JoinResult :=
  if proc.pcb.magic = kValidMagic ∧ proc.pcb.pid > 0 then
    { proc := { proc with
                retval := sys.waitStatus.getD proc.retval
                pcb := { proc.pcb with magic := 0, pid := -1 } }
      trace := [Event.waitpid proc.pcb.pid] }
  else
    { proc := proc, trace := [] }

/-- One line of lines 187-189: `if(fd >= 0) { close(fd); fd = -1; }`, returning
the new value of the field and the call issued. -/
def closeOwned (fd : Int) : Int × List Event :=
  if fd ≥ 0 then (-1, [Event.close fd]) else (fd, [])

/-- Lines 186-191: close the descriptors recorded in the control block. -/
def joinClose (proc : proc_t) : JoinResult :=
  if proc.pcb.pipeMagic = kPipeMagic then
    let a := closeOwned proc.pcb.sRpin
    let b := closeOwned proc.pcb.sWpout
    let c := closeOwned proc.pcb.sWperr
    { proc := { proc with
                pcb := { proc.pcb with
                         sRpin := a.1, sWpout := b.1, sWperr := c.1, pipeMagic := 0 } }
      trace := a.2 ++ b.2 ++ c.2 }
  else
    { proc := proc, trace := [] }

/-- `void proc_join(proc_t* proc)`. -/
def proc_join (sys : Sys) (proc : proc_t) : JoinResult :=
  let w := joinWait sys proc
  let c := joinClose w.proc
  { proc := c.proc, trace := w.trace ++ c.trace }

/-! ## proc_kill and proc_pid (process.c lines 195-211) -/

/-- Result of `proc_kill`. -/
structure KillResult where
  ret : Int
  errno : Option Int
  trace : List Event
deriving DecidableEq, Repr

/-- `int proc_kill(proc_t* proc, int signum)`. -/
def proc_kill (sys : Sys) (proc : proc_t) (signum : Int) : KillResult :=
  if proc.pcb.magic ≠ kValidMagic then
    { ret := -1, errno := some ECHILD, trace := [] }
  else
    { ret := sys.killRet, errno := none, trace := [Event.kill proc.pcb.pid signum] }

/-- `pid_t proc_pid(proc_t* proc)`. -/
def proc_pid (proc : proc_t) : Int :=
  if proc.pcb.magic ≠ kValidMagic then -1 else proc.pcb.pid

/-! ## proc_fork (process.c lines 34-171) -/

/-- Result of `proc_fork`.  `ret = none` is the child branch of `fork`, which
ends in `exit` or in a replaced image and never returns to the caller.
`errno` holds the value the function itself assigns, if any. -/
structure ForkResult where
  ret : Option Int
  errno : Option Int
  proc : proc_t
  fds : List Int
  trace : List Event
deriving DecidableEq, Repr

/-- The variables of `proc_fork` after the guards: the handle, the descriptor
table, the locals `pins[sR]`, `pouts[sW]`, `perrs[sW]` and the calls so far. -/
structure ForkState where
  proc : proc_t
  fds : List Int
  pinsR : Int
  poutsW : Int
  perrsW : Int
  trace : List Event
deriving DecidableEq, Repr

/-- Lines 53-62: blank the handle.  `sRpin` is not assigned here. -/
def forkBlank (proc : proc_t) (fds : List Int) : ForkState :=
  { proc := { proc with
              pin := -1, pout := -1, perr := -1
              pcb := { proc.pcb with
                       magic := 0, pipeMagic := kPipeMagic, pid := 0
                       sWpout := -1, sWperr := -1 } }
    fds := fds
    pinsR := -1
    poutsW := -1
    perrsW := -1
    trace := [] }

/-- Lines 64-68: `if(fnum >= 1) { pins[sR] = fds[0]; if(mode & PROC_RIN) pcb->sRpin = fds[0]; }`. -/
def forkScanIn (mode : Nat) (st : ForkState) : ForkState :=
  if (st.fds.length : Int) ≥ 1 then
    { st with
      pinsR := st.fds.getD 0 (-1)
      proc := { st.proc with
                pcb := { st.proc.pcb with
                         sRpin := if hasFlag mode PROC_RIN then st.fds.getD 0 (-1)
                                  else st.proc.pcb.sRpin } } }
  else st

/-- Lines 69-73. -/
def forkScanOut (mode : Nat) (st : ForkState) : ForkState :=
  if (st.fds.length : Int) ≥ 2 then
    { st with
      poutsW := st.fds.getD 1 (-1)
      proc := { st.proc with
                pcb := { st.proc.pcb with
                         sWpout := if hasFlag mode PROC_ROUT then st.fds.getD 1 (-1)
                                   else st.proc.pcb.sWpout } } }
  else st

/-- Lines 74-78. -/
def forkScanErr (mode : Nat) (st : ForkState) : ForkState :=
  if (st.fds.length : Int) ≥ 3 then
    { st with
      perrsW := st.fds.getD 2 (-1)
      proc := { st.proc with
                pcb := { st.proc.pcb with
                         sWperr := if hasFlag mode PROC_RERR then st.fds.getD 2 (-1)
                                   else st.proc.pcb.sWperr } } }
  else st

/-- Lines 64-78: scan the descriptor table. -/
def forkScan (mode : Nat) (st : ForkState) : ForkState :=
  forkScanErr mode (forkScanOut mode (forkScanIn mode st))

/-- Lines 81-89: the stdin pipe.  `Except.error` carries the state at a failed
`pipe2`, from which line 83 calls `proc_join`. -/
def forkPipeIn (sys : Sys) (mode : Nat) (st : ForkState) : Except ForkState ForkState :=
  if hasFlag mode PROC_PIN then
    match sys.pipeIn with
    | none => Except.error { st with trace := st.trace ++ [Event.pipe2 Stream.stdin none] }
    | some (r, w) =>
      Except.ok
        { st with
          pinsR := r
          proc := { st.proc with pin := w, pcb := { st.proc.pcb with sRpin := r } }
          fds := if (st.fds.length : Int) ≥ 1 then st.fds.set 0 w else st.fds
          trace := st.trace ++ [Event.pipe2 Stream.stdin (some (r, w))] }
  else Except.ok st

/-- Lines 91-99: the stdout pipe. -/
def forkPipeOut (sys : Sys) (mode : Nat) (st : ForkState) : Except ForkState ForkState :=
  if hasFlag mode PROC_POUT then
    match sys.pipeOut with
    | none => Except.error { st with trace := st.trace ++ [Event.pipe2 Stream.stdout none] }
    | some (r, w) =>
      Except.ok
        { st with
          poutsW := w
          proc := { st.proc with pout := r, pcb := { st.proc.pcb with sWpout := w } }
          fds := if (st.fds.length : Int) ≥ 2 then st.fds.set 1 r else st.fds
          trace := st.trace ++ [Event.pipe2 Stream.stdout (some (r, w))] }
  else Except.ok st

/-- Lines 101-109: the stderr pipe. -/
def forkPipeErr (sys : Sys) (mode : Nat) (st : ForkState) : Except ForkState ForkState :=
  if hasFlag mode PROC_PERR then
    match sys.pipeErr with
    | none => Except.error { st with trace := st.trace ++ [Event.pipe2 Stream.stderr none] }
    | some (r, w) =>
      Except.ok
        { st with
          perrsW := w
          proc := { st.proc with perr := r, pcb := { st.proc.pcb with sWperr := w } }
          fds := if (st.fds.length : Int) ≥ 3 then st.fds.set 2 r else st.fds
          trace := st.trace ++ [Event.pipe2 Stream.stderr (some (r, w))] }
  else Except.ok st

/-- Lines 83-84, 93-94, 103-104, 168-169: `proc_join(proc); return -1;`. -/
def forkFail (sys : Sys) (st : ForkState) : ForkResult :=
  let j := proc_join sys st.proc
  { ret := some (-1), errno := none, proc := j.proc, fds := st.fds
    trace := st.trace ++ j.trace }

/-- Lines 121-126, one standard slot:
`if(src != slot) if(dup2(src >= 0 ? src : devNULL, slot) == -1) exit(-1);`
followed by the rest `k` of the child. -/
def childStd (sys : Sys) (src slot devNULL : Int) (k : List Event) : List Event :=
  if src ≠ slot then
    if sys.dup2Ret (if src ≥ 0 then src else devNULL) slot = -1 then
      [Event.dup2 (if src ≥ 0 then src else devNULL) slot (-1), Event.exit (-1)]
    else
      Event.dup2 (if src ≥ 0 then src else devNULL) slot
        (sys.dup2Ret (if src ≥ 0 then src else devNULL) slot) :: k
  else k

/-- Lines 128-129: `for(i = 3; i < fnum; i ++) if(dup2(fds[i], i)) exit(-1);`
over the remaining entries `fds[i], fds[i+1], ...`, followed by the rest `k`. -/
def childExtra (sys : Sys) : List Int → Int → List Event → List Event
  | [], _, k => k
  | fd :: rest, i, k =>
    if sys.dup2Ret fd i ≠ 0 then
      [Event.dup2 fd i (sys.dup2Ret fd i), Event.exit (-1)]
    else
      Event.dup2 fd i (sys.dup2Ret fd i) :: childExtra sys rest (i + 1) k

/-- Lines 132-147: the argument vector handed to the program load. -/
def childArgs (pinfo : procinfo_t) : List (Option String) :=
  if hasFlag pinfo.mode PROC_NOPATH then
    pinfo.args.map some ++ [none]
  else
    some pinfo.path :: (pinfo.args.map some ++ [none])

/-- The `exit(...)` around `exec*`: reached only when the program load returns. -/
def childAfterExec (sys : Sys) : List Event :=
  match sys.execRet with
  | none => []
  | some r => [Event.exit r]

/-- Lines 132-160: build the vectors and load the program. -/
def childExec (sys : Sys) (pinfo : procinfo_t) : List Event :=
  if sys.mallocArgs = false then
    [Event.malloc false, Event.exit (-1)]
  else
    Event.malloc true ::
      (if (pinfo.envp.length : Int) > 0 then
        if sys.mallocEnvp = false then
          [Event.malloc false, Event.exit (-1)]
        else
          Event.malloc true ::
            Event.execvpe pinfo.path (childArgs pinfo) (pinfo.envp.map some ++ [none]) ::
              childAfterExec sys
      else
        Event.execv pinfo.path (childArgs pinfo) :: childAfterExec sys)

/-- Lines 114-160: the child branch. -/
def forkChild (sys : Sys) (pinfo : procinfo_t) (st : ForkState) : List Event :=
  Event.openDevNull sys.devNull ::
    (if sys.devNull = -1 then
      [Event.exit (-1)]
    else
      childStd sys st.pinsR 0 sys.devNull
        (childStd sys st.poutsW 1 sys.devNull
          (childStd sys st.perrsW 2 sys.devNull
            (childExtra sys (st.fds.drop 3) 3 (childExec sys pinfo)))))

/-- Line 112: `pcb -> pid = fork();`. -/
def forkCall (sys : Sys) (st : ForkState) : ForkState :=
  { st with
    proc := { st.proc with pcb := { st.proc.pcb with pid := sys.forkRet } }
    trace := st.trace ++ [Event.fork sys.forkRet] }

/-- Lines 112-170: fork and the three branches on its result. -/
def forkSpawn (sys : Sys) (pinfo : procinfo_t) (st : ForkState) : ForkResult :=
  let st1 : ForkState := forkCall sys st
  if sys.forkRet = 0 then
    { ret := none, errno := none, proc := st1.proc, fds := st1.fds
      trace := st1.trace ++ forkChild sys pinfo st1 }
  else if sys.forkRet > 0 then
    { ret := some 0, errno := none
      proc := { st1.proc with pcb := { st1.proc.pcb with magic := kValidMagic } }
      fds := st1.fds, trace := st1.trace }
  else
    forkFail sys st1

/-- Lines 53-170: the launch proper, entered once the guards have passed. -/
def forkLaunch (sys : Sys) (proc : proc_t) (pinfo : procinfo_t) (fds : List Int) :
    ForkResult :=
  match forkPipeIn sys pinfo.mode (forkScan pinfo.mode (forkBlank proc fds)) with
  | Except.error st => forkFail sys st
  | Except.ok st1 =>
    match forkPipeOut sys pinfo.mode st1 with
    | Except.error st => forkFail sys st
    | Except.ok st2 =>
      match forkPipeErr sys pinfo.mode st2 with
      | Except.error st => forkFail sys st
      | Except.ok st3 => forkSpawn sys pinfo st3

/-- `int proc_fork(proc_t* proc, procinfo_t* pinfo, int fnum, int* fds)`. -/
def proc_fork (sys : Sys) (proc : proc_t) (pinfo : procinfo_t) (fds : List Int) :
    ForkResult :=
  if hasFlag pinfo.mode PROC_RIN && hasFlag pinfo.mode PROC_PIN then
    { ret := some (-1), errno := some EINVAL, proc := proc, fds := fds, trace := [] }
  else if hasFlag pinfo.mode PROC_ROUT && hasFlag pinfo.mode PROC_POUT then
    { ret := some (-1), errno := some EINVAL, proc := proc, fds := fds, trace := [] }
  else if hasFlag pinfo.mode PROC_RERR && hasFlag pinfo.mode PROC_PERR then
    { ret := some (-1), errno := some EINVAL, proc := proc, fds := fds, trace := [] }
  else if proc.pcb.magic = kValidMagic then
    { ret := some (-1), errno := some EAGAIN, proc := { proc with retval := -1 }
      fds := fds, trace := [] }
  else if proc.pcb.pipeMagic = kPipeMagic then
    { ret := some (-1), errno := some EAGAIN, proc := { proc with retval := -1 }
      fds := fds, trace := [] }
  else
    forkLaunch sys { proc with retval := -1 } pinfo fds

/-! ## Auxiliary predicates for the analysis of proc_fork -/

/-- The calls that only the child branch issues. -/
def Event.isChild : Event → Bool
  | Event.openDevNull _ => true
  | Event.dup2 _ _ _ => true
  | Event.malloc _ => true
  | Event.execv _ _ => true
  | Event.execvpe _ _ _ => true
  | Event.exit _ => true
  | _ => false

/-- Every requested pipe creation succeeds. -/
def pipesOk (sys : Sys) (mode : Nat) : Prop :=
  (hasFlag mode PROC_PIN = true → sys.pipeIn ≠ none) ∧
  (hasFlag mode PROC_POUT = true → sys.pipeOut ≠ none) ∧
  (hasFlag mode PROC_PERR = true → sys.pipeErr ≠ none)

/-- The three guards of lines 40-45: some stream has both its create-pipe and
its ownership-transfer flag set. -/
def conflicting (mode : Nat) : Prop :=
  (hasFlag mode PROC_PIN = true ∧ hasFlag mode PROC_RIN = true) ∨
  (hasFlag mode PROC_POUT = true ∧ hasFlag mode PROC_ROUT = true) ∨
  (hasFlag mode PROC_PERR = true ∧ hasFlag mode PROC_RERR = true)

instance (sys : Sys) (mode : Nat) : Decidable (pipesOk sys mode) := by
  unfold pipesOk
  infer_instance

instance (mode : Nat) : Decidable (conflicting mode) := by
  unfold conflicting
  infer_instance

/-- The variables of `proc_fork` between the pipe creations and `fork`,
relative to the handle `p` the launch proper started from: the markers, the
calls issued so far (pipe creations only) and, for every pipe created, where
its two ends are recorded. -/
structure Wired (p : proc_t) (st : ForkState) : Prop where
  magic : st.proc.pcb.magic = 0
  pipeMagic : st.proc.pcb.pipeMagic = kPipeMagic
  pid : st.proc.pcb.pid = 0
  retval : st.proc.retval = p.retval
  onlyPipes : ∀ e ∈ st.trace, ∃ s x, e = Event.pipe2 s x
  stdinEnds : ∀ r w, Event.pipe2 Stream.stdin (some (r, w)) ∈ st.trace →
    st.proc.pcb.sRpin = r ∧ st.proc.pin = w
  stdoutEnds : ∀ r w, Event.pipe2 Stream.stdout (some (r, w)) ∈ st.trace →
    st.proc.pcb.sWpout = w ∧ st.proc.pout = r
  stderrEnds : ∀ r w, Event.pipe2 Stream.stderr (some (r, w)) ∈ st.trace →
    st.proc.pcb.sWperr = w ∧ st.proc.perr = r

/-- The state in which `fork` is called: every requested pipe exists and is
recorded, and no pipe creation has failed. -/
structure Ready (sys : Sys) (mode : Nat) (p : proc_t) (st : ForkState) : Prop where
  wired : Wired p st
  noFailure : ∀ s, Event.pipe2 s none ∉ st.trace
  ok : pipesOk sys mode
  stdinPipe : hasFlag mode PROC_PIN = true →
    ∃ r w, sys.pipeIn = some (r, w) ∧ Event.pipe2 Stream.stdin (some (r, w)) ∈ st.trace
  stdoutPipe : hasFlag mode PROC_POUT = true →
    ∃ r w, sys.pipeOut = some (r, w) ∧ Event.pipe2 Stream.stdout (some (r, w)) ∈ st.trace
  stderrPipe : hasFlag mode PROC_PERR = true →
    ∃ r w, sys.pipeErr = some (r, w) ∧ Event.pipe2 Stream.stderr (some (r, w)) ∈ st.trace

/-- The state in which a failed pipe creation calls `proc_join`. -/
structure PipeFailed (sys : Sys) (mode : Nat) (p : proc_t) (st : ForkState) : Prop where
  wired : Wired p st
  failure : ∃ s, Event.pipe2 s none ∈ st.trace
  notOk : ¬ pipesOk sys mode

/-- The pipe descriptors open in the parent after a sequence of calls,
starting from `acc`: a successful `pipe2` opens both ends, `close` closes one
descriptor, the other calls open and close nothing in the parent. -/
def openPipeFds : List Event → List Int → List Int
  | [], acc => acc
  | Event.pipe2 _ (some (r, w)) :: t, acc => openPipeFds t (acc ++ [r, w])
  | Event.close fd :: t, acc => openPipeFds t (acc.erase fd)
  | _ :: t, acc => openPipeFds t acc

/-- The operating system as the child of the same launch sees it: every
call has the same outcome, except that `fork` returns 0. -/
def childView (sys : Sys) : Sys :=
  { sys with forkRet := 0 }

/-- The program loads `execv` and `execvpe`. -/
def Event.isExec : Event → Bool
  | Event.execv _ _ => true
  | Event.execvpe _ _ _ => true
  | _ => false

/-- What the launch proper, started from the handle `p` and the table `fds`,
leaves of them in its variables at any point after the scan of the table: the
length of the table, its entries from index 3 on and, for every stream whose
create-pipe flag is not set, the handle field, the table entry, the local
descriptor resolved for the child and the owned descriptor. -/
structure Plain (mode : Nat) (p : proc_t) (fds : List Int) (st : ForkState) : Prop where
  len : st.fds.length = fds.length
  extra : st.fds.drop 3 = fds.drop 3
  stdinPlain : hasFlag mode PROC_PIN = false →
    st.proc.pin = -1 ∧ st.fds[0]? = fds[0]? ∧
    st.pinsR = (if 1 ≤ fds.length then fds.getD 0 (-1) else -1) ∧
    st.proc.pcb.sRpin =
      (if 1 ≤ fds.length ∧ hasFlag mode PROC_RIN = true then fds.getD 0 (-1)
       else p.pcb.sRpin)
  stdoutPlain : hasFlag mode PROC_POUT = false →
    st.proc.pout = -1 ∧ st.fds[1]? = fds[1]? ∧
    st.poutsW = (if 2 ≤ fds.length then fds.getD 1 (-1) else -1) ∧
    st.proc.pcb.sWpout =
      (if 2 ≤ fds.length ∧ hasFlag mode PROC_ROUT = true then fds.getD 1 (-1) else -1)
  stderrPlain : hasFlag mode PROC_PERR = false →
    st.proc.perr = -1 ∧ st.fds[2]? = fds[2]? ∧
    st.perrsW = (if 3 ≤ fds.length then fds.getD 2 (-1) else -1) ∧
    st.proc.pcb.sWperr =
      (if 3 ≤ fds.length ∧ hasFlag mode PROC_RERR = true then fds.getD 2 (-1) else -1)

/-- What the state in which `fork` is called holds for every stream whose
create-pipe flag is set: the local descriptor resolved for the child and the
owned descriptor are the child-facing end of the pipe, the handle field and,
when the table covers the slot, the table entry are the opposite end. -/
structure Piped (sys : Sys) (mode : Nat) (fds : List Int) (st : ForkState) : Prop where
  stdinPiped : hasFlag mode PROC_PIN = true →
    ∃ r w, sys.pipeIn = some (r, w) ∧ st.pinsR = r ∧ st.proc.pin = w ∧
      st.proc.pcb.sRpin = r ∧ (1 ≤ fds.length → st.fds[0]? = some w)
  stdoutPiped : hasFlag mode PROC_POUT = true →
    ∃ r w, sys.pipeOut = some (r, w) ∧ st.poutsW = w ∧ st.proc.pout = r ∧
      st.proc.pcb.sWpout = w ∧ (2 ≤ fds.length → st.fds[1]? = some r)
  stderrPiped : hasFlag mode PROC_PERR = true →
    ∃ r w, sys.pipeErr = some (r, w) ∧ st.perrsW = w ∧ st.proc.perr = r ∧
      st.proc.pcb.sWperr = w ∧ (3 ≤ fds.length → st.fds[2]? = some r)

/-! ## The descriptor table of the child -/

/-- What a descriptor number of the child refers to: the open file the same
number referred to in the parent when the child was forked, or the null device
the child has opened. -/
inductive ChildFile where
  | inherited (fd : Int)
  | devNull
deriving DecidableEq, Repr

/-- The effect of one call on the descriptor table of the child: a successful
`open` makes the returned number refer to the null device, a successful
`dup2 src dst` makes `dst` refer to what `src` refers to; no other call of the
child, and no call issued before the fork, changes the table. -/
def childStep (t : Int → ChildFile) : Event → Int → ChildFile
  | Event.openDevNull r => if r = -1 then t else fun n => if n = r then ChildFile.devNull else t n
  | Event.dup2 src dst ret => if ret = -1 then t else fun n => if n = dst then t src else t n
  | _ => t

/-- The descriptor table of the child after the calls of a trace, starting
from the table inherited at the fork. -/
def childFiles (trace : List Event) : Int → ChildFile :=
  trace.foldl childStep (fun n => ChildFile.inherited n)

/-- Whether a call can change what the descriptor number `x` refers to. -/
def Event.writes (x : Int) : Event → Bool
  | Event.openDevNull r => r == x
  | Event.dup2 _ dst _ => dst == x
  | _ => false

/-! ## The three standard streams, uniformly -/

/-- The child descriptor number of a stream. -/
def Stream.slot : Stream → Nat
  | Stream.stdin => 0
  | Stream.stdout => 1
  | Stream.stderr => 2

/-- The create-pipe flag of a stream. -/
def Stream.pipeFlag : Stream → Nat
  | Stream.stdin => PROC_PIN
  | Stream.stdout => PROC_POUT
  | Stream.stderr => PROC_PERR

/-- The ownership-transfer flag of a stream. -/
def Stream.ownFlag : Stream → Nat
  | Stream.stdin => PROC_RIN
  | Stream.stdout => PROC_ROUT
  | Stream.stderr => PROC_RERR

/-- The control-block field recording the descriptor the handle must close for
a stream. -/
def Stream.owned : Stream → proccb_t → Int
  | Stream.stdin, cb => cb.sRpin
  | Stream.stdout, cb => cb.sWpout
  | Stream.stderr, cb => cb.sWperr

/-- The handle field of a stream: `pin`, `pout` or `perr`. -/
def Stream.held : Stream → proc_t → Int
  | Stream.stdin, h => h.pin
  | Stream.stdout, h => h.pout
  | Stream.stderr, h => h.perr

/-- The local descriptor resolved for the child, `pins[sR]`, `pouts[sW]` or
`perrs[sW]`. -/
def Stream.resolved : Stream → ForkState → Int
  | Stream.stdin, st => st.pinsR
  | Stream.stdout, st => st.poutsW
  | Stream.stderr, st => st.perrsW

/-- The outcome of the `pipe2` call of a stream. -/
def Stream.pipeOf : Stream → Sys → Option (Int × Int)
  | Stream.stdin, sys => sys.pipeIn
  | Stream.stdout, sys => sys.pipeOut
  | Stream.stderr, sys => sys.pipeErr

/-- The child-facing end of a pipe `(read end, write end)`: the read end for
stdin, the write end for stdout and stderr. -/
def Stream.childEnd : Stream → Int × Int → Int
  | Stream.stdin, rw => rw.1
  | Stream.stdout, rw => rw.2
  | Stream.stderr, rw => rw.2

/-- The states a handle goes through, starting from a zeroed control block.
`Reach h (some pid)` is the Launched state: a `proc_fork` on the handle has
returned 0, its `fork` having returned `pid`, and `proc_join` has not been
called since.  `Reach h none` is every other state: never launched, launch
failed, or joined.  `proc_kill` and `proc_pid` do not write to the handle, so
they have no constructor. -/
inductive Reach : proc_t → Option Int → Prop where
  | init (h : proc_t) (hz : h.pcb = pcbZero) : Reach h none
  | launched (sys : Sys) (h : proc_t) (s : Option Int) (pinfo : procinfo_t)
      (fds : List Int) (hr : Reach h s) (hret : (proc_fork sys h pinfo fds).ret = some 0) :
      Reach (proc_fork sys h pinfo fds).proc (some sys.forkRet)
  | failed (sys : Sys) (h : proc_t) (s : Option Int) (pinfo : procinfo_t)
      (fds : List Int) (hr : Reach h s)
      (hret : (proc_fork sys h pinfo fds).ret = some (-1)) :
      Reach (proc_fork sys h pinfo fds).proc s
  | joined (sys : Sys) (h : proc_t) (s : Option Int) (hr : Reach h s) :
      Reach (proc_join sys h).proc none

/-! ## Concrete values used to exercise the model -/

/-- A zero-initialised handle (`proc_t p = {0}` or `memset`). -/
def procZero : proc_t :=
  { pin := 0, pout := 0, perr := 0, retval := 0, pcb := pcbZero }

/-- An operating system in which every call succeeds: the pipes are
`(3, 4)`, `(5, 6)`, `(7, 8)`, `fork` returns the child pid `100` and the child
exits with status `0`. -/
def sysOk : Sys :=
  { pipeIn := some (3, 4), pipeOut := some (5, 6), pipeErr := some (7, 8)
    forkRet := 100, waitStatus := some 0, killRet := 0
    devNull := 9, dup2Ret := fun _ dst => dst
    mallocArgs := true, mallocEnvp := true, execRet := none }

/-- As `sysOk`, with `fork` returning `pid`. -/
def sysPid (pid : Int) : Sys :=
  { sysOk with forkRet := pid }

/-- As `sysOk`, except that the stdout pipe cannot be created. -/
def sysNoPipeOut : Sys :=
  { sysOk with pipeOut := none }

/-- As `sysOk`, except that the stderr pipe cannot be created. -/
def sysNoPipeErr : Sys :=
  { sysOk with pipeErr := none }

/-- A request for `/bin/cat` with the given mode and no arguments. -/
def infoCat (mode : Nat) : procinfo_t :=
  { path := "/bin/cat", args := [], envp := [], mode := mode }

/-- A request for `/bin/echo hello` with the given mode and no environment. -/
def infoEcho (mode : Nat) : procinfo_t :=
  { path := "/bin/echo", args := ["hello"], envp := [], mode := mode }

/-! ## Lemmas on the stages of proc_fork -/

theorem forkScanIn_eq (mode : Nat) (st : ForkState) :
    forkScanIn mode st =
      { st with
        pinsR := if (st.fds.length : Int) ≥ 1 then st.fds.getD 0 (-1) else st.pinsR
        proc := { st.proc with
                  pcb := { st.proc.pcb with
                           sRpin := if (st.fds.length : Int) ≥ 1 ∧ hasFlag mode PROC_RIN = true
                                    then st.fds.getD 0 (-1) else st.proc.pcb.sRpin } } } := by
  obtain ⟨⟨pin, pout, perr, retval, ⟨magic, pm, pid, a, b, c⟩⟩, fds, x, y, z, t⟩ := st
  unfold forkScanIn
  split_ifs <;> simp_all

theorem forkScanOut_eq (mode : Nat) (st : ForkState) :
    forkScanOut mode st =
      { st with
        poutsW := if (st.fds.length : Int) ≥ 2 then st.fds.getD 1 (-1) else st.poutsW
        proc := { st.proc with
                  pcb := { st.proc.pcb with
                           sWpout := if (st.fds.length : Int) ≥ 2 ∧ hasFlag mode PROC_ROUT = true
                                     then st.fds.getD 1 (-1) else st.proc.pcb.sWpout } } } := by
  obtain ⟨⟨pin, pout, perr, retval, ⟨magic, pm, pid, a, b, c⟩⟩, fds, x, y, z, t⟩ := st
  unfold forkScanOut
  split_ifs <;> simp_all

theorem forkScanErr_eq (mode : Nat) (st : ForkState) :
    forkScanErr mode st =
      { st with
        perrsW := if (st.fds.length : Int) ≥ 3 then st.fds.getD 2 (-1) else st.perrsW
        proc := { st.proc with
                  pcb := { st.proc.pcb with
                           sWperr := if (st.fds.length : Int) ≥ 3 ∧ hasFlag mode PROC_RERR = true
                                     then st.fds.getD 2 (-1) else st.proc.pcb.sWperr } } } := by
  obtain ⟨⟨pin, pout, perr, retval, ⟨magic, pm, pid, a, b, c⟩⟩, fds, x, y, z, t⟩ := st
  unfold forkScanErr
  split_ifs <;> simp_all

theorem forkScan_eq (mode : Nat) (st : ForkState) :
    forkScan mode st =
      { st with
        pinsR := if (st.fds.length : Int) ≥ 1 then st.fds.getD 0 (-1) else st.pinsR
        poutsW := if (st.fds.length : Int) ≥ 2 then st.fds.getD 1 (-1) else st.poutsW
        perrsW := if (st.fds.length : Int) ≥ 3 then st.fds.getD 2 (-1) else st.perrsW
        proc := { st.proc with
                  pcb := { st.proc.pcb with
                           sRpin := if (st.fds.length : Int) ≥ 1 ∧ hasFlag mode PROC_RIN = true
                                    then st.fds.getD 0 (-1) else st.proc.pcb.sRpin
                           sWpout := if (st.fds.length : Int) ≥ 2 ∧ hasFlag mode PROC_ROUT = true
                                     then st.fds.getD 1 (-1) else st.proc.pcb.sWpout
                           sWperr := if (st.fds.length : Int) ≥ 3 ∧ hasFlag mode PROC_RERR = true
                                     then st.fds.getD 2 (-1) else st.proc.pcb.sWperr } } } := by
  simp only [forkScan, forkScanIn_eq, forkScanOut_eq, forkScanErr_eq]

theorem forkScan_blank_wired (mode : Nat) (p : proc_t) (fds : List Int) :
    Wired p (forkScan mode (forkBlank p fds)) ∧ (forkScan mode (forkBlank p fds)).trace = [] := by
  rw [forkScan_eq]
  refine ⟨⟨?_, ?_, ?_, ?_, ?_, ?_, ?_, ?_⟩, ?_⟩ <;> simp [forkBlank]

theorem forkPipeIn_cases (sys : Sys) (mode : Nat) (st : ForkState) :
    (hasFlag mode PROC_PIN = false ∧ forkPipeIn sys mode st = Except.ok st) ∨
    (hasFlag mode PROC_PIN = true ∧ sys.pipeIn = none ∧
      forkPipeIn sys mode st =
        Except.error { st with trace := st.trace ++ [Event.pipe2 Stream.stdin none] }) ∨
    (∃ r w, hasFlag mode PROC_PIN = true ∧ sys.pipeIn = some (r, w) ∧
      forkPipeIn sys mode st =
        Except.ok
          { st with
            pinsR := r
            proc := { st.proc with pin := w, pcb := { st.proc.pcb with sRpin := r } }
            fds := if (st.fds.length : Int) ≥ 1 then st.fds.set 0 w else st.fds
            trace := st.trace ++ [Event.pipe2 Stream.stdin (some (r, w))] }) := by
  unfold forkPipeIn
  cases hI : hasFlag mode PROC_PIN
  · simp
  · cases hp : sys.pipeIn with
    | none => simp
    | some rw => obtain ⟨r, w⟩ := rw; exact Or.inr (Or.inr ⟨r, w, rfl, rfl, by simp⟩)

theorem forkPipeOut_cases (sys : Sys) (mode : Nat) (st : ForkState) :
    (hasFlag mode PROC_POUT = false ∧ forkPipeOut sys mode st = Except.ok st) ∨
    (hasFlag mode PROC_POUT = true ∧ sys.pipeOut = none ∧
      forkPipeOut sys mode st =
        Except.error { st with trace := st.trace ++ [Event.pipe2 Stream.stdout none] }) ∨
    (∃ r w, hasFlag mode PROC_POUT = true ∧ sys.pipeOut = some (r, w) ∧
      forkPipeOut sys mode st =
        Except.ok
          { st with
            poutsW := w
            proc := { st.proc with pout := r, pcb := { st.proc.pcb with sWpout := w } }
            fds := if (st.fds.length : Int) ≥ 2 then st.fds.set 1 r else st.fds
            trace := st.trace ++ [Event.pipe2 Stream.stdout (some (r, w))] }) := by
  unfold forkPipeOut
  cases hI : hasFlag mode PROC_POUT
  · simp
  · cases hp : sys.pipeOut with
    | none => simp
    | some rw => obtain ⟨r, w⟩ := rw; exact Or.inr (Or.inr ⟨r, w, rfl, rfl, by simp⟩)

theorem forkPipeErr_cases (sys : Sys) (mode : Nat) (st : ForkState) :
    (hasFlag mode PROC_PERR = false ∧ forkPipeErr sys mode st = Except.ok st) ∨
    (hasFlag mode PROC_PERR = true ∧ sys.pipeErr = none ∧
      forkPipeErr sys mode st =
        Except.error { st with trace := st.trace ++ [Event.pipe2 Stream.stderr none] }) ∨
    (∃ r w, hasFlag mode PROC_PERR = true ∧ sys.pipeErr = some (r, w) ∧
      forkPipeErr sys mode st =
        Except.ok
          { st with
            perrsW := w
            proc := { st.proc with perr := r, pcb := { st.proc.pcb with sWperr := w } }
            fds := if (st.fds.length : Int) ≥ 3 then st.fds.set 2 r else st.fds
            trace := st.trace ++ [Event.pipe2 Stream.stderr (some (r, w))] }) := by
  unfold forkPipeErr
  cases hI : hasFlag mode PROC_PERR
  · simp
  · cases hp : sys.pipeErr with
    | none => simp
    | some rw => obtain ⟨r, w⟩ := rw; exact Or.inr (Or.inr ⟨r, w, rfl, rfl, by simp⟩)

theorem forkPipeIn_error (sys : Sys) (mode : Nat) (st st' : ForkState)
    (h : forkPipeIn sys mode st = Except.error st') :
    hasFlag mode PROC_PIN = true ∧ sys.pipeIn = none ∧
      st' = { st with trace := st.trace ++ [Event.pipe2 Stream.stdin none] } := by
  rcases forkPipeIn_cases sys mode st with ⟨_, e⟩ | ⟨f, o, e⟩ | ⟨r, w, _, _, e⟩ <;>
    rw [e] at h
  · cases h
  · injection h with h
    exact ⟨f, o, h.symm⟩
  · cases h

theorem forkPipeIn_ok (sys : Sys) (mode : Nat) (st st' : ForkState)
    (h : forkPipeIn sys mode st = Except.ok st') :
    (hasFlag mode PROC_PIN = false ∧ st' = st) ∨
    (∃ r w, hasFlag mode PROC_PIN = true ∧ sys.pipeIn = some (r, w) ∧
      st' =
        { st with
          pinsR := r
          proc := { st.proc with pin := w, pcb := { st.proc.pcb with sRpin := r } }
          fds := if (st.fds.length : Int) ≥ 1 then st.fds.set 0 w else st.fds
          trace := st.trace ++ [Event.pipe2 Stream.stdin (some (r, w))] }) := by
  rcases forkPipeIn_cases sys mode st with ⟨f, e⟩ | ⟨_, _, e⟩ | ⟨r, w, f, o, e⟩ <;>
    rw [e] at h
  · injection h with h
    exact Or.inl ⟨f, h.symm⟩
  · cases h
  · injection h with h
    exact Or.inr ⟨r, w, f, o, h.symm⟩

theorem forkPipeOut_error (sys : Sys) (mode : Nat) (st st' : ForkState)
    (h : forkPipeOut sys mode st = Except.error st') :
    hasFlag mode PROC_POUT = true ∧ sys.pipeOut = none ∧
      st' = { st with trace := st.trace ++ [Event.pipe2 Stream.stdout none] } := by
  rcases forkPipeOut_cases sys mode st with ⟨_, e⟩ | ⟨f, o, e⟩ | ⟨r, w, _, _, e⟩ <;>
    rw [e] at h
  · cases h
  · injection h with h
    exact ⟨f, o, h.symm⟩
  · cases h

theorem forkPipeOut_ok (sys : Sys) (mode : Nat) (st st' : ForkState)
    (h : forkPipeOut sys mode st = Except.ok st') :
    (hasFlag mode PROC_POUT = false ∧ st' = st) ∨
    (∃ r w, hasFlag mode PROC_POUT = true ∧ sys.pipeOut = some (r, w) ∧
      st' =
        { st with
          poutsW := w
          proc := { st.proc with pout := r, pcb := { st.proc.pcb with sWpout := w } }
          fds := if (st.fds.length : Int) ≥ 2 then st.fds.set 1 r else st.fds
          trace := st.trace ++ [Event.pipe2 Stream.stdout (some (r, w))] }) := by
  rcases forkPipeOut_cases sys mode st with ⟨f, e⟩ | ⟨_, _, e⟩ | ⟨r, w, f, o, e⟩ <;>
    rw [e] at h
  · injection h with h
    exact Or.inl ⟨f, h.symm⟩
  · cases h
  · injection h with h
    exact Or.inr ⟨r, w, f, o, h.symm⟩

theorem forkPipeErr_error (sys : Sys) (mode : Nat) (st st' : ForkState)
    (h : forkPipeErr sys mode st = Except.error st') :
    hasFlag mode PROC_PERR = true ∧ sys.pipeErr = none ∧
      st' = { st with trace := st.trace ++ [Event.pipe2 Stream.stderr none] } := by
  rcases forkPipeErr_cases sys mode st with ⟨_, e⟩ | ⟨f, o, e⟩ | ⟨r, w, _, _, e⟩ <;>
    rw [e] at h
  · cases h
  · injection h with h
    exact ⟨f, o, h.symm⟩
  · cases h

theorem forkPipeErr_ok (sys : Sys) (mode : Nat) (st st' : ForkState)
    (h : forkPipeErr sys mode st = Except.ok st') :
    (hasFlag mode PROC_PERR = false ∧ st' = st) ∨
    (∃ r w, hasFlag mode PROC_PERR = true ∧ sys.pipeErr = some (r, w) ∧
      st' =
        { st with
          perrsW := w
          proc := { st.proc with perr := r, pcb := { st.proc.pcb with sWperr := w } }
          fds := if (st.fds.length : Int) ≥ 3 then st.fds.set 2 r else st.fds
          trace := st.trace ++ [Event.pipe2 Stream.stderr (some (r, w))] }) := by
  rcases forkPipeErr_cases sys mode st with ⟨f, e⟩ | ⟨_, _, e⟩ | ⟨r, w, f, o, e⟩ <;>
    rw [e] at h
  · injection h with h
    exact Or.inl ⟨f, h.symm⟩
  · cases h
  · injection h with h
    exact Or.inr ⟨r, w, f, o, h.symm⟩

theorem forkLaunch_cases (sys : Sys) (p : proc_t) (pinfo : procinfo_t) (fds : List Int)
    (P : ForkResult → Prop)
    (hfail : ∀ st, PipeFailed sys pinfo.mode p st → P (forkFail sys st))
    (hready : ∀ st, Ready sys pinfo.mode p st → P (forkSpawn sys pinfo st)) :
    P (forkLaunch sys p pinfo fds) := by
  obtain ⟨hw, ht⟩ := forkScan_blank_wired pinfo.mode p fds
  unfold forkLaunch
  generalize forkScan pinfo.mode (forkBlank p fds) = st0 at hw ht
  obtain ⟨h1, h2, h3, h4, -, -, -, -⟩ := hw
  split
  · rename_i st hI
    obtain ⟨fI, oI, rfl⟩ := forkPipeIn_error _ _ _ _ hI
    refine hfail _ ⟨⟨?_, ?_, ?_, ?_, ?_, ?_, ?_, ?_⟩, ?_, ?_⟩ <;> simp [*, pipesOk]
  · rename_i st1 hI
    split
    · rename_i st hO
      obtain ⟨fO, oO, rfl⟩ := forkPipeOut_error _ _ _ _ hO
      rcases forkPipeIn_ok _ _ _ _ hI with ⟨fI, rfl⟩ | ⟨r1, w1, fI, oI, rfl⟩ <;>
        refine hfail _ ⟨⟨?_, ?_, ?_, ?_, ?_, ?_, ?_, ?_⟩, ?_, ?_⟩ <;> simp [*, pipesOk]
    · rename_i st2 hO
      split
      · rename_i st hE
        obtain ⟨fE, oE, rfl⟩ := forkPipeErr_error _ _ _ _ hE
        rcases forkPipeOut_ok _ _ _ _ hO with ⟨fO, rfl⟩ | ⟨r2, w2, fO, oO, rfl⟩ <;>
          rcases forkPipeIn_ok _ _ _ _ hI with ⟨fI, rfl⟩ | ⟨r1, w1, fI, oI, rfl⟩ <;>
          refine hfail _ ⟨⟨?_, ?_, ?_, ?_, ?_, ?_, ?_, ?_⟩, ?_, ?_⟩ <;> simp [*, pipesOk]
      · rename_i st3 hE
        rcases forkPipeErr_ok _ _ _ _ hE with ⟨fE, rfl⟩ | ⟨r3, w3, fE, oE, rfl⟩ <;>
          rcases forkPipeOut_ok _ _ _ _ hO with ⟨fO, rfl⟩ | ⟨r2, w2, fO, oO, rfl⟩ <;>
          rcases forkPipeIn_ok _ _ _ _ hI with ⟨fI, rfl⟩ | ⟨r1, w1, fI, oI, rfl⟩ <;>
          refine hready _ ⟨⟨?_, ?_, ?_, ?_, ?_, ?_, ?_, ?_⟩, ?_, ?_, ?_, ?_, ?_⟩ <;>
          simp [*, pipesOk]

/-! ## Lemmas on proc_join -/

theorem joinWait_of_not_valid (sys : Sys) (p : proc_t) (h : p.pcb.magic ≠ kValidMagic) :
    joinWait sys p = { proc := p, trace := [] } := by
  simp [joinWait, h]

theorem proc_join_of_not_valid (sys : Sys) (p : proc_t) (h : p.pcb.magic ≠ kValidMagic) :
    proc_join sys p = joinClose p := by
  simp [proc_join, joinWait_of_not_valid sys p h]

theorem mem_closeOwned (fd : Int) (e : Event) (h : e ∈ (closeOwned fd).2) :
    e = Event.close fd ∧ 0 ≤ fd := by
  unfold closeOwned at h
  split_ifs at h with hfd
  · simp at h
    exact ⟨h, hfd⟩
  · simp at h

theorem closeOwned_mem (fd : Int) (h : 0 ≤ fd) : Event.close fd ∈ (closeOwned fd).2 := by
  simp [closeOwned, h]

theorem closeOwned_fst_neg (fd : Int) : (closeOwned fd).1 < 0 := by
  unfold closeOwned
  split_ifs with h
  · simp
  · simpa using h

theorem joinClose_of_pipe (p : proc_t) (h : p.pcb.pipeMagic = kPipeMagic) :
    joinClose p =
      { proc := { p with
                  pcb := { p.pcb with
                           sRpin := (closeOwned p.pcb.sRpin).1
                           sWpout := (closeOwned p.pcb.sWpout).1
                           sWperr := (closeOwned p.pcb.sWperr).1
                           pipeMagic := 0 } }
        trace := (closeOwned p.pcb.sRpin).2 ++ (closeOwned p.pcb.sWpout).2 ++
          (closeOwned p.pcb.sWperr).2 } := by
  simp [joinClose, h]

theorem joinClose_of_not_pipe (p : proc_t) (h : p.pcb.pipeMagic ≠ kPipeMagic) :
    joinClose p = { proc := p, trace := [] } := by
  simp [joinClose, h]

theorem kPipeMagic_ne_zero : kPipeMagic ≠ 0 := by decide

theorem kValidMagic_ne_zero : kValidMagic ≠ 0 := by decide

theorem joinWait_frame (sys : Sys) (p : proc_t) :
    (joinWait sys p).proc.pin = p.pin ∧ (joinWait sys p).proc.pout = p.pout ∧
    (joinWait sys p).proc.perr = p.perr ∧
    (joinWait sys p).proc.pcb.pipeMagic = p.pcb.pipeMagic ∧
    (joinWait sys p).proc.pcb.sRpin = p.pcb.sRpin ∧
    (joinWait sys p).proc.pcb.sWpout = p.pcb.sWpout ∧
    (joinWait sys p).proc.pcb.sWperr = p.pcb.sWperr := by
  unfold joinWait
  split_ifs <;> simp

theorem joinClose_frame (p : proc_t) :
    (joinClose p).proc.pin = p.pin ∧ (joinClose p).proc.pout = p.pout ∧
    (joinClose p).proc.perr = p.perr ∧ (joinClose p).proc.retval = p.retval ∧
    (joinClose p).proc.pcb.magic = p.pcb.magic ∧ (joinClose p).proc.pcb.pid = p.pcb.pid ∧
    (joinClose p).proc.pcb.pipeMagic ≠ kPipeMagic := by
  by_cases h : p.pcb.pipeMagic = kPipeMagic
  · rw [joinClose_of_pipe p h]
    simp [kPipeMagic_ne_zero.symm]
  · rw [joinClose_of_not_pipe p h]
    simp [h]

/-- What `proc_join` leaves unchanged, and what it clears. -/
theorem proc_join_frame (sys : Sys) (p : proc_t) :
    (proc_join sys p).proc.pin = p.pin ∧ (proc_join sys p).proc.pout = p.pout ∧
    (proc_join sys p).proc.perr = p.perr ∧
    (proc_join sys p).proc.pcb.pipeMagic ≠ kPipeMagic := by
  obtain ⟨a1, a2, a3, -⟩ := joinWait_frame sys p
  obtain ⟨b1, b2, b3, -, -, -, b7⟩ := joinClose_frame (joinWait sys p).proc
  simp only [proc_join]
  exact ⟨b1.trans a1, b2.trans a2, b3.trans a3, b7⟩

/-- The calls of `joinClose` are closes of non-negative owned descriptors. -/
theorem mem_joinClose (p : proc_t) (e : Event) (h : e ∈ (joinClose p).trace) :
    ∃ fd, e = Event.close fd ∧ 0 ≤ fd ∧
      (fd = p.pcb.sRpin ∨ fd = p.pcb.sWpout ∨ fd = p.pcb.sWperr) := by
  by_cases hp : p.pcb.pipeMagic = kPipeMagic
  · rw [joinClose_of_pipe p hp] at h
    simp only [List.mem_append] at h
    rcases h with (h | h) | h
    · obtain ⟨h1, h2⟩ := mem_closeOwned _ _ h
      exact ⟨_, h1, h2, Or.inl rfl⟩
    · obtain ⟨h1, h2⟩ := mem_closeOwned _ _ h
      exact ⟨_, h1, h2, Or.inr (Or.inl rfl)⟩
    · obtain ⟨h1, h2⟩ := mem_closeOwned _ _ h
      exact ⟨_, h1, h2, Or.inr (Or.inr rfl)⟩
  · rw [joinClose_of_not_pipe p hp] at h
    simp at h

/-- With the pipe marker set, `joinClose` closes every non-negative owned
descriptor. -/
theorem joinClose_closes (p : proc_t) (hp : p.pcb.pipeMagic = kPipeMagic) :
    (0 ≤ p.pcb.sRpin → Event.close p.pcb.sRpin ∈ (joinClose p).trace) ∧
    (0 ≤ p.pcb.sWpout → Event.close p.pcb.sWpout ∈ (joinClose p).trace) ∧
    (0 ≤ p.pcb.sWperr → Event.close p.pcb.sWperr ∈ (joinClose p).trace) := by
  rw [joinClose_of_pipe p hp]
  simp only [List.mem_append]
  exact ⟨fun h => Or.inl (Or.inl (closeOwned_mem _ h)),
    fun h => Or.inl (Or.inr (closeOwned_mem _ h)), fun h => Or.inr (closeOwned_mem _ h)⟩

/-! ## Lemmas on proc_fork -/

theorem conflicting_iff (mode : Nat) :
    conflicting mode ↔
      ((hasFlag mode PROC_RIN && hasFlag mode PROC_PIN) = true ∨
       (hasFlag mode PROC_ROUT && hasFlag mode PROC_POUT) = true ∨
       (hasFlag mode PROC_RERR && hasFlag mode PROC_PERR) = true) := by
  simp only [conflicting, Bool.and_eq_true]
  tauto

theorem proc_fork_of_conflicting (sys : Sys) (p : proc_t) (pinfo : procinfo_t)
    (fds : List Int) (h : conflicting pinfo.mode) :
    proc_fork sys p pinfo fds =
      { ret := some (-1), errno := some EINVAL, proc := p, fds := fds, trace := [] } := by
  rw [conflicting_iff] at h
  unfold proc_fork
  split_ifs <;> simp_all

theorem proc_fork_of_marked (sys : Sys) (p : proc_t) (pinfo : procinfo_t)
    (fds : List Int) (hc : ¬ conflicting pinfo.mode)
    (h : p.pcb.magic = kValidMagic ∨ p.pcb.pipeMagic = kPipeMagic) :
    proc_fork sys p pinfo fds =
      { ret := some (-1), errno := some EAGAIN, proc := { p with retval := -1 }
        fds := fds, trace := [] } := by
  rw [conflicting_iff] at hc
  unfold proc_fork
  split_ifs <;> simp_all

theorem proc_fork_of_clear (sys : Sys) (p : proc_t) (pinfo : procinfo_t)
    (fds : List Int) (hc : ¬ conflicting pinfo.mode)
    (h1 : p.pcb.magic ≠ kValidMagic) (h2 : p.pcb.pipeMagic ≠ kPipeMagic) :
    proc_fork sys p pinfo fds = forkLaunch sys { p with retval := -1 } pinfo fds := by
  rw [conflicting_iff] at hc
  unfold proc_fork
  split_ifs <;> simp_all

theorem forkSpawn_pos (sys : Sys) (pinfo : procinfo_t) (st : ForkState)
    (h : 0 < sys.forkRet) :
    forkSpawn sys pinfo st =
      { ret := some 0, errno := none
        proc := { st.proc with
                  pcb := { st.proc.pcb with pid := sys.forkRet, magic := kValidMagic } }
        fds := st.fds, trace := st.trace ++ [Event.fork sys.forkRet] } := by
  have h0 : sys.forkRet ≠ 0 := by omega
  simp [forkSpawn, forkCall, h0, h]

theorem forkSpawn_neg (sys : Sys) (pinfo : procinfo_t) (st : ForkState)
    (h : sys.forkRet < 0) :
    forkSpawn sys pinfo st = forkFail sys (forkCall sys st) := by
  have h0 : sys.forkRet ≠ 0 := by omega
  have h1 : ¬ sys.forkRet > 0 := by omega
  simp [forkSpawn, h0, h1]

theorem forkSpawn_zero (sys : Sys) (pinfo : procinfo_t) (st : ForkState)
    (h : sys.forkRet = 0) :
    forkSpawn sys pinfo st =
      { ret := none, errno := none, proc := (forkCall sys st).proc, fds := st.fds
        trace := st.trace ++ Event.fork 0 :: forkChild sys pinfo (forkCall sys st) } := by
  simp [forkSpawn, forkCall, h]

/-- The result of `forkFail` on a state whose valid marker is clear and whose
pipe marker is set. -/
theorem forkFail_eq (sys : Sys) (st : ForkState) (h1 : st.proc.pcb.magic = 0)
    (h2 : st.proc.pcb.pipeMagic = kPipeMagic) :
    forkFail sys st =
      { ret := some (-1), errno := none
        proc := { st.proc with
                  pcb := { st.proc.pcb with
                           sRpin := (closeOwned st.proc.pcb.sRpin).1
                           sWpout := (closeOwned st.proc.pcb.sWpout).1
                           sWperr := (closeOwned st.proc.pcb.sWperr).1
                           pipeMagic := 0 } }
        fds := st.fds
        trace := st.trace ++ ((closeOwned st.proc.pcb.sRpin).2 ++
          (closeOwned st.proc.pcb.sWpout).2 ++ (closeOwned st.proc.pcb.sWperr).2) } := by
  have hv : st.proc.pcb.magic ≠ kValidMagic := by
    rw [h1]
    exact kValidMagic_ne_zero.symm
  simp only [forkFail, proc_join_of_not_valid sys st.proc hv, joinClose_of_pipe st.proc h2]

/-- Every way `proc_fork` can go. -/
theorem proc_fork_cases (sys : Sys) (p : proc_t) (pinfo : procinfo_t) (fds : List Int) :
    (conflicting pinfo.mode ∧
      proc_fork sys p pinfo fds =
        { ret := some (-1), errno := some EINVAL, proc := p, fds := fds, trace := [] }) ∨
    (¬ conflicting pinfo.mode ∧
      (p.pcb.magic = kValidMagic ∨ p.pcb.pipeMagic = kPipeMagic) ∧
      proc_fork sys p pinfo fds =
        { ret := some (-1), errno := some EAGAIN, proc := { p with retval := -1 }
          fds := fds, trace := [] }) ∨
    (¬ conflicting pinfo.mode ∧ p.pcb.magic ≠ kValidMagic ∧ p.pcb.pipeMagic ≠ kPipeMagic ∧
      ((∃ st, PipeFailed sys pinfo.mode { p with retval := -1 } st ∧
          proc_fork sys p pinfo fds = forkFail sys st) ∨
        (∃ st, Ready sys pinfo.mode { p with retval := -1 } st ∧
          proc_fork sys p pinfo fds = forkSpawn sys pinfo st))) := by
  by_cases hc : conflicting pinfo.mode
  · exact Or.inl ⟨hc, proc_fork_of_conflicting sys p pinfo fds hc⟩
  · by_cases hm : p.pcb.magic = kValidMagic ∨ p.pcb.pipeMagic = kPipeMagic
    · exact Or.inr (Or.inl ⟨hc, hm, proc_fork_of_marked sys p pinfo fds hc hm⟩)
    · push_neg at hm
      refine Or.inr (Or.inr ⟨hc, hm.1, hm.2, ?_⟩)
      rw [proc_fork_of_clear sys p pinfo fds hc hm.1 hm.2]
      apply forkLaunch_cases sys { p with retval := -1 } pinfo fds
        (fun r => (∃ st, PipeFailed sys pinfo.mode { p with retval := -1 } st ∧
          r = forkFail sys st) ∨
        (∃ st, Ready sys pinfo.mode { p with retval := -1 } st ∧ r = forkSpawn sys pinfo st))
      · intro st hst
        exact Or.inl ⟨st, hst, rfl⟩
      · intro st hst
        exact Or.inr ⟨st, hst, rfl⟩

theorem childStd_isChild (sys : Sys) (src slot devNULL : Int) (k : List Event)
    (hk : ∀ e ∈ k, e.isChild = true) :
    ∀ e ∈ childStd sys src slot devNULL k, e.isChild = true := by
  unfold childStd
  split_ifs <;> simp_all [Event.isChild]

theorem childExtra_isChild (sys : Sys) (l : List Int) (i : Int) (k : List Event)
    (hk : ∀ e ∈ k, e.isChild = true) :
    ∀ e ∈ childExtra sys l i k, e.isChild = true := by
  induction l generalizing i with
  | nil => simpa [childExtra] using hk
  | cons fd rest ih =>
    unfold childExtra
    split_ifs
    · simp [Event.isChild]
    · intro e he
      rcases List.mem_cons.mp he with rfl | he
      · rfl
      · exact ih (i + 1) e he

theorem childExec_isChild (sys : Sys) (pinfo : procinfo_t) :
    ∀ e ∈ childExec sys pinfo, e.isChild = true := by
  unfold childExec childAfterExec
  cases sys.execRet <;> split_ifs <;> simp_all [Event.isChild]

theorem forkChild_isChild (sys : Sys) (pinfo : procinfo_t) (st : ForkState) :
    ∀ e ∈ forkChild sys pinfo st, e.isChild = true := by
  unfold forkChild
  intro e he
  rcases List.mem_cons.mp he with rfl | he
  · rfl
  · split_ifs at he
    · simp at he
      subst he
      rfl
    · exact childStd_isChild _ _ _ _ _ (childStd_isChild _ _ _ _ _
        (childStd_isChild _ _ _ _ _ (childExtra_isChild _ _ _ _
          (childExec_isChild sys pinfo)))) e he

theorem forkCall_marks (sys : Sys) (p : proc_t) (st : ForkState) (hw : Wired p st) :
    (forkCall sys st).proc.pcb.magic = 0 ∧
    (forkCall sys st).proc.pcb.pipeMagic = kPipeMagic := by
  simp [forkCall, hw.magic, hw.pipeMagic]

/-- Every way `proc_fork` can go, with the fork result split by sign. -/
theorem proc_fork_outcome (sys : Sys) (p : proc_t) (pinfo : procinfo_t) (fds : List Int) :
    (conflicting pinfo.mode ∧
      proc_fork sys p pinfo fds =
        { ret := some (-1), errno := some EINVAL, proc := p, fds := fds, trace := [] }) ∨
    (¬ conflicting pinfo.mode ∧
      (p.pcb.magic = kValidMagic ∨ p.pcb.pipeMagic = kPipeMagic) ∧
      proc_fork sys p pinfo fds =
        { ret := some (-1), errno := some EAGAIN, proc := { p with retval := -1 }
          fds := fds, trace := [] }) ∨
    (¬ conflicting pinfo.mode ∧ p.pcb.magic ≠ kValidMagic ∧ p.pcb.pipeMagic ≠ kPipeMagic ∧
      ∃ st,
        (PipeFailed sys pinfo.mode { p with retval := -1 } st ∧
          proc_fork sys p pinfo fds = forkFail sys st) ∨
        (Ready sys pinfo.mode { p with retval := -1 } st ∧ sys.forkRet < 0 ∧
          proc_fork sys p pinfo fds = forkFail sys (forkCall sys st)) ∨
        (Ready sys pinfo.mode { p with retval := -1 } st ∧ sys.forkRet = 0 ∧
          proc_fork sys p pinfo fds =
            { ret := none, errno := none, proc := (forkCall sys st).proc, fds := st.fds
              trace := st.trace ++ Event.fork 0 :: forkChild sys pinfo (forkCall sys st) }) ∨
        (Ready sys pinfo.mode { p with retval := -1 } st ∧ 0 < sys.forkRet ∧
          proc_fork sys p pinfo fds =
            { ret := some 0, errno := none
              proc := { st.proc with
                        pcb := { st.proc.pcb with pid := sys.forkRet, magic := kValidMagic } }
              fds := st.fds, trace := st.trace ++ [Event.fork sys.forkRet] })) := by
  rcases proc_fork_cases sys p pinfo fds with h | h | ⟨hc, h1, h2, ⟨st, hst, e⟩ | ⟨st, hst, e⟩⟩
  · exact Or.inl h
  · exact Or.inr (Or.inl h)
  · exact Or.inr (Or.inr ⟨hc, h1, h2, st, Or.inl ⟨hst, e⟩⟩)
  · refine Or.inr (Or.inr ⟨hc, h1, h2, st, Or.inr ?_⟩)
    rcases lt_trichotomy sys.forkRet 0 with hf | hf | hf
    · exact Or.inl ⟨hst, hf, by rw [e, forkSpawn_neg sys pinfo st hf]⟩
    · exact Or.inr (Or.inl ⟨hst, hf, by rw [e, forkSpawn_zero sys pinfo st hf]⟩)
    · exact Or.inr (Or.inr ⟨hst, hf, by rw [e, forkSpawn_pos sys pinfo st hf]⟩)

/-- A launch that returns 0: the guards passed, every requested pipe was
created, `fork` returned a positive pid, and the result is the wired state
with the pid and the valid marker recorded. -/
theorem proc_fork_ok (sys : Sys) (p : proc_t) (pinfo : procinfo_t) (fds : List Int)
    (h : (proc_fork sys p pinfo fds).ret = some 0) :
    ¬ conflicting pinfo.mode ∧ p.pcb.magic ≠ kValidMagic ∧ p.pcb.pipeMagic ≠ kPipeMagic ∧
    0 < sys.forkRet ∧
    ∃ st, Ready sys pinfo.mode { p with retval := -1 } st ∧
      proc_fork sys p pinfo fds =
        { ret := some 0, errno := none
          proc := { st.proc with
                    pcb := { st.proc.pcb with pid := sys.forkRet, magic := kValidMagic } }
          fds := st.fds, trace := st.trace ++ [Event.fork sys.forkRet] } := by
  rcases proc_fork_outcome sys p pinfo fds with ⟨-, e⟩ | ⟨-, -, e⟩ |
    ⟨hc, h1, h2, st, ⟨-, e⟩ | ⟨-, -, e⟩ | ⟨-, -, e⟩ | ⟨hst, hf, e⟩⟩
  · rw [e] at h
    simp at h
  · rw [e] at h
    simp at h
  · rw [e] at h
    simp [forkFail] at h
  · rw [e] at h
    simp [forkFail] at h
  · rw [e] at h
    simp at h
  · exact ⟨hc, h1, h2, hf, st, hst, e⟩

/-- The markers of a handle after a launch that returned 0. -/
theorem proc_fork_ok_marks (sys : Sys) (p : proc_t) (pinfo : procinfo_t) (fds : List Int)
    (h : (proc_fork sys p pinfo fds).ret = some 0) :
    (proc_fork sys p pinfo fds).proc.pcb.magic = kValidMagic ∧
    (proc_fork sys p pinfo fds).proc.pcb.pipeMagic = kPipeMagic ∧
    (proc_fork sys p pinfo fds).proc.pcb.pid = sys.forkRet ∧
    0 < sys.forkRet ∧
    (proc_fork sys p pinfo fds).proc.retval = -1 := by
  obtain ⟨-, -, -, hf, st, hst, e⟩ := proc_fork_ok sys p pinfo fds h
  rw [e]
  simp [hst.wired.pipeMagic, hst.wired.retval, hf]

/-! ## Lemmas on the lifecycle -/

theorem proc_join_of_launched (sys : Sys) (p : proc_t) (h1 : p.pcb.magic = kValidMagic)
    (h2 : 0 < p.pcb.pid) (h3 : p.pcb.pipeMagic = kPipeMagic) :
    proc_join sys p =
      { proc := { p with
                  retval := sys.waitStatus.getD p.retval
                  pcb := { magic := 0, pipeMagic := 0, pid := -1
                           sRpin := (closeOwned p.pcb.sRpin).1
                           sWpout := (closeOwned p.pcb.sWpout).1
                           sWperr := (closeOwned p.pcb.sWperr).1 } }
        trace := Event.waitpid p.pcb.pid ::
          ((closeOwned p.pcb.sRpin).2 ++ (closeOwned p.pcb.sWpout).2 ++
            (closeOwned p.pcb.sWperr).2) } := by
  simp [proc_join, joinWait, joinClose, h1, h2, h3]

/-- In the Launched state the valid marker and the pipe marker are set and the
recorded pid is the positive value `fork` returned; in every other reachable
state both markers are zero. -/
theorem reach_inv (h : proc_t) (s : Option Int) (hr : Reach h s) :
    (∀ pid, s = some pid →
      h.pcb.magic = kValidMagic ∧ h.pcb.pipeMagic = kPipeMagic ∧ h.pcb.pid = pid ∧ 0 < pid ∧
        h.retval = -1) ∧
    (s = none → h.pcb.magic = 0 ∧ h.pcb.pipeMagic = 0) := by
  induction hr with
  | init h hz => simp [hz, pcbZero]
  | launched sys h s pinfo fds _ hret _ =>
    obtain ⟨a, b, c, d, e⟩ := proc_fork_ok_marks sys h pinfo fds hret
    refine ⟨?_, by simp⟩
    intro pid hpid
    injection hpid with hpid
    subst hpid
    exact ⟨a, b, c, d, e⟩
  | failed sys h s pinfo fds _ hret ih =>
    rcases proc_fork_outcome sys h pinfo fds with ⟨-, e⟩ | ⟨-, -, e⟩ |
      ⟨-, h1, h2, st, ⟨hst, e⟩ | ⟨hst, -, e⟩ | ⟨-, -, e⟩ | ⟨-, -, e⟩⟩
    · rw [e]
      exact ih
    · rw [e]
      refine ⟨?_, ih.2⟩
      intro pid hpid
      obtain ⟨a, b, c, d, -⟩ := ih.1 pid hpid
      exact ⟨a, b, c, d, rfl⟩
    · have hs : s = none := by
        cases s with
        | none => rfl
        | some pid => exact absurd (ih.1 pid rfl).1 h1
      subst hs
      rw [e, forkFail_eq sys st hst.wired.magic hst.wired.pipeMagic]
      simp [hst.wired.magic]
    · have hs : s = none := by
        cases s with
        | none => rfl
        | some pid => exact absurd (ih.1 pid rfl).1 h1
      subst hs
      obtain ⟨m1, m2⟩ := forkCall_marks sys _ st hst.wired
      rw [e, forkFail_eq sys _ m1 m2]
      simp [m1]
    · rw [e] at hret
      simp at hret
    · rw [e] at hret
      simp at hret
  | joined sys h s _ ih =>
    refine ⟨by simp, fun _ => ?_⟩
    cases s with
    | some pid =>
      obtain ⟨a, b, c, d, -⟩ := ih.1 pid rfl
      rw [proc_join_of_launched sys h a (by rw [c]; exact d) b]
      simp
    | none =>
      obtain ⟨a, b⟩ := ih.2 rfl
      have hv : h.pcb.magic ≠ kValidMagic := by
        rw [a]
        exact kValidMagic_ne_zero.symm
      have hp : h.pcb.pipeMagic ≠ kPipeMagic := by
        rw [b]
        exact kPipeMagic_ne_zero.symm
      rw [proc_join_of_not_valid sys h hv, joinClose_of_not_pipe h hp]
      exact ⟨a, b⟩

/-! ## The claims -/

/-- C1: when the mode of a launch request sets, for one stream, both the
create-pipe flag and the ownership-transfer flag (PROC_PIN with PROC_RIN,
PROC_POUT with PROC_ROUT, or PROC_PERR with PROC_RERR), then for every handle
and every descriptor table `proc_fork` returns -1 with errno EINVAL, issues no
system call at all (no pipe is created, fork is not called) and leaves the
whole handle and the descriptor table unchanged. -/
theorem proc_fork_conflict_einval (sys : Sys) (proc : proc_t) (pinfo : procinfo_t)
    (fds : List Int)
    (h : (hasFlag pinfo.mode PROC_PIN = true ∧ hasFlag pinfo.mode PROC_RIN = true) ∨
         (hasFlag pinfo.mode PROC_POUT = true ∧ hasFlag pinfo.mode PROC_ROUT = true) ∨
         (hasFlag pinfo.mode PROC_PERR = true ∧ hasFlag pinfo.mode PROC_RERR = true)) :
    proc_fork sys proc pinfo fds =
      { ret := some (-1), errno := some EINVAL, proc := proc, fds := fds, trace := [] } :=
  proc_fork_of_conflicting sys proc pinfo fds h

/-- Witness for C1: stdin with both PROC_PIN and PROC_RIN, on a zeroed handle
and the table `[5]`. -/
theorem proc_fork_conflict_einval_witness :
    ((hasFlag (infoCat (PROC_PIN ||| PROC_RIN)).mode PROC_PIN = true ∧
        hasFlag (infoCat (PROC_PIN ||| PROC_RIN)).mode PROC_RIN = true) ∨
      (hasFlag (infoCat (PROC_PIN ||| PROC_RIN)).mode PROC_POUT = true ∧
        hasFlag (infoCat (PROC_PIN ||| PROC_RIN)).mode PROC_ROUT = true) ∨
      (hasFlag (infoCat (PROC_PIN ||| PROC_RIN)).mode PROC_PERR = true ∧
        hasFlag (infoCat (PROC_PIN ||| PROC_RIN)).mode PROC_RERR = true)) ∧
    proc_fork sysOk procZero (infoCat (PROC_PIN ||| PROC_RIN)) [5] =
      { ret := some (-1), errno := some EINVAL, proc := procZero, fds := [5], trace := [] } :=
  ⟨Or.inl ⟨by decide, by decide⟩,
    proc_fork_conflict_einval sysOk procZero (infoCat (PROC_PIN ||| PROC_RIN)) [5]
      (Or.inl ⟨by decide, by decide⟩)⟩

/-- C2: on a handle in the Launched state, that is the handle left by a
`proc_fork` that returned 0 (no call that follows short of `proc_join` writes
to it), a second `proc_fork` with non-conflicting flags returns -1 with errno
EAGAIN, issues no system call (no pipe, no fork) and returns the handle -
recorded pid, pin, pout, perr, recorded child-facing ends - and the descriptor
table it was given exactly as they were. -/
theorem proc_fork_reentry_eagain (sys1 sys2 : Sys) (h0 : proc_t) (pinfo1 pinfo2 : procinfo_t)
    (fds1 fds2 : List Int)
    (hok : (proc_fork sys1 h0 pinfo1 fds1).ret = some 0)
    (hnc : ¬ conflicting pinfo2.mode) :
    proc_fork sys2 (proc_fork sys1 h0 pinfo1 fds1).proc pinfo2 fds2 =
      { ret := some (-1), errno := some EAGAIN, proc := (proc_fork sys1 h0 pinfo1 fds1).proc
        fds := fds2, trace := [] } := by
  obtain ⟨a, -, -, -, e⟩ := proc_fork_ok_marks sys1 h0 pinfo1 fds1 hok
  rw [proc_fork_of_marked sys2 _ pinfo2 fds2 hnc (Or.inl a)]
  have : ({ (proc_fork sys1 h0 pinfo1 fds1).proc with retval := -1 } : proc_t) =
      (proc_fork sys1 h0 pinfo1 fds1).proc := by
    rw [← e]
  rw [this]

/-- Witness for C2: a zeroed handle launched with a stdin pipe, then launched
again with a stdout pipe on the table the first launch left. -/
theorem proc_fork_reentry_eagain_witness :
    (proc_fork sysOk procZero (infoCat PROC_PIN) [0, 1, 2]).ret = some 0 ∧
    ¬ conflicting (infoCat PROC_POUT).mode ∧
    proc_fork sysOk (proc_fork sysOk procZero (infoCat PROC_PIN) [0, 1, 2]).proc
        (infoCat PROC_POUT) (proc_fork sysOk procZero (infoCat PROC_PIN) [0, 1, 2]).fds =
      { ret := some (-1), errno := some EAGAIN
        proc := (proc_fork sysOk procZero (infoCat PROC_PIN) [0, 1, 2]).proc
        fds := (proc_fork sysOk procZero (infoCat PROC_PIN) [0, 1, 2]).fds, trace := [] } :=
  ⟨by decide, by decide,
    proc_fork_reentry_eagain sysOk sysOk procZero (infoCat PROC_PIN) (infoCat PROC_POUT)
      [0, 1, 2] (proc_fork sysOk procZero (infoCat PROC_PIN) [0, 1, 2]).fds
      (by decide) (by decide)⟩

/-- The claim C3 fails: a zeroed handle is launched (fork returns 100) and
joined (the child 100 is waited for); a further `proc_fork` on it then returns
0, not -1, and forks a new process, 200. -/
theorem proc_fork_after_join_counterexample :
    (proc_fork sysOk procZero (infoCat PROC_NONE) []).ret = some 0 ∧
    Event.waitpid 100 ∈
      (proc_join sysOk (proc_fork sysOk procZero (infoCat PROC_NONE) []).proc).trace ∧
    (proc_fork (sysPid 200)
      (proc_join sysOk (proc_fork sysOk procZero (infoCat PROC_NONE) []).proc).proc
      (infoCat PROC_NONE) []).ret = some 0 ∧
    (proc_fork (sysPid 200)
      (proc_join sysOk (proc_fork sysOk procZero (infoCat PROC_NONE) []).proc).proc
      (infoCat PROC_NONE) []).trace = [Event.fork 200] := by
  decide

/-- A launch on a handle with both markers clear succeeds when every requested
pipe is created and fork returns a child pid, and fails only on a failed pipe
creation or a failed fork. -/
theorem proc_fork_of_clear_ret (sys : Sys) (p : proc_t) (pinfo : procinfo_t)
    (fds : List Int) (hc : ¬ conflicting pinfo.mode)
    (h1 : p.pcb.magic ≠ kValidMagic) (h2 : p.pcb.pipeMagic ≠ kPipeMagic) :
    (pipesOk sys pinfo.mode → 0 < sys.forkRet →
      (proc_fork sys p pinfo fds).ret = some 0 ∧
        Event.fork sys.forkRet ∈ (proc_fork sys p pinfo fds).trace) ∧
    ((proc_fork sys p pinfo fds).ret = some (-1) →
      ¬ pipesOk sys pinfo.mode ∨ sys.forkRet < 0) := by
  rcases proc_fork_outcome sys p pinfo fds with ⟨hc', -⟩ | ⟨-, hm, -⟩ |
    ⟨-, -, -, st, ⟨hst, e⟩ | ⟨hst, hf, e⟩ | ⟨hst, hf, e⟩ | ⟨hst, hf, e⟩⟩
  · exact absurd hc' hc
  · rcases hm with hm | hm
    · exact absurd hm h1
    · exact absurd hm h2
  · exact ⟨fun hp _ => absurd hp hst.notOk, fun _ => Or.inl hst.notOk⟩
  · exact ⟨fun _ hpos => absurd hpos (by omega), fun _ => Or.inr hf⟩
  · refine ⟨fun _ hpos => absurd hpos (by omega), fun hr => ?_⟩
    rw [e] at hr
    simp at hr
  · refine ⟨fun _ _ => ?_, fun hr => ?_⟩
    · rw [e]
      simp
    · rw [e] at hr
      simp at hr

/-- C3, amended: on a handle that has been launched successfully and then
joined, a further `proc_fork` is not rejected as a re-entry.  With
non-conflicting flags it returns 0 and forks a new process whenever every
requested pipe creation succeeds and fork returns a child pid; it returns -1
only on a flag conflict, a failed pipe creation or a failed fork. -/
theorem proc_fork_after_join (sys1 sysj sys2 : Sys) (h0 : proc_t)
    (pinfo1 pinfo2 : procinfo_t) (fds1 fds2 : List Int)
    (hok : (proc_fork sys1 h0 pinfo1 fds1).ret = some 0) :
    (¬ conflicting pinfo2.mode → pipesOk sys2 pinfo2.mode → 0 < sys2.forkRet →
      (proc_fork sys2 (proc_join sysj (proc_fork sys1 h0 pinfo1 fds1).proc).proc
          pinfo2 fds2).ret = some 0 ∧
        Event.fork sys2.forkRet ∈
          (proc_fork sys2 (proc_join sysj (proc_fork sys1 h0 pinfo1 fds1).proc).proc
            pinfo2 fds2).trace) ∧
    ((proc_fork sys2 (proc_join sysj (proc_fork sys1 h0 pinfo1 fds1).proc).proc
        pinfo2 fds2).ret = some (-1) →
      conflicting pinfo2.mode ∨ ¬ pipesOk sys2 pinfo2.mode ∨ sys2.forkRet < 0) := by
  obtain ⟨a, b, c, d, -⟩ := proc_fork_ok_marks sys1 h0 pinfo1 fds1 hok
  have hj := proc_join_of_launched sysj _ a (by rw [c]; exact d) b
  have m1 : (proc_join sysj (proc_fork sys1 h0 pinfo1 fds1).proc).proc.pcb.magic
      ≠ kValidMagic := by
    rw [hj]
    exact kValidMagic_ne_zero.symm
  have m2 : (proc_join sysj (proc_fork sys1 h0 pinfo1 fds1).proc).proc.pcb.pipeMagic
      ≠ kPipeMagic := by
    rw [hj]
    exact kPipeMagic_ne_zero.symm
  refine ⟨fun hc hp hf => (proc_fork_of_clear_ret sys2 _ pinfo2 fds2 hc m1 m2).1 hp hf,
    fun hr => ?_⟩
  by_cases hc : conflicting pinfo2.mode
  · exact Or.inl hc
  · exact Or.inr ((proc_fork_of_clear_ret sys2 _ pinfo2 fds2 hc m1 m2).2 hr)

/-- Witness for the amended C3: launch with a stdin pipe, join, launch again
with a stdout pipe. -/
theorem proc_fork_after_join_witness :
    (proc_fork sysOk procZero (infoCat PROC_PIN) []).ret = some 0 ∧
    ¬ conflicting (infoCat PROC_POUT).mode ∧ pipesOk (sysPid 200) (infoCat PROC_POUT).mode ∧
    0 < (sysPid 200).forkRet ∧
    (proc_fork (sysPid 200)
        (proc_join sysOk (proc_fork sysOk procZero (infoCat PROC_PIN) []).proc).proc
        (infoCat PROC_POUT) []).ret = some 0 ∧
    Event.fork (sysPid 200).forkRet ∈
      (proc_fork (sysPid 200)
        (proc_join sysOk (proc_fork sysOk procZero (infoCat PROC_PIN) []).proc).proc
        (infoCat PROC_POUT) []).trace :=
  ⟨by decide, by decide, by decide, by decide,
    (proc_fork_after_join sysOk sysOk (sysPid 200) procZero (infoCat PROC_PIN)
      (infoCat PROC_POUT) [] [] (by decide)).1 (by decide) (by decide) (by decide)⟩

/-- The claim C4 fails as stated: a zeroed handle is launched with the table
`[5, 5]` and ownership of both entries transferred (PROC_RIN, PROC_ROUT); the
first `proc_join` then closes descriptor 5 twice. -/
theorem proc_join_double_close_counterexample :
    (proc_fork sysOk procZero (infoCat (PROC_RIN ||| PROC_ROUT)) [5, 5]).ret = some 0 ∧
    (proc_join sysOk
      (proc_fork sysOk procZero (infoCat (PROC_RIN ||| PROC_ROUT)) [5, 5]).proc).trace =
      [Event.waitpid 100, Event.close 5, Event.close 5] ∧
    List.count (Event.close 5)
      ((proc_join sysOk
          (proc_fork sysOk procZero (infoCat (PROC_RIN ||| PROC_ROUT)) [5, 5]).proc).trace ++
        (proc_join sysOk (proc_join sysOk
          (proc_fork sysOk procZero (infoCat (PROC_RIN ||| PROC_ROUT)) [5, 5]).proc).proc).trace)
      = 2 := by
  decide

theorem count_closeOwned (fd d : Int) :
    List.count (Event.close d) (closeOwned fd).2 = if 0 ≤ fd ∧ fd = d then 1 else 0 := by
  unfold closeOwned
  by_cases h : 0 ≤ fd
  · by_cases hd : fd = d
    · subst hd
      simp [h]
    · have : ¬ (Event.close fd = Event.close d) := by
        intro he
        injection he with he
        exact hd he
      simp [h, hd, List.count_cons, this]
  · simp [h]

theorem count_closeOwned_le (fd d : Int) :
    List.count (Event.close d) (closeOwned fd).2 ≤ List.count d [fd] := by
  rw [count_closeOwned]
  by_cases hd : fd = d
  · subst hd
    simp
    split_ifs <;> omega
  · simp [hd]

/-- The calls of `proc_join`, in every handle state. -/
theorem proc_join_trace (sys : Sys) (p : proc_t) :
    ∃ w, (w = [] ∨ w = [Event.waitpid p.pcb.pid]) ∧
      ((proc_join sys p).trace = w ∨
        (proc_join sys p).trace =
          w ++ ((closeOwned p.pcb.sRpin).2 ++ (closeOwned p.pcb.sWpout).2 ++
            (closeOwned p.pcb.sWperr).2)) := by
  obtain ⟨-, -, -, f4, f5, f6, f7⟩ := joinWait_frame sys p
  refine ⟨(joinWait sys p).trace, ?_, ?_⟩
  · unfold joinWait
    split_ifs <;> simp
  · simp only [proc_join]
    by_cases hp : (joinWait sys p).proc.pcb.pipeMagic = kPipeMagic
    · right
      rw [joinClose_of_pipe _ hp, f5, f6, f7]
    · left
      rw [joinClose_of_not_pipe _ hp]
      simp

/-- `proc_join` does nothing on a handle with no child to wait for and no pipe
marker. -/
theorem proc_join_of_inert (sys : Sys) (q : proc_t)
    (hv : ¬ (q.pcb.magic = kValidMagic ∧ q.pcb.pid > 0))
    (hp : q.pcb.pipeMagic ≠ kPipeMagic) :
    proc_join sys q = { proc := q, trace := [] } := by
  have hw : joinWait sys q = { proc := q, trace := [] } := by
    simp only [joinWait, hv, if_false]
  simp only [proc_join, hw]
  rw [joinClose_of_not_pipe _ hp]
  simp

/-- A second `proc_join` right after a first one does nothing. -/
theorem proc_join_twice (sys1 sys2 : Sys) (p : proc_t) :
    proc_join sys2 (proc_join sys1 p).proc = { proc := (proc_join sys1 p).proc, trace := [] } := by
  have hp := (proc_join_frame sys1 p).2.2.2
  have hv : ¬ ((proc_join sys1 p).proc.pcb.magic = kValidMagic ∧
      (proc_join sys1 p).proc.pcb.pid > 0) := by
    obtain ⟨-, -, -, -, c5, c6, -⟩ := joinClose_frame (joinWait sys1 p).proc
    simp only [proc_join]
    rw [c5, c6]
    unfold joinWait
    split_ifs with h
    · simp [kValidMagic_ne_zero.symm]
    · exact h
  exact proc_join_of_inert sys2 _ hv hp

/-- C4, amended: `proc_join` is idempotent.  In every handle state a second
`proc_join` right after a first one issues no system call (no waitpid, no
close) and leaves the handle, the captured retval included, exactly as the
first call left it.  Over the two calls a descriptor number is closed at most
once for each owned control-block field (sRpin, sWpout, sWperr) that held it
before the first call; hence at most once when the non-negative owned fields
hold pairwise distinct descriptors. -/
theorem proc_join_idempotent (sys1 sys2 : Sys) (h : proc_t) :
    (proc_join sys2 (proc_join sys1 h).proc).trace = [] ∧
    (proc_join sys2 (proc_join sys1 h).proc).proc = (proc_join sys1 h).proc ∧
    (∀ d, List.count (Event.close d)
        ((proc_join sys1 h).trace ++ (proc_join sys2 (proc_join sys1 h).proc).trace) ≤
      List.count d [h.pcb.sRpin, h.pcb.sWpout, h.pcb.sWperr]) ∧
    ((0 ≤ h.pcb.sRpin → h.pcb.sRpin ≠ h.pcb.sWpout ∧ h.pcb.sRpin ≠ h.pcb.sWperr) →
      (0 ≤ h.pcb.sWpout → h.pcb.sWpout ≠ h.pcb.sWperr) →
      ∀ d, List.count (Event.close d)
        ((proc_join sys1 h).trace ++ (proc_join sys2 (proc_join sys1 h).proc).trace) ≤ 1) := by
  have h2 := proc_join_twice sys1 sys2 h
  have hcount : ∀ d, List.count (Event.close d) (proc_join sys1 h).trace ≤
      List.count (Event.close d) ((closeOwned h.pcb.sRpin).2 ++ (closeOwned h.pcb.sWpout).2 ++
        (closeOwned h.pcb.sWperr).2) := by
    intro d
    obtain ⟨w, hw, ht | ht⟩ := proc_join_trace sys1 h
    · rw [ht]
      rcases hw with rfl | rfl <;> simp [List.count_cons]
    · rw [ht]
      rcases hw with rfl | rfl <;> simp [List.count_cons]
  refine ⟨by rw [h2], by rw [h2], ?_, ?_⟩
  · intro d
    rw [h2, List.append_nil]
    refine le_trans (hcount d) ?_
    have a := count_closeOwned_le h.pcb.sRpin d
    have b := count_closeOwned_le h.pcb.sWpout d
    have c := count_closeOwned_le h.pcb.sWperr d
    simp only [List.count_append]
    simp only [List.count_cons, List.count_nil] at a b c ⊢
    omega
  · intro hd1 hd2 d
    rw [h2, List.append_nil]
    refine le_trans (hcount d) ?_
    simp only [List.count_append, count_closeOwned]
    split_ifs with c1 c2 c3 c3 c2 c3 <;> omega

/-- Witness for the amended C4: a handle launched with three pipes owns the
pairwise distinct descriptors 3, 6 and 8. -/
theorem proc_join_idempotent_witness :
    (0 ≤ (proc_fork sysOk procZero (infoCat 7) []).proc.pcb.sRpin →
      (proc_fork sysOk procZero (infoCat 7) []).proc.pcb.sRpin ≠
          (proc_fork sysOk procZero (infoCat 7) []).proc.pcb.sWpout ∧
        (proc_fork sysOk procZero (infoCat 7) []).proc.pcb.sRpin ≠
          (proc_fork sysOk procZero (infoCat 7) []).proc.pcb.sWperr) ∧
    (0 ≤ (proc_fork sysOk procZero (infoCat 7) []).proc.pcb.sWpout →
      (proc_fork sysOk procZero (infoCat 7) []).proc.pcb.sWpout ≠
        (proc_fork sysOk procZero (infoCat 7) []).proc.pcb.sWperr) ∧
    ∀ d, List.count (Event.close d)
      ((proc_join sysOk (proc_fork sysOk procZero (infoCat 7) []).proc).trace ++
        (proc_join sysOk
          (proc_join sysOk (proc_fork sysOk procZero (infoCat 7) []).proc).proc).trace) ≤ 1 :=
  ⟨by decide, by decide,
    (proc_join_idempotent sysOk sysOk (proc_fork sysOk procZero (infoCat 7) []).proc).2.2.2
      (by decide) (by decide)⟩

/-- C5: in every state reached from a zeroed control block in which the handle
is not Launched (never launched, launch failed, joined), `proc_kill` returns -1
with errno ECHILD for every signal number and issues no system call, so no
signal is delivered; in the Launched state it issues exactly one call,
`kill` on the pid that the launch's `fork` returned, with the given signal
number, and returns the result of that call. -/
theorem proc_kill_lifecycle (h : proc_t) (s : Option Int) (hr : Reach h s) (sys : Sys)
    (signum : Int) :
    (s = none → proc_kill sys h signum = { ret := -1, errno := some ECHILD, trace := [] }) ∧
    (∀ pid, s = some pid →
      proc_kill sys h signum =
        { ret := sys.killRet, errno := none, trace := [Event.kill pid signum] }) := by
  obtain ⟨hl, hn⟩ := reach_inv h s hr
  constructor
  · intro hs
    have hm : h.pcb.magic ≠ kValidMagic := by
      rw [(hn hs).1]
      exact kValidMagic_ne_zero.symm
    simp [proc_kill, hm]
  · intro pid hs
    obtain ⟨a, -, c, -, -⟩ := hl pid hs
    simp [proc_kill, a, c]

/-- Witness for C5: a zeroed handle that is launched (Launched), a launch that
fails at the stdout pipe (Failed), and a launched handle that is joined
(Joined), each signalled with signal 15. -/
theorem proc_kill_lifecycle_witness :
    (Reach (proc_fork sysOk procZero (infoCat PROC_PIN) []).proc (some 100) ∧
      proc_kill sysOk (proc_fork sysOk procZero (infoCat PROC_PIN) []).proc 15 =
        { ret := sysOk.killRet, errno := none, trace := [Event.kill 100 15] }) ∧
    (Reach (proc_fork sysNoPipeOut procZero (infoCat PROC_POUT) []).proc none ∧
      proc_kill sysOk (proc_fork sysNoPipeOut procZero (infoCat PROC_POUT) []).proc 15 =
        { ret := -1, errno := some ECHILD, trace := [] }) ∧
    (Reach (proc_join sysOk (proc_fork sysOk procZero (infoCat PROC_PIN) []).proc).proc none ∧
      proc_kill sysOk (proc_join sysOk (proc_fork sysOk procZero (infoCat PROC_PIN) []).proc).proc
          15 =
        { ret := -1, errno := some ECHILD, trace := [] }) :=
  ⟨⟨Reach.launched sysOk procZero none (infoCat PROC_PIN) [] (Reach.init procZero rfl)
        (by decide),
      (proc_kill_lifecycle _ _
        (Reach.launched sysOk procZero none (infoCat PROC_PIN) [] (Reach.init procZero rfl)
          (by decide)) sysOk 15).2 100 rfl⟩,
    ⟨Reach.failed sysNoPipeOut procZero none (infoCat PROC_POUT) [] (Reach.init procZero rfl)
        (by decide),
      (proc_kill_lifecycle _ _
        (Reach.failed sysNoPipeOut procZero none (infoCat PROC_POUT) []
          (Reach.init procZero rfl) (by decide)) sysOk 15).1 rfl⟩,
    ⟨Reach.joined sysOk _ _
        (Reach.launched sysOk procZero none (infoCat PROC_PIN) [] (Reach.init procZero rfl)
          (by decide)),
      (proc_kill_lifecycle _ _
        (Reach.joined sysOk _ _
          (Reach.launched sysOk procZero none (infoCat PROC_PIN) []
            (Reach.init procZero rfl) (by decide))) sysOk 15).1 rfl⟩⟩

/-- C6: in every state reached from a zeroed control block, `proc_pid` returns
the child's process id - the positive value `fork` returned to the launch -
exactly while the handle is Launched (after a `proc_fork` that returned 0 and
before `proc_join`); in every other state (before launch, after a failed
launch, after join) it returns -1, never the pid of a reaped child. -/
theorem proc_pid_lifecycle (h : proc_t) (s : Option Int) (hr : Reach h s) :
    (∀ pid, s = some pid → proc_pid h = pid ∧ 0 < pid) ∧
    (s = none → proc_pid h = -1) := by
  obtain ⟨hl, hn⟩ := reach_inv h s hr
  constructor
  · intro pid hs
    obtain ⟨a, -, c, d, -⟩ := hl pid hs
    simp [proc_pid, a, c, d]
  · intro hs
    have hm : h.pcb.magic ≠ kValidMagic := by
      rw [(hn hs).1]
      exact kValidMagic_ne_zero.symm
    simp [proc_pid, hm]

/-- Witness for C6: the pid is 100 after the launch and -1 after the join. -/
theorem proc_pid_lifecycle_witness :
    (Reach (proc_fork sysOk procZero (infoCat PROC_POUT) [0, 1, 2]).proc (some 100) ∧
      proc_pid (proc_fork sysOk procZero (infoCat PROC_POUT) [0, 1, 2]).proc = 100) ∧
    (Reach (proc_join sysOk (proc_fork sysOk procZero (infoCat PROC_POUT) [0, 1, 2]).proc).proc
        none ∧
      proc_pid (proc_join sysOk (proc_fork sysOk procZero (infoCat PROC_POUT) [0, 1, 2]).proc).proc
        = -1) :=
  ⟨⟨Reach.launched sysOk procZero none (infoCat PROC_POUT) [0, 1, 2]
        (Reach.init procZero rfl) (by decide),
      ((proc_pid_lifecycle _ _
        (Reach.launched sysOk procZero none (infoCat PROC_POUT) [0, 1, 2]
          (Reach.init procZero rfl) (by decide))).1 100 rfl).1⟩,
    ⟨Reach.joined sysOk _ _
        (Reach.launched sysOk procZero none (infoCat PROC_POUT) [0, 1, 2]
          (Reach.init procZero rfl) (by decide)),
      (proc_pid_lifecycle _ _
        (Reach.joined sysOk _ _
          (Reach.launched sysOk procZero none (infoCat PROC_POUT) [0, 1, 2]
            (Reach.init procZero rfl) (by decide)))).2 rfl⟩⟩

/-! ## Lemmas on a failed launch -/

/-- What `forkFail` returns on a state whose valid marker is clear and whose
pipe marker is set. -/
theorem forkFail_facts (sys : Sys) (st : ForkState) (m1 : st.proc.pcb.magic = 0)
    (m2 : st.proc.pcb.pipeMagic = kPipeMagic) :
    (forkFail sys st).ret = some (-1) ∧ (forkFail sys st).proc.pcb.magic = 0 ∧
    (forkFail sys st).proc.pin = st.proc.pin ∧ (forkFail sys st).proc.pout = st.proc.pout ∧
    (forkFail sys st).proc.perr = st.proc.perr ∧
    (∀ e, e ∈ (forkFail sys st).trace → e ∈ st.trace ∨ ∃ fd, e = Event.close fd) ∧
    (∀ e, e ∈ st.trace → e ∈ (forkFail sys st).trace) ∧
    (0 ≤ st.proc.pcb.sRpin → Event.close st.proc.pcb.sRpin ∈ (forkFail sys st).trace) ∧
    (0 ≤ st.proc.pcb.sWpout → Event.close st.proc.pcb.sWpout ∈ (forkFail sys st).trace) ∧
    (0 ≤ st.proc.pcb.sWperr → Event.close st.proc.pcb.sWperr ∈ (forkFail sys st).trace) := by
  rw [forkFail_eq sys st m1 m2]
  refine ⟨rfl, m1, rfl, rfl, rfl, ?_, ?_, ?_, ?_, ?_⟩
  · intro e he
    simp only [List.mem_append] at he
    rcases he with he | (he | he) | he
    · exact Or.inl he
    · exact Or.inr ⟨_, (mem_closeOwned _ _ he).1⟩
    · exact Or.inr ⟨_, (mem_closeOwned _ _ he).1⟩
    · exact Or.inr ⟨_, (mem_closeOwned _ _ he).1⟩
  · intro e he
    simp only [List.mem_append]
    exact Or.inl he
  · intro h
    simp only [List.mem_append]
    exact Or.inr (Or.inl (Or.inl (closeOwned_mem _ h)))
  · intro h
    simp only [List.mem_append]
    exact Or.inr (Or.inl (Or.inr (closeOwned_mem _ h)))
  · intro h
    simp only [List.mem_append]
    exact Or.inr (Or.inr (closeOwned_mem _ h))

/-- A handle whose valid marker is zero is not Launched for `proc_pid`,
`proc_kill` and `proc_join`. -/
theorem not_launched_of_magic_zero (q : proc_t) (hm : q.pcb.magic = 0) :
    proc_pid q = -1 ∧
    (∀ sysk signum, proc_kill sysk q signum =
      { ret := -1, errno := some ECHILD, trace := [] }) ∧
    (∀ sysj pid, Event.waitpid pid ∉ (proc_join sysj q).trace) := by
  have hv : q.pcb.magic ≠ kValidMagic := by
    rw [hm]
    exact kValidMagic_ne_zero.symm
  refine ⟨by simp [proc_pid, hv], fun sysk signum => by simp [proc_kill, hv], ?_⟩
  intro sysj pid hmem
  rw [proc_join_of_not_valid sysj q hv] at hmem
  obtain ⟨fd, hfd, -⟩ := mem_joinClose q _ hmem
  cases hfd

/-- The pipe ends recorded in a state survive `forkFail`, which closes the
child-facing one. -/
theorem forkFail_pipe_ends (sys : Sys) (st : ForkState) (m1 : st.proc.pcb.magic = 0)
    (m2 : st.proc.pcb.pipeMagic = kPipeMagic)
    (hin : ∀ r w, Event.pipe2 Stream.stdin (some (r, w)) ∈ st.trace →
      st.proc.pcb.sRpin = r ∧ st.proc.pin = w)
    (hout : ∀ r w, Event.pipe2 Stream.stdout (some (r, w)) ∈ st.trace →
      st.proc.pcb.sWpout = w ∧ st.proc.pout = r)
    (herr : ∀ r w, Event.pipe2 Stream.stderr (some (r, w)) ∈ st.trace →
      st.proc.pcb.sWperr = w ∧ st.proc.perr = r) :
    (∀ r w, Event.pipe2 Stream.stdin (some (r, w)) ∈ (forkFail sys st).trace →
      (forkFail sys st).proc.pin = w ∧ (0 ≤ r → Event.close r ∈ (forkFail sys st).trace)) ∧
    (∀ r w, Event.pipe2 Stream.stdout (some (r, w)) ∈ (forkFail sys st).trace →
      (forkFail sys st).proc.pout = r ∧ (0 ≤ w → Event.close w ∈ (forkFail sys st).trace)) ∧
    (∀ r w, Event.pipe2 Stream.stderr (some (r, w)) ∈ (forkFail sys st).trace →
      (forkFail sys st).proc.perr = r ∧ (0 ≤ w → Event.close w ∈ (forkFail sys st).trace)) := by
  obtain ⟨-, -, f3, f4, f5, f6, -, f8, f9, f10⟩ := forkFail_facts sys st m1 m2
  refine ⟨?_, ?_, ?_⟩
  · intro r w hmem
    rcases f6 _ hmem with hm | ⟨fd, hfd⟩
    · obtain ⟨a, b⟩ := hin r w hm
      exact ⟨f3.trans b, fun hr => a ▸ f8 (a ▸ hr)⟩
    · cases hfd
  · intro r w hmem
    rcases f6 _ hmem with hm | ⟨fd, hfd⟩
    · obtain ⟨a, b⟩ := hout r w hm
      exact ⟨f4.trans b, fun hr => a ▸ f9 (a ▸ hr)⟩
    · cases hfd
  · intro r w hmem
    rcases f6 _ hmem with hm | ⟨fd, hfd⟩
    · obtain ⟨a, b⟩ := herr r w hm
      exact ⟨f5.trans b, fun hr => a ▸ f10 (a ▸ hr)⟩
    · cases hfd

/-- The pipe ends recorded before `fork` are still recorded after it. -/
theorem forkCall_pipe_ends (sys : Sys) (p : proc_t) (st : ForkState) (hw : Wired p st) :
    (∀ r w, Event.pipe2 Stream.stdin (some (r, w)) ∈ (forkCall sys st).trace →
      (forkCall sys st).proc.pcb.sRpin = r ∧ (forkCall sys st).proc.pin = w) ∧
    (∀ r w, Event.pipe2 Stream.stdout (some (r, w)) ∈ (forkCall sys st).trace →
      (forkCall sys st).proc.pcb.sWpout = w ∧ (forkCall sys st).proc.pout = r) ∧
    (∀ r w, Event.pipe2 Stream.stderr (some (r, w)) ∈ (forkCall sys st).trace →
      (forkCall sys st).proc.pcb.sWperr = w ∧ (forkCall sys st).proc.perr = r) := by
  refine ⟨?_, ?_, ?_⟩ <;> intro r w hmem <;> simp [forkCall] at hmem
  · exact hw.stdinEnds r w hmem
  · exact hw.stdoutEnds r w hmem
  · exact hw.stderrEnds r w hmem

/-- C8: in every launch in which a pipe creation fails, `fork` is never
called; and in every launch in which a pipe creation or `fork` fails,
`proc_fork` returns -1 and leaves the handle not Launched: afterwards
`proc_pid` returns -1, `proc_kill` fails with ECHILD without signalling, and
`proc_join` issues no `waitpid`. -/
theorem proc_fork_failure_not_launched (sys : Sys) (p : proc_t) (pinfo : procinfo_t)
    (fds : List Int) :
    ((∃ s, Event.pipe2 s none ∈ (proc_fork sys p pinfo fds).trace) →
      ∀ x, Event.fork x ∉ (proc_fork sys p pinfo fds).trace) ∧
    (((∃ s, Event.pipe2 s none ∈ (proc_fork sys p pinfo fds).trace) ∨
        (∃ x, x < 0 ∧ Event.fork x ∈ (proc_fork sys p pinfo fds).trace)) →
      (proc_fork sys p pinfo fds).ret = some (-1) ∧
      proc_pid (proc_fork sys p pinfo fds).proc = -1 ∧
      (∀ sysk signum, proc_kill sysk (proc_fork sys p pinfo fds).proc signum =
        { ret := -1, errno := some ECHILD, trace := [] }) ∧
      (∀ sysj pid, Event.waitpid pid ∉
        (proc_join sysj (proc_fork sys p pinfo fds).proc).trace)) := by
  rcases proc_fork_outcome sys p pinfo fds with ⟨-, e⟩ | ⟨-, -, e⟩ |
    ⟨-, -, -, st, ⟨hst, e⟩ | ⟨hst, hf, e⟩ | ⟨hst, hf, e⟩ | ⟨hst, hf, e⟩⟩
  · rw [e]
    simp
  · rw [e]
    simp
  · rw [e]
    obtain ⟨f1, f2, -, -, -, f6, -⟩ :=
      forkFail_facts sys st hst.wired.magic hst.wired.pipeMagic
    refine ⟨fun _ x hx => ?_, fun _ => ⟨f1, not_launched_of_magic_zero _ f2⟩⟩
    rcases f6 _ hx with hm | ⟨fd, hfd⟩
    · obtain ⟨s, y, hy⟩ := hst.wired.onlyPipes _ hm
      cases hy
    · cases hfd
  · rw [e]
    obtain ⟨m1, m2⟩ := forkCall_marks sys _ st hst.wired
    obtain ⟨f1, f2, -, -, -, f6, -⟩ := forkFail_facts sys (forkCall sys st) m1 m2
    refine ⟨fun hpre => ?_, fun _ => ⟨f1, not_launched_of_magic_zero _ f2⟩⟩
    obtain ⟨s, hs⟩ := hpre
    rcases f6 _ hs with hm | ⟨fd, hfd⟩
    · simp [forkCall] at hm
      exact absurd hm (hst.noFailure s)
    · cases hfd
  · rw [e]
    have hchild : ∀ e' ∈ forkChild sys pinfo (forkCall sys st), e'.isChild = true :=
      forkChild_isChild sys pinfo (forkCall sys st)
    have hnopipe : ¬ ∃ s, Event.pipe2 s none ∈
        st.trace ++ Event.fork 0 :: forkChild sys pinfo (forkCall sys st) := by
      rintro ⟨s, hs⟩
      simp only [List.mem_append, List.mem_cons] at hs
      rcases hs with hs | hs | hs
      · exact hst.noFailure s hs
      · cases hs
      · have := hchild _ hs
        simp [Event.isChild] at this
    have hnofork : ¬ ∃ x, x < 0 ∧ Event.fork x ∈
        st.trace ++ Event.fork 0 :: forkChild sys pinfo (forkCall sys st) := by
      rintro ⟨x, hx, hs⟩
      simp only [List.mem_append, List.mem_cons] at hs
      rcases hs with hs | hs | hs
      · obtain ⟨s, y, hy⟩ := hst.wired.onlyPipes _ hs
        cases hy
      · injection hs with hs
        omega
      · have := hchild _ hs
        simp [Event.isChild] at this
    refine ⟨fun hpre => absurd hpre hnopipe, fun hpre => ?_⟩
    rcases hpre with hpre | hpre
    · exact absurd hpre hnopipe
    · exact absurd hpre hnofork
  · rw [e]
    have hnopipe : ¬ ∃ s, Event.pipe2 s none ∈ st.trace ++ [Event.fork sys.forkRet] := by
      rintro ⟨s, hs⟩
      simp only [List.mem_append, List.mem_singleton] at hs
      rcases hs with hs | hs
      · exact hst.noFailure s hs
      · cases hs
    have hnofork : ¬ ∃ x, x < 0 ∧ Event.fork x ∈ st.trace ++ [Event.fork sys.forkRet] := by
      rintro ⟨x, hx, hs⟩
      simp only [List.mem_append, List.mem_singleton] at hs
      rcases hs with hs | hs
      · obtain ⟨s, y, hy⟩ := hst.wired.onlyPipes _ hs
        cases hy
      · injection hs with hs
        omega
    refine ⟨fun hpre => absurd hpre hnopipe, fun hpre => ?_⟩
    rcases hpre with hpre | hpre
    · exact absurd hpre hnopipe
    · exact absurd hpre hnofork

/-- Witness for C8: a launch whose stdout pipe creation fails, and a launch
whose `fork` returns -1. -/
theorem proc_fork_failure_not_launched_witness :
    ((∃ s, Event.pipe2 s none ∈
        (proc_fork sysNoPipeOut procZero (infoCat PROC_POUT) [0, 1, 2]).trace) ∧
      (∀ x, Event.fork x ∉
        (proc_fork sysNoPipeOut procZero (infoCat PROC_POUT) [0, 1, 2]).trace) ∧
      (proc_fork sysNoPipeOut procZero (infoCat PROC_POUT) [0, 1, 2]).ret = some (-1)) ∧
    ((∃ x, x < 0 ∧ Event.fork x ∈
        (proc_fork (sysPid (-1)) procZero (infoCat PROC_POUT) [0, 1, 2]).trace) ∧
      (proc_fork (sysPid (-1)) procZero (infoCat PROC_POUT) [0, 1, 2]).ret = some (-1) ∧
      proc_pid (proc_fork (sysPid (-1)) procZero (infoCat PROC_POUT) [0, 1, 2]).proc = -1) :=
  ⟨⟨⟨Stream.stdout, by decide⟩,
      (proc_fork_failure_not_launched sysNoPipeOut procZero (infoCat PROC_POUT) [0, 1, 2]).1
        ⟨Stream.stdout, by decide⟩,
      ((proc_fork_failure_not_launched sysNoPipeOut procZero (infoCat PROC_POUT) [0, 1, 2]).2
        (Or.inl ⟨Stream.stdout, by decide⟩)).1⟩,
    ⟨⟨-1, by decide, by decide⟩,
      ((proc_fork_failure_not_launched (sysPid (-1)) procZero (infoCat PROC_POUT) [0, 1, 2]).2
        (Or.inr ⟨-1, by decide, by decide⟩)).1,
      ((proc_fork_failure_not_launched (sysPid (-1)) procZero (infoCat PROC_POUT) [0, 1, 2]).2
        (Or.inr ⟨-1, by decide, by decide⟩)).2.1⟩⟩

/-! ## Lemmas on a successful launch -/

/-- Without a `close`, every descriptor open before stays open and both ends
of every pipe created are open afterwards. -/
theorem openPipeFds_of_no_close (t : List Event) (acc : List Int)
    (hnc : ∀ fd, Event.close fd ∉ t) :
    (∀ x ∈ acc, x ∈ openPipeFds t acc) ∧
    (∀ s r w, Event.pipe2 s (some (r, w)) ∈ t →
      r ∈ openPipeFds t acc ∧ w ∈ openPipeFds t acc) := by
  induction t generalizing acc with
  | nil => simp [openPipeFds]
  | cons e t ih =>
    have hnc' : ∀ fd, Event.close fd ∉ t := fun fd hfd => hnc fd (List.mem_cons_of_mem _ hfd)
    cases e with
    | pipe2 s0 res =>
      cases res with
      | none =>
        simp only [openPipeFds]
        refine ⟨(ih acc hnc').1, fun s r w hmem => ?_⟩
        rcases List.mem_cons.mp hmem with h | h
        · cases h
        · exact (ih acc hnc').2 s r w h
      | some rw0 =>
        obtain ⟨r0, w0⟩ := rw0
        simp only [openPipeFds]
        obtain ⟨i1, i2⟩ := ih (acc ++ [r0, w0]) hnc'
        refine ⟨fun x hx => i1 x (by simp [hx]), fun s r w hmem => ?_⟩
        rcases List.mem_cons.mp hmem with h | h
        · injection h with _ h
          injection h with h
          injection h with h1 h2
          subst h1
          subst h2
          exact ⟨i1 r (by simp), i1 w (by simp)⟩
        · exact i2 s r w h
    | close fd => exact absurd (List.mem_cons_self _ _) (hnc fd)
    | fork _ | waitpid _ | kill _ _ | openDevNull _ | dup2 _ _ _ | malloc _ | execv _ _
    | execvpe _ _ _ | exit _ =>
      simp only [openPipeFds]
      refine ⟨(ih acc hnc').1, fun s r w hmem => ?_⟩
      rcases List.mem_cons.mp hmem with h | h
      · cases h
      · exact (ih acc hnc').2 s r w h

/-- The claim C9 fails: a zeroed handle is launched with PROC_PIN, the pipe
being (3, 4) and the child 100.  `proc_fork` returns 0 having closed nothing:
the parent holds both ends of the pipe, the write end 4 in pin and the
child-facing read end 3, still open, in the control block. -/
theorem proc_fork_ok_counterexample :
    (proc_fork sysOk procZero (infoCat PROC_PIN) []).ret = some 0 ∧
    (proc_fork sysOk procZero (infoCat PROC_PIN) []).trace =
      [Event.pipe2 Stream.stdin (some (3, 4)), Event.fork 100] ∧
    Event.close 3 ∉ (proc_fork sysOk procZero (infoCat PROC_PIN) []).trace ∧
    openPipeFds (proc_fork sysOk procZero (infoCat PROC_PIN) []).trace [] = [3, 4] ∧
    (proc_fork sysOk procZero (infoCat PROC_PIN) []).proc.pin = 4 ∧
    (proc_fork sysOk procZero (infoCat PROC_PIN) []).proc.pcb.sRpin = 3 := by
  decide

/-- C9, amended: when `proc_fork` returns 0 the launch has closed no
descriptor, so for every stream whose create-pipe flag is set the parent holds
both ends of that stream's pipe open: the end stored in pin / pout / perr and
the child-facing end, which the launch records in the control block (sRpin /
sWpout / sWperr) and which the following `proc_join` closes. -/
theorem proc_fork_ok_both_ends (sys : Sys) (p : proc_t) (pinfo : procinfo_t)
    (fds : List Int) (hok : (proc_fork sys p pinfo fds).ret = some 0) :
    (∀ fd, Event.close fd ∉ (proc_fork sys p pinfo fds).trace) ∧
    (hasFlag pinfo.mode PROC_PIN = true →
      ∃ r w, Event.pipe2 Stream.stdin (some (r, w)) ∈ (proc_fork sys p pinfo fds).trace ∧
        (proc_fork sys p pinfo fds).proc.pin = w ∧
        (proc_fork sys p pinfo fds).proc.pcb.sRpin = r ∧
        r ∈ openPipeFds (proc_fork sys p pinfo fds).trace [] ∧
        w ∈ openPipeFds (proc_fork sys p pinfo fds).trace [] ∧
        ∀ sysj, 0 ≤ r →
          Event.close r ∈ (proc_join sysj (proc_fork sys p pinfo fds).proc).trace) ∧
    (hasFlag pinfo.mode PROC_POUT = true →
      ∃ r w, Event.pipe2 Stream.stdout (some (r, w)) ∈ (proc_fork sys p pinfo fds).trace ∧
        (proc_fork sys p pinfo fds).proc.pout = r ∧
        (proc_fork sys p pinfo fds).proc.pcb.sWpout = w ∧
        r ∈ openPipeFds (proc_fork sys p pinfo fds).trace [] ∧
        w ∈ openPipeFds (proc_fork sys p pinfo fds).trace [] ∧
        ∀ sysj, 0 ≤ w →
          Event.close w ∈ (proc_join sysj (proc_fork sys p pinfo fds).proc).trace) ∧
    (hasFlag pinfo.mode PROC_PERR = true →
      ∃ r w, Event.pipe2 Stream.stderr (some (r, w)) ∈ (proc_fork sys p pinfo fds).trace ∧
        (proc_fork sys p pinfo fds).proc.perr = r ∧
        (proc_fork sys p pinfo fds).proc.pcb.sWperr = w ∧
        r ∈ openPipeFds (proc_fork sys p pinfo fds).trace [] ∧
        w ∈ openPipeFds (proc_fork sys p pinfo fds).trace [] ∧
        ∀ sysj, 0 ≤ w →
          Event.close w ∈ (proc_join sysj (proc_fork sys p pinfo fds).proc).trace) := by
  obtain ⟨m1, m2, m3, m4, -⟩ := proc_fork_ok_marks sys p pinfo fds hok
  have hpid : 0 < (proc_fork sys p pinfo fds).proc.pcb.pid := by
    rw [m3]
    exact m4
  have hjoin : ∀ sysj, _ := fun sysj =>
    proc_join_of_launched sysj (proc_fork sys p pinfo fds).proc m1 hpid m2
  obtain ⟨-, -, -, -, st, hst, e⟩ := proc_fork_ok sys p pinfo fds hok
  have hnc : ∀ fd, Event.close fd ∉ (proc_fork sys p pinfo fds).trace := by
    intro fd hfd
    rw [e] at hfd
    simp only [List.mem_append, List.mem_singleton] at hfd
    rcases hfd with h | h
    · obtain ⟨s, y, hy⟩ := hst.wired.onlyPipes _ h
      cases hy
    · cases h
  have hopen := (openPipeFds_of_no_close (proc_fork sys p pinfo fds).trace [] hnc).2
  have hsub : ∀ e', e' ∈ st.trace → e' ∈ (proc_fork sys p pinfo fds).trace := by
    intro e' he'
    rw [e]
    simp [he']
  have hin : (proc_fork sys p pinfo fds).proc.pin = st.proc.pin ∧
      (proc_fork sys p pinfo fds).proc.pout = st.proc.pout ∧
      (proc_fork sys p pinfo fds).proc.perr = st.proc.perr ∧
      (proc_fork sys p pinfo fds).proc.pcb.sRpin = st.proc.pcb.sRpin ∧
      (proc_fork sys p pinfo fds).proc.pcb.sWpout = st.proc.pcb.sWpout ∧
      (proc_fork sys p pinfo fds).proc.pcb.sWperr = st.proc.pcb.sWperr := by
    rw [e]
    simp
  obtain ⟨g1, g2, g3, g4, g5, g6⟩ := hin
  refine ⟨hnc, ?_, ?_, ?_⟩
  · intro hf
    obtain ⟨r, w, -, hmem⟩ := hst.stdinPipe hf
    obtain ⟨a, b⟩ := hst.wired.stdinEnds r w hmem
    refine ⟨r, w, hsub _ hmem, g1.trans b, g4.trans a, (hopen _ r w (hsub _ hmem)).1,
      (hopen _ r w (hsub _ hmem)).2, fun sysj hr => ?_⟩
    rw [hjoin sysj, g4, a]
    simp [closeOwned_mem r hr]
  · intro hf
    obtain ⟨r, w, -, hmem⟩ := hst.stdoutPipe hf
    obtain ⟨a, b⟩ := hst.wired.stdoutEnds r w hmem
    refine ⟨r, w, hsub _ hmem, g2.trans b, g5.trans a, (hopen _ r w (hsub _ hmem)).1,
      (hopen _ r w (hsub _ hmem)).2, fun sysj hr => ?_⟩
    rw [hjoin sysj, g5, a]
    simp [closeOwned_mem w hr]
  · intro hf
    obtain ⟨r, w, -, hmem⟩ := hst.stderrPipe hf
    obtain ⟨a, b⟩ := hst.wired.stderrEnds r w hmem
    refine ⟨r, w, hsub _ hmem, g3.trans b, g6.trans a, (hopen _ r w (hsub _ hmem)).1,
      (hopen _ r w (hsub _ hmem)).2, fun sysj hr => ?_⟩
    rw [hjoin sysj, g6, a]
    simp [closeOwned_mem w hr]

/-- Witness for the amended C9: a launch with a stdout pipe closes nothing. -/
theorem proc_fork_ok_both_ends_witness :
    (proc_fork sysOk procZero (infoCat PROC_POUT) [0, 1, 2]).ret = some 0 ∧
    ∀ fd, Event.close fd ∉ (proc_fork sysOk procZero (infoCat PROC_POUT) [0, 1, 2]).trace :=
  ⟨by decide,
    (proc_fork_ok_both_ends sysOk procZero (infoCat PROC_POUT) [0, 1, 2] (by decide)).1⟩

/-- C10, the code at the failing input: a zeroed handle is launched with
PROC_PIN, the pipe being (3, 4) and the child 100.  The launch stores the
write end 4 in pin; `proc_join` waits for the child and closes the read end 3
only, so the write end 4 is not closed and pin still holds it. -/
theorem proc_join_leaves_pin_open :
    (proc_fork sysOk procZero (infoCat PROC_PIN) []).ret = some 0 ∧
    (proc_fork sysOk procZero (infoCat PROC_PIN) []).proc.pin = 4 ∧
    (proc_join sysOk (proc_fork sysOk procZero (infoCat PROC_PIN) []).proc).trace =
      [Event.waitpid 100, Event.close 3] ∧
    Event.close 4 ∉
      (proc_join sysOk (proc_fork sysOk procZero (infoCat PROC_PIN) []).proc).trace ∧
    (proc_join sysOk (proc_fork sysOk procZero (infoCat PROC_PIN) []).proc).proc.pin = 4 ∧
    openPipeFds
      ((proc_fork sysOk procZero (infoCat PROC_PIN) []).trace ++
        (proc_join sysOk (proc_fork sysOk procZero (infoCat PROC_PIN) []).proc).trace) []
      = [4] := by
  decide

/-! ## Lemmas on the descriptor table and the resolved descriptors -/

theorem forkScan_blank_plain (mode : Nat) (p : proc_t) (fds : List Int) :
    Plain mode p fds (forkScan mode (forkBlank p fds)) ∧
    (forkScan mode (forkBlank p fds)).fds = fds ∧
    (forkScan mode (forkBlank p fds)).proc.pout = -1 ∧
    (forkScan mode (forkBlank p fds)).proc.perr = -1 := by
  rw [forkScan_eq]
  refine ⟨⟨?_, ?_, ?_, ?_, ?_⟩, ?_, ?_, ?_⟩ <;> simp [forkBlank]

theorem forkScan_blank_fields (mode : Nat) (p : proc_t) (fds : List Int) :
    (forkScan mode (forkBlank p fds)).fds = fds ∧
    (forkScan mode (forkBlank p fds)).proc.pin = -1 ∧
    (forkScan mode (forkBlank p fds)).proc.pout = -1 ∧
    (forkScan mode (forkBlank p fds)).proc.perr = -1 ∧
    (forkScan mode (forkBlank p fds)).pinsR =
      (if 1 ≤ fds.length then fds.getD 0 (-1) else -1) ∧
    (forkScan mode (forkBlank p fds)).poutsW =
      (if 2 ≤ fds.length then fds.getD 1 (-1) else -1) ∧
    (forkScan mode (forkBlank p fds)).perrsW =
      (if 3 ≤ fds.length then fds.getD 2 (-1) else -1) ∧
    (forkScan mode (forkBlank p fds)).proc.pcb.sRpin =
      (if 1 ≤ fds.length ∧ hasFlag mode PROC_RIN = true then fds.getD 0 (-1)
       else p.pcb.sRpin) ∧
    (forkScan mode (forkBlank p fds)).proc.pcb.sWpout =
      (if 2 ≤ fds.length ∧ hasFlag mode PROC_ROUT = true then fds.getD 1 (-1) else -1) ∧
    (forkScan mode (forkBlank p fds)).proc.pcb.sWperr =
      (if 3 ≤ fds.length ∧ hasFlag mode PROC_RERR = true then fds.getD 2 (-1) else -1) := by
  rw [forkScan_eq]
  simp [forkBlank]

theorem set_guard (l l' : List Int) (x : Int) (h : l'.length = l.length) :
    (if 1 ≤ l.length then l'.set 0 x else l') = l'.set 0 x ∧
    (if 2 ≤ l.length then l'.set 1 x else l') = l'.set 1 x ∧
    (if 3 ≤ l.length then l'.set 2 x else l') = l'.set 2 x := by
  refine ⟨?_, ?_, ?_⟩ <;> split_ifs with h' <;>
    first | rfl | (symm; apply List.set_eq_of_length_le; omega)

/-- The launch proper ends in `forkFail` on a state in which a pipe creation
has failed, or in `forkSpawn` on a state in which every requested pipe exists;
both states are described relative to the handle and the table the launch
started from. -/
theorem forkLaunch_cases_full (sys : Sys) (p : proc_t) (pinfo : procinfo_t) (fds : List Int)
    (P : ForkResult → Prop)
    (hfail : ∀ st, PipeFailed sys pinfo.mode p st → Plain pinfo.mode p fds st →
      P (forkFail sys st))
    (hready : ∀ st, Ready sys pinfo.mode p st → Plain pinfo.mode p fds st →
      Piped sys pinfo.mode fds st → P (forkSpawn sys pinfo st)) :
    P (forkLaunch sys p pinfo fds) := by
  obtain ⟨hw, ht⟩ := forkScan_blank_wired pinfo.mode p fds
  obtain ⟨g1, g2, g3, g4, g5, g6, g7, g8, g9, g10⟩ := forkScan_blank_fields pinfo.mode p fds
  have s1 := fun l l' x h => (set_guard l l' x h).1
  have s2 := fun l l' x h => (set_guard l l' x h).2.1
  have s3 := fun l l' x h => (set_guard l l' x h).2.2
  unfold forkLaunch
  generalize forkScan pinfo.mode (forkBlank p fds) = st0 at hw ht g1 g2 g3 g4 g5 g6 g7 g8 g9 g10
  obtain ⟨h1, h2, h3, h4, -, -, -, -⟩ := hw
  split
  · rename_i st hI
    obtain ⟨fI, oI, rfl⟩ := forkPipeIn_error _ _ _ _ hI
    clear hI
    refine hfail _ ⟨⟨?_, ?_, ?_, ?_, ?_, ?_, ?_, ?_⟩, ?_, ?_⟩ ⟨?_, ?_, ?_, ?_, ?_⟩ <;>
      simp [*, pipesOk]
  · rename_i st1 hI
    split
    · rename_i st hO
      obtain ⟨fO, oO, rfl⟩ := forkPipeOut_error _ _ _ _ hO
      clear hO
      rcases forkPipeIn_ok _ _ _ _ hI with ⟨fI, rfl⟩ | ⟨r1, w1, fI, oI, rfl⟩ <;> clear hI <;>
        refine hfail _ ⟨⟨?_, ?_, ?_, ?_, ?_, ?_, ?_, ?_⟩, ?_, ?_⟩ ⟨?_, ?_, ?_, ?_, ?_⟩ <;>
        simp [*, pipesOk, List.drop_set_of_lt]
    · rename_i st2 hO
      split
      · rename_i st hE
        obtain ⟨fE, oE, rfl⟩ := forkPipeErr_error _ _ _ _ hE
        clear hE
        rcases forkPipeOut_ok _ _ _ _ hO with ⟨fO, rfl⟩ | ⟨r2, w2, fO, oO, rfl⟩ <;>
          rcases forkPipeIn_ok _ _ _ _ hI with ⟨fI, rfl⟩ | ⟨r1, w1, fI, oI, rfl⟩ <;>
          clear hI hO <;>
          refine hfail _ ⟨⟨?_, ?_, ?_, ?_, ?_, ?_, ?_, ?_⟩, ?_, ?_⟩ ⟨?_, ?_, ?_, ?_, ?_⟩ <;>
          simp [*, pipesOk, List.drop_set_of_lt]
      · rename_i st3 hE
        rcases forkPipeErr_ok _ _ _ _ hE with ⟨fE, rfl⟩ | ⟨r3, w3, fE, oE, rfl⟩ <;>
          rcases forkPipeOut_ok _ _ _ _ hO with ⟨fO, rfl⟩ | ⟨r2, w2, fO, oO, rfl⟩ <;>
          rcases forkPipeIn_ok _ _ _ _ hI with ⟨fI, rfl⟩ | ⟨r1, w1, fI, oI, rfl⟩ <;>
          clear hI hO hE <;>
          refine hready _ ⟨⟨?_, ?_, ?_, ?_, ?_, ?_, ?_, ?_⟩, ?_, ?_, ?_, ?_, ?_⟩
            ⟨?_, ?_, ?_, ?_, ?_⟩ ⟨?_, ?_, ?_⟩ <;>
          simp [*, pipesOk, List.drop_set_of_lt] <;>
          refine ⟨_, _, ⟨rfl, rfl⟩, ?_⟩ <;>
          simp [List.getElem?_set] <;>
          intro h <;>
          first
            | omega
            | (intro h0; rw [h0] at h; simp at h)

/-- Every way `proc_fork` can go, with the table and the resolved descriptors
described in the launch proper. -/
theorem proc_fork_outcome_full (sys : Sys) (p : proc_t) (pinfo : procinfo_t)
    (fds : List Int) :
    (conflicting pinfo.mode ∧
      proc_fork sys p pinfo fds =
        { ret := some (-1), errno := some EINVAL, proc := p, fds := fds, trace := [] }) ∨
    (¬ conflicting pinfo.mode ∧
      (p.pcb.magic = kValidMagic ∨ p.pcb.pipeMagic = kPipeMagic) ∧
      proc_fork sys p pinfo fds =
        { ret := some (-1), errno := some EAGAIN, proc := { p with retval := -1 }
          fds := fds, trace := [] }) ∨
    (¬ conflicting pinfo.mode ∧ p.pcb.magic ≠ kValidMagic ∧ p.pcb.pipeMagic ≠ kPipeMagic ∧
      ∃ st, Plain pinfo.mode p fds st ∧
        ((PipeFailed sys pinfo.mode { p with retval := -1 } st ∧
          proc_fork sys p pinfo fds = forkFail sys st) ∨
        (Ready sys pinfo.mode { p with retval := -1 } st ∧ Piped sys pinfo.mode fds st ∧
          sys.forkRet < 0 ∧
          proc_fork sys p pinfo fds = forkFail sys (forkCall sys st)) ∨
        (Ready sys pinfo.mode { p with retval := -1 } st ∧ Piped sys pinfo.mode fds st ∧
          sys.forkRet = 0 ∧
          proc_fork sys p pinfo fds =
            { ret := none, errno := none, proc := (forkCall sys st).proc, fds := st.fds
              trace := st.trace ++ Event.fork 0 :: forkChild sys pinfo (forkCall sys st) }) ∨
        (Ready sys pinfo.mode { p with retval := -1 } st ∧ Piped sys pinfo.mode fds st ∧
          0 < sys.forkRet ∧
          proc_fork sys p pinfo fds =
            { ret := some 0, errno := none
              proc := { st.proc with
                        pcb := { st.proc.pcb with pid := sys.forkRet, magic := kValidMagic } }
              fds := st.fds, trace := st.trace ++ [Event.fork sys.forkRet] }))) := by
  by_cases hc : conflicting pinfo.mode
  · exact Or.inl ⟨hc, proc_fork_of_conflicting sys p pinfo fds hc⟩
  · by_cases hm : p.pcb.magic = kValidMagic ∨ p.pcb.pipeMagic = kPipeMagic
    · exact Or.inr (Or.inl ⟨hc, hm, proc_fork_of_marked sys p pinfo fds hc hm⟩)
    · push_neg at hm
      refine Or.inr (Or.inr ⟨hc, hm.1, hm.2, ?_⟩)
      rw [proc_fork_of_clear sys p pinfo fds hc hm.1 hm.2]
      apply forkLaunch_cases_full sys { p with retval := -1 } pinfo fds
        (fun r => ∃ st, Plain pinfo.mode p fds st ∧
          ((PipeFailed sys pinfo.mode { p with retval := -1 } st ∧ r = forkFail sys st) ∨
          (Ready sys pinfo.mode { p with retval := -1 } st ∧ Piped sys pinfo.mode fds st ∧
            sys.forkRet < 0 ∧ r = forkFail sys (forkCall sys st)) ∨
          (Ready sys pinfo.mode { p with retval := -1 } st ∧ Piped sys pinfo.mode fds st ∧
            sys.forkRet = 0 ∧
            r = { ret := none, errno := none, proc := (forkCall sys st).proc, fds := st.fds
                  trace := st.trace ++
                    Event.fork 0 :: forkChild sys pinfo (forkCall sys st) }) ∨
          (Ready sys pinfo.mode { p with retval := -1 } st ∧ Piped sys pinfo.mode fds st ∧
            0 < sys.forkRet ∧
            r = { ret := some 0, errno := none
                  proc := { st.proc with
                            pcb := { st.proc.pcb with
                                     pid := sys.forkRet, magic := kValidMagic } }
                  fds := st.fds, trace := st.trace ++ [Event.fork sys.forkRet] })))
      · intro st hst hpl
        exact ⟨st, ⟨hpl.len, hpl.extra, hpl.stdinPlain, hpl.stdoutPlain, hpl.stderrPlain⟩,
          Or.inl ⟨hst, rfl⟩⟩
      · intro st hst hpl hpi
        refine ⟨st, ⟨hpl.len, hpl.extra, hpl.stdinPlain, hpl.stdoutPlain, hpl.stderrPlain⟩,
          Or.inr ?_⟩
        rcases lt_trichotomy sys.forkRet 0 with hf | hf | hf
        · exact Or.inl ⟨hst, hpi, hf, forkSpawn_neg sys pinfo st hf⟩
        · exact Or.inr (Or.inl ⟨hst, hpi, hf, forkSpawn_zero sys pinfo st hf⟩)
        · exact Or.inr (Or.inr ⟨hst, hpi, hf, forkSpawn_pos sys pinfo st hf⟩)

/-! ## Lemmas on the child branch -/

theorem mem_childStd (sys : Sys) (src slot devNULL : Int) (k : List Event) (e : Event)
    (h : e ∈ childStd sys src slot devNULL k) :
    e ∈ k ∨ e = Event.exit (-1) ∨
      (src ≠ slot ∧
        e = Event.dup2 (if src ≥ 0 then src else devNULL) slot
          (sys.dup2Ret (if src ≥ 0 then src else devNULL) slot)) := by
  unfold childStd at h
  generalize (if src ≥ 0 then src else devNULL) = s at h ⊢
  by_cases h1 : src ≠ slot
  · rw [if_pos h1] at h
    by_cases h2 : sys.dup2Ret s slot = -1
    · rw [if_pos h2] at h
      simp only [List.mem_cons, List.mem_singleton, List.mem_nil_iff, or_false] at h
      rcases h with h | h
      · exact Or.inr (Or.inr ⟨h1, by rw [h2]; exact h⟩)
      · exact Or.inr (Or.inl h)
    · rw [if_neg h2] at h
      rcases List.mem_cons.mp h with h | h
      · exact Or.inr (Or.inr ⟨h1, h⟩)
      · exact Or.inl h
  · rw [if_neg h1] at h
    exact Or.inl h

theorem mem_childExtra (sys : Sys) (l : List Int) (i : Int) (k : List Event) (e : Event)
    (h : e ∈ childExtra sys l i k) :
    e ∈ k ∨ e = Event.exit (-1) ∨
      ∃ (n : Nat) (fd : Int), l[n]? = some fd ∧
        e = Event.dup2 fd (i + n) (sys.dup2Ret fd (i + n)) := by
  induction l generalizing i with
  | nil => exact Or.inl (by simpa [childExtra] using h)
  | cons fd rest ih =>
    unfold childExtra at h
    split_ifs at h with h1
    · simp only [List.mem_cons, List.mem_singleton, List.mem_nil_iff, or_false] at h
      rcases h with h | h
      · exact Or.inr (Or.inr ⟨0, fd, by simp, by simpa using h⟩)
      · exact Or.inr (Or.inl h)
    · rcases List.mem_cons.mp h with h | h
      · exact Or.inr (Or.inr ⟨0, fd, by simp, by simpa using h⟩)
      · rcases ih (i + 1) h with h | h | ⟨n, fd', hn, he⟩
        · exact Or.inl h
        · exact Or.inr (Or.inl h)
        · refine Or.inr (Or.inr ⟨n + 1, fd', by simpa using hn, ?_⟩)
          rw [he]
          have : i + 1 + (n : Int) = i + ((n + 1 : Nat) : Int) := by push_cast; ring
          rw [this]

theorem mem_childExec (sys : Sys) (pinfo : procinfo_t) (e : Event)
    (h : e ∈ childExec sys pinfo) :
    (∃ ok, e = Event.malloc ok) ∨ (∃ c, e = Event.exit c) ∨
      e = Event.execv pinfo.path (childArgs pinfo) ∨
      e = Event.execvpe pinfo.path (childArgs pinfo) (pinfo.envp.map some ++ [none]) := by
  unfold childExec childAfterExec at h
  cases hx : sys.execRet <;> rw [hx] at h <;> split_ifs at h <;>
    simp only [List.mem_cons, List.mem_singleton, List.mem_nil_iff, or_false] at h <;>
    aesop

theorem childStd_of_ok (sys : Sys) (src slot devNULL : Int) (k : List Event)
    (hs : 0 ≤ slot) (hd : ∀ a b, 0 ≤ b → sys.dup2Ret a b ≠ -1) :
    (∀ e ∈ k, e ∈ childStd sys src slot devNULL k) ∧
    (src ≠ slot →
      Event.dup2 (if src ≥ 0 then src else devNULL) slot
        (sys.dup2Ret (if src ≥ 0 then src else devNULL) slot) ∈
          childStd sys src slot devNULL k) := by
  unfold childStd
  generalize (if src ≥ 0 then src else devNULL) = s
  by_cases h1 : src ≠ slot
  · rw [if_pos h1, if_neg (hd s slot hs)]
    exact ⟨fun e he => List.mem_cons_of_mem _ he, fun _ => List.mem_cons_self _ _⟩
  · rw [if_neg h1]
    exact ⟨fun e he => he, fun h => absurd h h1⟩

/-- The `dup2` calls of the child: each standard slot is written at most from
the descriptor resolved for it (the null device when that is negative), and a
slot from 3 on from the table entry of the same index. -/
theorem forkChild_dup2 (sys : Sys) (pinfo : procinfo_t) (st : ForkState)
    (src dst ret : Int) (h : Event.dup2 src dst ret ∈ forkChild sys pinfo st) :
    ret = sys.dup2Ret src dst ∧
    ((dst = 0 ∧ st.pinsR ≠ 0 ∧ src = (if st.pinsR ≥ 0 then st.pinsR else sys.devNull)) ∨
     (dst = 1 ∧ st.poutsW ≠ 1 ∧ src = (if st.poutsW ≥ 0 then st.poutsW else sys.devNull)) ∨
     (dst = 2 ∧ st.perrsW ≠ 2 ∧ src = (if st.perrsW ≥ 0 then st.perrsW else sys.devNull)) ∨
     (∃ n : Nat, (st.fds.drop 3)[n]? = some src ∧ dst = 3 + n)) := by
  unfold forkChild at h
  rcases List.mem_cons.mp h with h | h
  · cases h
  · split_ifs at h
    · simp at h
    · rcases mem_childStd _ _ _ _ _ _ h with h | h | ⟨h0, h⟩
      · rcases mem_childStd _ _ _ _ _ _ h with h | h | ⟨h1, h⟩
        · rcases mem_childStd _ _ _ _ _ _ h with h | h | ⟨h2, h⟩
          · rcases mem_childExtra _ _ _ _ _ h with h | h | ⟨n, fd, hn, h⟩
            · rcases mem_childExec _ _ _ h with ⟨_, h⟩ | ⟨_, h⟩ | h | h <;> cases h
            · cases h
            · injection h with a b c
              subst a
              subst b
              exact ⟨c, Or.inr (Or.inr (Or.inr ⟨n, hn, rfl⟩))⟩
          · cases h
          · injection h with a b c
            subst b
            rw [← a] at c
            exact ⟨c, Or.inr (Or.inr (Or.inl ⟨rfl, h2, a⟩))⟩
        · cases h
        · injection h with a b c
          subst b
          rw [← a] at c
          exact ⟨c, Or.inr (Or.inl ⟨rfl, h1, a⟩)⟩
      · cases h
      · injection h with a b c
        subst b
        rw [← a] at c
        exact ⟨c, Or.inl ⟨rfl, h0, a⟩⟩

/-- The program load of the child, when there is one, is given the path of
the request and the argument vector `childArgs`. -/
theorem forkChild_exec (sys : Sys) (pinfo : procinfo_t) (st : ForkState) (e : Event)
    (h : e ∈ forkChild sys pinfo st) (he : e.isExec = true) :
    e = Event.execv pinfo.path (childArgs pinfo) ∨
    e = Event.execvpe pinfo.path (childArgs pinfo) (pinfo.envp.map some ++ [none]) := by
  unfold forkChild at h
  rcases List.mem_cons.mp h with h | h
  · subst h
    simp [Event.isExec] at he
  · split_ifs at h
    · simp at h
      subst h
      simp [Event.isExec] at he
    · rcases mem_childStd _ _ _ _ _ _ h with h | h | ⟨-, h⟩
      · rcases mem_childStd _ _ _ _ _ _ h with h | h | ⟨-, h⟩
        · rcases mem_childStd _ _ _ _ _ _ h with h | h | ⟨-, h⟩
          · rcases mem_childExtra _ _ _ _ _ h with h | h | ⟨n, fd, -, h⟩
            · rcases mem_childExec _ _ _ h with ⟨_, h⟩ | ⟨_, h⟩ | h | h
              · subst h
                simp [Event.isExec] at he
              · subst h
                simp [Event.isExec] at he
              · exact Or.inl h
              · exact Or.inr h
            all_goals (subst h; simp [Event.isExec] at he)
          all_goals (subst h; simp [Event.isExec] at he)
        all_goals (subst h; simp [Event.isExec] at he)
      all_goals (subst h; simp [Event.isExec] at he)

/-- When `/dev/null` opens and no `dup2` onto a descriptor number fails, the
child remaps every standard slot whose resolved descriptor differs from the
slot number and reaches the loop over the extra table entries. -/
theorem forkChild_reach (sys : Sys) (pinfo : procinfo_t) (st : ForkState)
    (hdn : sys.devNull ≠ -1) (hd : ∀ a b, 0 ≤ b → sys.dup2Ret a b ≠ -1) :
    (st.pinsR ≠ 0 →
      Event.dup2 (if st.pinsR ≥ 0 then st.pinsR else sys.devNull) 0
        (sys.dup2Ret (if st.pinsR ≥ 0 then st.pinsR else sys.devNull) 0) ∈
          forkChild sys pinfo st) ∧
    (st.poutsW ≠ 1 →
      Event.dup2 (if st.poutsW ≥ 0 then st.poutsW else sys.devNull) 1
        (sys.dup2Ret (if st.poutsW ≥ 0 then st.poutsW else sys.devNull) 1) ∈
          forkChild sys pinfo st) ∧
    (st.perrsW ≠ 2 →
      Event.dup2 (if st.perrsW ≥ 0 then st.perrsW else sys.devNull) 2
        (sys.dup2Ret (if st.perrsW ≥ 0 then st.perrsW else sys.devNull) 2) ∈
          forkChild sys pinfo st) ∧
    (∀ e ∈ childExtra sys (st.fds.drop 3) 3 (childExec sys pinfo), e ∈ forkChild sys pinfo st) := by
  unfold forkChild
  rw [if_neg hdn]
  have a0 := childStd_of_ok sys st.pinsR 0 sys.devNull
    (childStd sys st.poutsW 1 sys.devNull
      (childStd sys st.perrsW 2 sys.devNull
        (childExtra sys (st.fds.drop 3) 3 (childExec sys pinfo)))) (by decide) hd
  have a1 := childStd_of_ok sys st.poutsW 1 sys.devNull
    (childStd sys st.perrsW 2 sys.devNull
      (childExtra sys (st.fds.drop 3) 3 (childExec sys pinfo))) (by decide) hd
  have a2 := childStd_of_ok sys st.perrsW 2 sys.devNull
    (childExtra sys (st.fds.drop 3) 3 (childExec sys pinfo)) (by decide) hd
  refine ⟨fun h => List.mem_cons_of_mem _ (a0.2 h),
    fun h => List.mem_cons_of_mem _ (a0.1 _ (a1.2 h)),
    fun h => List.mem_cons_of_mem _ (a0.1 _ (a1.1 _ (a2.2 h))),
    fun e he => List.mem_cons_of_mem _ (a0.1 _ (a1.1 _ (a2.1 _ he)))⟩

/-! ## The child branch, stream by stream -/

/-- A `dup2` of the child onto a standard slot comes from the descriptor
resolved for that stream, or from the null device when that is negative. -/
theorem child_slot_source (sys : Sys) (pinfo : procinfo_t) (st : ForkState) (s : Stream)
    (src ret : Int) (h : Event.dup2 src (s.slot : Int) ret ∈ forkChild sys pinfo st) :
    src = (if s.resolved st ≥ 0 then s.resolved st else sys.devNull) ∧
    s.resolved st ≠ (s.slot : Int) := by
  obtain ⟨-, h⟩ := forkChild_dup2 sys pinfo st src _ ret h
  cases s <;> simp only [Stream.slot, Stream.resolved] at h ⊢ <;>
    rcases h with ⟨h, a, b⟩ | ⟨h, a, b⟩ | ⟨h, a, b⟩ | ⟨n, -, h⟩ <;>
    first
      | exact ⟨b, by simpa using a⟩
      | (exfalso; push_cast at h; omega)
      | (exfalso; simp at h)

theorem child_slot_reach (sys : Sys) (pinfo : procinfo_t) (st : ForkState) (s : Stream)
    (hdn : sys.devNull ≠ -1) (hd : ∀ a b, 0 ≤ b → sys.dup2Ret a b ≠ -1)
    (hne : s.resolved st ≠ (s.slot : Int)) :
    Event.dup2 (if s.resolved st ≥ 0 then s.resolved st else sys.devNull) (s.slot : Int)
      (sys.dup2Ret (if s.resolved st ≥ 0 then s.resolved st else sys.devNull) (s.slot : Int)) ∈
        forkChild sys pinfo st := by
  obtain ⟨a, b, c, -⟩ := forkChild_reach sys pinfo st hdn hd
  cases s <;> simp only [Stream.slot, Stream.resolved] at hne ⊢
  · exact a (by simpa using hne)
  · exact b (by simpa using hne)
  · exact c (by simpa using hne)

/-- The descriptor resolved for a stream in the state in which `fork` is
called: the table entry when the create-pipe flag is not set (-1 when the table
does not cover the slot), the child-facing end of the pipe when it is. -/
theorem resolved_of_ready (sys : Sys) (mode : Nat) (p : proc_t) (fds : List Int)
    (st : ForkState) (hpl : Plain mode p fds st) (hpi : Piped sys mode fds st) (s : Stream) :
    (hasFlag mode s.pipeFlag = false →
      s.resolved st = (if s.slot < fds.length then fds.getD s.slot (-1) else -1)) ∧
    (hasFlag mode s.pipeFlag = true →
      ∃ rw, s.pipeOf sys = some rw ∧ s.resolved st = s.childEnd rw) := by
  cases s <;> simp only [Stream.slot, Stream.resolved, Stream.pipeFlag, Stream.pipeOf,
    Stream.childEnd]
  · refine ⟨fun h => ?_, fun h => ?_⟩
    · rw [(hpl.stdinPlain h).2.2.1]
      simp [Nat.lt_iff_add_one_le]
    · obtain ⟨r, w, a, b, -⟩ := hpi.stdinPiped h
      exact ⟨(r, w), a, b⟩
  · refine ⟨fun h => ?_, fun h => ?_⟩
    · rw [(hpl.stdoutPlain h).2.2.1]
      simp [Nat.lt_iff_add_one_le]
    · obtain ⟨r, w, a, b, -⟩ := hpi.stdoutPiped h
      exact ⟨(r, w), a, b⟩
  · refine ⟨fun h => ?_, fun h => ?_⟩
    · rw [(hpl.stderrPlain h).2.2.1]
      simp [Nat.lt_iff_add_one_le]
    · obtain ⟨r, w, a, b, -⟩ := hpi.stderrPiped h
      exact ⟨(r, w), a, b⟩

/-- The child branch of `proc_fork`: what led to it and what it issues. -/
theorem proc_fork_in_child (sys : Sys) (p : proc_t) (pinfo : procinfo_t) (fds : List Int)
    (h : (proc_fork sys p pinfo fds).ret = none) :
    sys.forkRet = 0 ∧ ¬ conflicting pinfo.mode ∧
    ∃ st, Ready sys pinfo.mode { p with retval := -1 } st ∧ Plain pinfo.mode p fds st ∧
      Piped sys pinfo.mode fds st ∧
      proc_fork sys p pinfo fds =
        { ret := none, errno := none, proc := (forkCall sys st).proc, fds := st.fds
          trace := st.trace ++ Event.fork 0 :: forkChild sys pinfo (forkCall sys st) } := by
  rcases proc_fork_outcome_full sys p pinfo fds with ⟨-, e⟩ | ⟨-, -, e⟩ |
    ⟨hc, -, -, st, hpl, ⟨-, e⟩ | ⟨-, -, -, e⟩ | ⟨hst, hpi, hf, e⟩ | ⟨-, -, -, e⟩⟩
  · rw [e] at h
    simp at h
  · rw [e] at h
    simp at h
  · rw [e] at h
    simp [forkFail] at h
  · rw [e] at h
    simp [forkFail] at h
  · exact ⟨hf, hc, st, hst, hpl, hpi, e⟩
  · rw [e] at h
    simp at h

/-- C12, the code at the failing input: a zeroed handle is launched with no
flag and no table, the child being 100.  The launch issues `fork` only and
leaves `sRpin` at the 0 the zeroed handle held (line 54 resets `sWpout` and
`sWperr`, not `sRpin`), so `proc_join` waits for the child and then calls
`close(0)`: the parent's own standard input is closed.  A second launch and
join of the same handle close nothing more, `sRpin` being -1 by then. -/
theorem proc_join_closes_stdin :
    (proc_fork sysOk procZero (infoCat PROC_NONE) []).ret = some 0 ∧
    (proc_fork sysOk procZero (infoCat PROC_NONE) []).trace = [Event.fork 100] ∧
    (proc_fork sysOk procZero (infoCat PROC_NONE) []).proc.pcb.sRpin = 0 ∧
    (proc_join sysOk (proc_fork sysOk procZero (infoCat PROC_NONE) []).proc).trace =
      [Event.waitpid 100, Event.close 0] ∧
    (proc_join sysOk
      (proc_fork sysOk
        (proc_join sysOk (proc_fork sysOk procZero (infoCat PROC_NONE) []).proc).proc
        (infoCat PROC_NONE) []).proc).trace = [Event.waitpid 100] := by
  decide

/-! ## Streams in the state in which fork is called -/

theorem plain_stream (mode : Nat) (p : proc_t) (fds : List Int) (st : ForkState)
    (hpl : Plain mode p fds st) (s : Stream) (hf : hasFlag mode s.pipeFlag = false) :
    s.held st.proc = -1 ∧ st.fds[s.slot]? = fds[s.slot]? ∧
    (hasFlag mode s.ownFlag = true → s.slot < fds.length →
      s.owned st.proc.pcb = fds.getD s.slot (-1)) := by
  cases s <;> simp only [Stream.slot, Stream.held, Stream.owned, Stream.ownFlag,
    Stream.pipeFlag] at hf ⊢
  · obtain ⟨a, b, -, d⟩ := hpl.stdinPlain hf
    refine ⟨a, b, fun ho hl => ?_⟩
    rw [d, if_pos ⟨by omega, ho⟩]
  · obtain ⟨a, b, -, d⟩ := hpl.stdoutPlain hf
    refine ⟨a, b, fun ho hl => ?_⟩
    rw [d, if_pos ⟨by omega, ho⟩]
  · obtain ⟨a, b, -, d⟩ := hpl.stderrPlain hf
    refine ⟨a, b, fun ho hl => ?_⟩
    rw [d, if_pos ⟨by omega, ho⟩]

/-- When every `dup2` returns its target, the loop over a non-empty rest of
the table stops at its first entry: line 129 takes the non-zero result for a
failure. -/
theorem childExtra_of_success (sys : Sys) (fd : Int) (rest : List Int) (k : List Event)
    (hd : ∀ a b, sys.dup2Ret a b = b) :
    childExtra sys (fd :: rest) 3 k = [Event.dup2 fd 3 3, Event.exit (-1)] := by
  simp [childExtra, hd]

/-- With more than three table entries and every `dup2` returning its target,
the child never loads the program. -/
theorem child_extra_never_execs (sys : Sys) (p : proc_t) (pinfo : procinfo_t)
    (fds : List Int) (hchild : (proc_fork sys p pinfo fds).ret = none)
    (hlen : 3 < fds.length) (hd : ∀ a b, sys.dup2Ret a b = b) :
    ∀ e ∈ (proc_fork sys p pinfo fds).trace, e.isExec = false := by
  obtain ⟨-, -, st, hst, hpl, -, e⟩ := proc_fork_in_child sys p pinfo fds hchild
  intro ev hev
  rw [e] at hev
  simp only [List.mem_append, List.mem_cons] at hev
  rcases hev with h | h | h
  · obtain ⟨s, x, hx⟩ := hst.wired.onlyPipes _ h
    subst hx
    rfl
  · subst h
    rfl
  · have hdrop : ∃ fd rest, (forkCall sys st).fds.drop 3 = fd :: rest := by
      have hl : ((forkCall sys st).fds.drop 3).length = fds.length - 3 := by
        simp [forkCall, hpl.len]
      cases hx : (forkCall sys st).fds.drop 3 with
      | nil =>
        rw [hx] at hl
        simp at hl
        omega
      | cons fd rest => exact ⟨fd, rest, rfl⟩
    obtain ⟨fd, rest, hdrop⟩ := hdrop
    unfold forkChild at h
    rw [hdrop, childExtra_of_success sys fd rest _ hd] at h
    rcases List.mem_cons.mp h with h | h
    · subst h
      rfl
    · split_ifs at h
      · simp at h
        subst h
        rfl
      · rcases mem_childStd _ _ _ _ _ _ h with h | h | ⟨-, h⟩
        · rcases mem_childStd _ _ _ _ _ _ h with h | h | ⟨-, h⟩
          · rcases mem_childStd _ _ _ _ _ _ h with h | h | ⟨-, h⟩
            · simp at h
              rcases h with h | h <;> subst h <;> rfl
            all_goals (subst h; rfl)
          all_goals (subst h; rfl)
        all_goals (subst h; rfl)

/-- C15, the code at the failing input: a launch with the table
`[0, 1, 2, 7]` in which every `dup2` succeeds and returns its target.  The
child opens `/dev/null`, leaves the slots 0, 1, 2 alone, calls `dup2(7, 3)`,
which returns 3, and exits with -1: it never builds the argument vector and
never loads the program. -/
theorem child_extra_dup_exits :
    (∀ a b, (childView sysOk).dup2Ret a b = b) ∧
    (proc_fork (childView sysOk) procZero (infoCat PROC_NONE) [0, 1, 2, 7]).ret = none ∧
    (proc_fork (childView sysOk) procZero (infoCat PROC_NONE) [0, 1, 2, 7]).trace =
      [Event.fork 0, Event.openDevNull 9, Event.dup2 7 3 3, Event.exit (-1)] ∧
    ∀ e ∈ (proc_fork (childView sysOk) procZero (infoCat PROC_NONE) [0, 1, 2, 7]).trace,
      e.isExec = false :=
  ⟨fun _ _ => rfl, by decide, by decide, by decide⟩

/-- The calls of `proc_fork` that belong to the child are those of
`forkChild`, in the child branch. -/
theorem proc_fork_child_event (sys : Sys) (p : proc_t) (pinfo : procinfo_t) (fds : List Int)
    (e : Event) (he : e ∈ (proc_fork sys p pinfo fds).trace) (hc : e.isChild = true) :
    (proc_fork sys p pinfo fds).ret = none ∧ ∃ st, e ∈ forkChild sys pinfo st := by
  rcases proc_fork_outcome sys p pinfo fds with ⟨-, eq⟩ | ⟨-, -, eq⟩ |
    ⟨-, -, -, st, ⟨hst, eq⟩ | ⟨hst, -, eq⟩ | ⟨hst, -, eq⟩ | ⟨hst, -, eq⟩⟩
  · rw [eq] at he
    simp at he
  · rw [eq] at he
    simp at he
  · rw [eq] at he
    obtain ⟨-, -, -, -, -, f6, -⟩ := forkFail_facts sys st hst.wired.magic hst.wired.pipeMagic
    rcases f6 _ he with h | ⟨fd, h⟩
    · obtain ⟨s, x, hx⟩ := hst.wired.onlyPipes _ h
      subst hx
      simp [Event.isChild] at hc
    · subst h
      simp [Event.isChild] at hc
  · rw [eq] at he
    obtain ⟨m1, m2⟩ := forkCall_marks sys _ st hst.wired
    obtain ⟨-, -, -, -, -, f6, -⟩ := forkFail_facts sys (forkCall sys st) m1 m2
    rcases f6 _ he with h | ⟨fd, h⟩
    · simp only [forkCall, List.mem_append, List.mem_singleton] at h
      rcases h with h | h
      · obtain ⟨s, x, hx⟩ := hst.wired.onlyPipes _ h
        subst hx
        simp [Event.isChild] at hc
      · subst h
        simp [Event.isChild] at hc
    · subst h
      simp [Event.isChild] at hc
  · refine ⟨by rw [eq], forkCall sys st, ?_⟩
    rw [eq] at he
    simp only [List.mem_append, List.mem_cons] at he
    rcases he with h | h | h
    · obtain ⟨s, x, hx⟩ := hst.wired.onlyPipes _ h
      subst hx
      simp [Event.isChild] at hc
    · subst h
      simp [Event.isChild] at hc
    · exact h
  · rw [eq] at he
    simp only [List.mem_append, List.mem_singleton] at he
    rcases he with h | h
    · obtain ⟨s, x, hx⟩ := hst.wired.onlyPipes _ h
      subst hx
      simp [Event.isChild] at hc
    · subst h
      simp [Event.isChild] at hc

theorem isChild_of_isExec (e : Event) (h : e.isExec = true) : e.isChild = true := by
  cases e <;> simp [Event.isExec] at h <;> rfl

/-- When nothing fails before it and the table has no extra entry, the child
reaches the program load. -/
theorem child_reaches_exec (sys : Sys) (p : proc_t) (pinfo : procinfo_t) (fds : List Int)
    (hchild : (proc_fork sys p pinfo fds).ret = none) (hdn : sys.devNull ≠ -1)
    (hd : ∀ a b, 0 ≤ b → sys.dup2Ret a b ≠ -1) (hlen : fds.length ≤ 3)
    (hm1 : sys.mallocArgs = true) (hm2 : sys.mallocEnvp = true) :
    ∃ e ∈ (proc_fork sys p pinfo fds).trace, e.isExec = true := by
  obtain ⟨-, -, st, hst, hpl, -, e⟩ := proc_fork_in_child sys p pinfo fds hchild
  obtain ⟨-, -, -, hk⟩ := forkChild_reach sys pinfo (forkCall sys st) hdn hd
  have hdrop : (forkCall sys st).fds.drop 3 = [] := by
    apply List.drop_eq_nil_of_le
    simp only [forkCall, hpl.len]
    exact hlen
  rw [hdrop] at hk
  simp only [childExtra] at hk
  have hex : ∃ ev ∈ childExec sys pinfo, ev.isExec = true := by
    unfold childExec
    rw [hm1]
    by_cases henv : (pinfo.envp.length : Int) > 0
    · rw [hm2]
      exact ⟨Event.execvpe pinfo.path (childArgs pinfo) (pinfo.envp.map some ++ [none]),
        by simp [henv], rfl⟩
    · exact ⟨Event.execv pinfo.path (childArgs pinfo), by simp [henv], rfl⟩
  obtain ⟨ev, hev, hx⟩ := hex
  refine ⟨ev, ?_, hx⟩
  rw [e]
  simp only [List.mem_append, List.mem_cons]
  exact Or.inr (Or.inr (hk ev hev))

/-- C16: in every launch, every program load the child issues (`execv`, or
`execvpe` when an environment is given) is passed the path of the request and
an argument vector that ends in a null and, before it, consists of the n
arguments of the request in order, preceded by the path when PROC_NOPATH is
not set (n + 1 entries before the null) and of them alone when it is set (n
entries before the null).  The load is reached in the child whenever
`/dev/null` opens, no `dup2` onto a descriptor number fails, the table has no
entry beyond index 2 and the allocations succeed. -/
theorem exec_argument_vector (sys : Sys) (p : proc_t) (pinfo : procinfo_t)
    (fds : List Int) :
    (∀ path args, (Event.execv path args ∈ (proc_fork sys p pinfo fds).trace ∨
        ∃ envp, Event.execvpe path args envp ∈ (proc_fork sys p pinfo fds).trace) →
      path = pinfo.path ∧
      (hasFlag pinfo.mode PROC_NOPATH = false →
        args = some pinfo.path :: pinfo.args.map some ++ [none] ∧
        args.dropLast.length = pinfo.args.length + 1) ∧
      (hasFlag pinfo.mode PROC_NOPATH = true →
        args = pinfo.args.map some ++ [none] ∧
        args.dropLast.length = pinfo.args.length)) ∧
    ((proc_fork sys p pinfo fds).ret = none → sys.devNull ≠ -1 →
      (∀ a b, 0 ≤ b → sys.dup2Ret a b ≠ -1) → fds.length ≤ 3 →
      sys.mallocArgs = true → sys.mallocEnvp = true →
      ∃ path args, Event.execv path args ∈ (proc_fork sys p pinfo fds).trace ∨
        ∃ envp, Event.execvpe path args envp ∈ (proc_fork sys p pinfo fds).trace) := by
  have hvec : ∀ args, args = childArgs pinfo →
      (hasFlag pinfo.mode PROC_NOPATH = false →
        args = some pinfo.path :: pinfo.args.map some ++ [none] ∧
        args.dropLast.length = pinfo.args.length + 1) ∧
      (hasFlag pinfo.mode PROC_NOPATH = true →
        args = pinfo.args.map some ++ [none] ∧
        args.dropLast.length = pinfo.args.length) := by
    intro args ha
    subst ha
    unfold childArgs
    constructor
    · intro hf
      simp [hf]
    · intro hf
      simp [hf]
  constructor
  · intro path args hmem
    have key : ∃ e, e ∈ (proc_fork sys p pinfo fds).trace ∧ e.isExec = true ∧
        (e = Event.execv path args ∨ ∃ envp, e = Event.execvpe path args envp) := by
      rcases hmem with h | ⟨envp, h⟩
      · exact ⟨_, h, rfl, Or.inl rfl⟩
      · exact ⟨_, h, rfl, Or.inr ⟨envp, rfl⟩⟩
    obtain ⟨e, he, hx, hform⟩ := key
    obtain ⟨-, st, hst⟩ := proc_fork_child_event sys p pinfo fds e he (isChild_of_isExec e hx)
    have hcases := forkChild_exec sys pinfo st e hst hx
    have hpa : path = pinfo.path ∧ args = childArgs pinfo := by
      rcases hform with hf | ⟨envp, hf⟩ <;> rcases hcases with hc | hc <;>
        rw [hf] at hc <;> cases hc <;> exact ⟨rfl, rfl⟩
    exact ⟨hpa.1, hvec args hpa.2⟩
  · intro hchild hdn hd hlen hm1 hm2
    obtain ⟨e, he, hx⟩ := child_reaches_exec sys p pinfo fds hchild hdn hd hlen hm1 hm2
    cases e <;> simp [Event.isExec] at hx
    · exact ⟨_, _, Or.inl he⟩
    · exact ⟨_, _, Or.inr ⟨_, he⟩⟩

/-- Witness for C16: `/bin/echo hello` without PROC_NOPATH; the child loads
the program with the vector `/bin/echo`, `hello`, null. -/
theorem exec_argument_vector_witness :
    (Event.execv "/bin/echo" [some "/bin/echo", some "hello", none] ∈
        (proc_fork (childView sysOk) procZero (infoEcho PROC_NONE) [0, 1, 2]).trace ∨
      ∃ envp, Event.execvpe "/bin/echo" [some "/bin/echo", some "hello", none] envp ∈
        (proc_fork (childView sysOk) procZero (infoEcho PROC_NONE) [0, 1, 2]).trace) ∧
    hasFlag (infoEcho PROC_NONE).mode PROC_NOPATH = false ∧
    "/bin/echo" = (infoEcho PROC_NONE).path ∧
    [some "/bin/echo", some "hello", none] =
      some (infoEcho PROC_NONE).path :: (infoEcho PROC_NONE).args.map some ++ [none] :=
  ⟨Or.inl (by decide), by decide,
    ((exec_argument_vector (childView sysOk) procZero (infoEcho PROC_NONE) [0, 1, 2]).1
      "/bin/echo" [some "/bin/echo", some "hello", none] (Or.inl (by decide))).1,
    (((exec_argument_vector (childView sysOk) procZero (infoEcho PROC_NONE) [0, 1, 2]).1
      "/bin/echo" [some "/bin/echo", some "hello", none] (Or.inl (by decide))).2.1
        (by decide)).1⟩

/-! ## The invariant of the handle -/

/-- The value `proc_fork` returns: 0, -1, or nothing, in the child branch. -/
theorem proc_fork_ret_cases (sys : Sys) (p : proc_t) (pinfo : procinfo_t) (fds : List Int) :
    (proc_fork sys p pinfo fds).ret = some 0 ∨ (proc_fork sys p pinfo fds).ret = some (-1) ∨
      ((proc_fork sys p pinfo fds).ret = none ∧ sys.forkRet = 0) := by
  rcases proc_fork_outcome sys p pinfo fds with ⟨-, e⟩ | ⟨-, -, e⟩ |
    ⟨-, -, -, st, ⟨-, e⟩ | ⟨-, -, e⟩ | ⟨-, hf, e⟩ | ⟨-, -, e⟩⟩ <;> rw [e]
  · exact Or.inr (Or.inl rfl)
  · exact Or.inr (Or.inl rfl)
  · exact Or.inr (Or.inl rfl)
  · exact Or.inr (Or.inl rfl)
  · exact Or.inr (Or.inr ⟨rfl, hf⟩)
  · exact Or.inl rfl

/-- C17: in every state reached from a zero-initialised control block by
`proc_fork` and `proc_join` calls with arbitrary outcomes of the pipe
creations, of `fork` and of `waitpid` (`proc_kill` and `proc_pid` do not write
to the handle, and a `proc_fork` that returns at all returns 0 or -1), if the
magic of the control block is the valid marker then its pipe marker is set and
the recorded pid is positive; hence `proc_join` on such a handle waits on the
recorded child and leaves both markers cleared. -/
theorem handle_invariant (h : proc_t) (s : Option Int) (hr : Reach h s)
    (hm : h.pcb.magic = kValidMagic) :
    h.pcb.pipeMagic = kPipeMagic ∧ 0 < h.pcb.pid ∧
    ∀ sysj, Event.waitpid h.pcb.pid ∈ (proc_join sysj h).trace ∧
      (proc_join sysj h).proc.pcb.magic = 0 ∧ (proc_join sysj h).proc.pcb.pipeMagic = 0 := by
  obtain ⟨hl, hn⟩ := reach_inv h s hr
  cases s with
  | none =>
    have := (hn rfl).1
    rw [hm] at this
    exact absurd this kValidMagic_ne_zero
  | some pid =>
    obtain ⟨-, b, c, d, -⟩ := hl pid rfl
    have hpid : 0 < h.pcb.pid := by
      rw [c]
      exact d
    refine ⟨b, hpid, fun sysj => ?_⟩
    rw [proc_join_of_launched sysj h hm hpid b]
    simp

/-- Witness for C17: a zeroed handle launched with three pipes, the launch
repeated in vain, then joined. -/
theorem handle_invariant_witness :
    Reach (proc_fork sysOk (proc_fork sysOk procZero (infoCat 7) []).proc (infoCat 7) []).proc
      (some 100) ∧
    (proc_fork sysOk (proc_fork sysOk procZero (infoCat 7) []).proc (infoCat 7) []).proc.pcb.magic
      = kValidMagic ∧
    (proc_fork sysOk (proc_fork sysOk procZero (infoCat 7) []).proc
      (infoCat 7) []).proc.pcb.pipeMagic = kPipeMagic ∧
    0 < (proc_fork sysOk (proc_fork sysOk procZero (infoCat 7) []).proc
      (infoCat 7) []).proc.pcb.pid :=
  ⟨Reach.failed sysOk _ _ (infoCat 7) []
      (Reach.launched sysOk procZero none (infoCat 7) [] (Reach.init procZero rfl) (by decide))
      (by decide),
    by decide,
    (handle_invariant _ _
      (Reach.failed sysOk _ _ (infoCat 7) []
        (Reach.launched sysOk procZero none (infoCat 7) [] (Reach.init procZero rfl)
          (by decide))
        (by decide))
      (by decide)).1,
    (handle_invariant _ _
      (Reach.failed sysOk _ _ (infoCat 7) []
        (Reach.launched sysOk procZero none (infoCat 7) [] (Reach.init procZero rfl)
          (by decide))
        (by decide))
      (by decide)).2.1⟩

/-! ## Ownership transfer and a failed launch -/

theorem pipeFlag_of_ownFlag (mode : Nat) (s : Stream) (hc : ¬ conflicting mode)
    (ho : hasFlag mode s.ownFlag = true) : hasFlag mode s.pipeFlag = false := by
  unfold conflicting at hc
  push_neg at hc
  obtain ⟨c1, c2, c3⟩ := hc
  cases s <;> simp only [Stream.ownFlag, Stream.pipeFlag] at ho ⊢
  · cases hp : hasFlag mode PROC_PIN
    · rfl
    · exact absurd ho (c1 hp)
  · cases hp : hasFlag mode PROC_POUT
    · rfl
    · exact absurd ho (c2 hp)
  · cases hp : hasFlag mode PROC_PERR
    · rfl
    · exact absurd ho (c3 hp)

/-- `forkFail` closes the owned descriptor of every stream when it is not
negative. -/
theorem forkFail_closes_owned (sys : Sys) (st : ForkState) (m1 : st.proc.pcb.magic = 0)
    (m2 : st.proc.pcb.pipeMagic = kPipeMagic) (s : Stream)
    (h : 0 ≤ s.owned st.proc.pcb) :
    Event.close (s.owned st.proc.pcb) ∈ (forkFail sys st).trace := by
  obtain ⟨-, -, -, -, -, -, -, f8, f9, f10⟩ := forkFail_facts sys st m1 m2
  cases s <;> simp only [Stream.owned] at h ⊢
  · exact f8 h
  · exact f9 h
  · exact f10 h

/-- A launch in which a pipe creation or `fork` fails: the guards have passed
and `proc_fork` ends in `forkFail` on a state that has the markers of the
launch proper, the owned descriptors of the scan and no successful `fork`. -/
theorem proc_fork_failed_launch (sys : Sys) (p : proc_t) (pinfo : procinfo_t)
    (fds : List Int)
    (hfail : (∃ s, Event.pipe2 s none ∈ (proc_fork sys p pinfo fds).trace) ∨
      (∃ x, x < 0 ∧ Event.fork x ∈ (proc_fork sys p pinfo fds).trace)) :
    ¬ conflicting pinfo.mode ∧
    ∃ st, st.proc.pcb.magic = 0 ∧ st.proc.pcb.pipeMagic = kPipeMagic ∧
      (∀ s : Stream, hasFlag pinfo.mode s.pipeFlag = false →
        hasFlag pinfo.mode s.ownFlag = true →
        s.slot < fds.length → s.owned st.proc.pcb = fds.getD s.slot (-1)) ∧
      (∀ x, Event.fork x ∈ st.trace → x < 0) ∧
      (∀ e ∈ st.trace, (∃ s x, e = Event.pipe2 s x) ∨ ∃ x, e = Event.fork x) ∧
      proc_fork sys p pinfo fds = forkFail sys st := by
  rcases proc_fork_outcome_full sys p pinfo fds with ⟨-, e⟩ | ⟨-, -, e⟩ |
    ⟨hc, -, -, st, hpl, ⟨hst, e⟩ | ⟨hst, -, hf, e⟩ | ⟨hst, -, hf, e⟩ | ⟨hst, -, hf, e⟩⟩
  · rw [e] at hfail
    simp at hfail
  · rw [e] at hfail
    simp at hfail
  · refine ⟨hc, st, hst.wired.magic, hst.wired.pipeMagic,
      fun s h1 h2 h3 => (plain_stream _ p fds st hpl s h1).2.2 h2 h3, ?_, ?_, e⟩
    · intro x hx
      obtain ⟨s, y, hy⟩ := hst.wired.onlyPipes _ hx
      cases hy
    · intro ev hev
      exact Or.inl (hst.wired.onlyPipes _ hev)
  · obtain ⟨m1, m2⟩ := forkCall_marks sys _ st hst.wired
    refine ⟨hc, forkCall sys st, m1, m2, ?_, ?_, ?_, e⟩
    · intro s h1 h2 h3
      have := (plain_stream _ p fds st hpl s h1).2.2 h2 h3
      cases s <;> exact this
    · intro x hx
      simp only [forkCall, List.mem_append, List.mem_singleton] at hx
      rcases hx with hx | hx
      · obtain ⟨s, y, hy⟩ := hst.wired.onlyPipes _ hx
        cases hy
      · injection hx with hx
        omega
    · intro ev hev
      simp only [forkCall, List.mem_append, List.mem_singleton] at hev
      rcases hev with hev | hev
      · exact Or.inl (hst.wired.onlyPipes _ hev)
      · exact Or.inr ⟨_, hev⟩
  · exfalso
    have hchild : ∀ e' ∈ forkChild sys pinfo (forkCall sys st), e'.isChild = true :=
      forkChild_isChild sys pinfo (forkCall sys st)
    rw [e] at hfail
    simp only [List.mem_append, List.mem_cons] at hfail
    rcases hfail with ⟨s, hs | hs | hs⟩ | ⟨x, hx, hs | hs | hs⟩
    · exact hst.noFailure s hs
    · cases hs
    · have := hchild _ hs
      simp [Event.isChild] at this
    · obtain ⟨s, y, hy⟩ := hst.wired.onlyPipes _ hs
      cases hy
    · injection hs with hs
      omega
    · have := hchild _ hs
      simp [Event.isChild] at this
  · exfalso
    rw [e] at hfail
    simp only [List.mem_append, List.mem_singleton] at hfail
    rcases hfail with ⟨s, hs | hs⟩ | ⟨x, hx, hs | hs⟩
    · exact hst.noFailure s hs
    · cases hs
    · obtain ⟨s, y, hy⟩ := hst.wired.onlyPipes _ hs
      cases hy
    · injection hs with hs
      omega

/-- C18: for every launch attempt that fails at a pipe creation or at `fork`,
and every stream whose ownership-transfer flag is set and whose table entry
exists and is non-negative, that caller-supplied descriptor is closed by
`proc_fork` before it returns -1, although no child process was started: the
only `fork` the attempt can have issued returned a negative value. -/
theorem failed_launch_closes_transferred (sys : Sys) (p : proc_t) (pinfo : procinfo_t)
    (fds : List Int) (s : Stream)
    (hfail : (∃ s', Event.pipe2 s' none ∈ (proc_fork sys p pinfo fds).trace) ∨
      (∃ x, x < 0 ∧ Event.fork x ∈ (proc_fork sys p pinfo fds).trace))
    (hown : hasFlag pinfo.mode s.ownFlag = true)
    (hlen : s.slot < fds.length) (hd : 0 ≤ fds.getD s.slot (-1)) :
    (proc_fork sys p pinfo fds).ret = some (-1) ∧
    Event.close (fds.getD s.slot (-1)) ∈ (proc_fork sys p pinfo fds).trace ∧
    (∀ x, Event.fork x ∈ (proc_fork sys p pinfo fds).trace → x < 0) := by
  obtain ⟨hc, st, m1, m2, hownd, hforks, -, e⟩ := proc_fork_failed_launch sys p pinfo fds hfail
  have hpf := pipeFlag_of_ownFlag pinfo.mode s hc hown
  have ho := hownd s hpf hown hlen
  obtain ⟨f1, -, -, -, -, f6, -⟩ := forkFail_facts sys st m1 m2
  rw [e]
  refine ⟨f1, ?_, ?_⟩
  · rw [← ho]
    exact forkFail_closes_owned sys st m1 m2 s (by rw [ho]; exact hd)
  · intro x hx
    rcases f6 _ hx with h | ⟨fd, h⟩
    · exact hforks x h
    · cases h

/-- Witness for C18: the table `[5, -1, -1]` with PROC_RIN and PROC_POUT, the
stdout pipe creation failing: descriptor 5 is closed by `proc_fork`. -/
theorem failed_launch_closes_transferred_witness :
    ((∃ s', Event.pipe2 s' none ∈
        (proc_fork sysNoPipeOut procZero (infoCat (PROC_RIN ||| PROC_POUT)) [5, -1, -1]).trace) ∨
      (∃ x, x < 0 ∧ Event.fork x ∈
        (proc_fork sysNoPipeOut procZero (infoCat (PROC_RIN ||| PROC_POUT)) [5, -1, -1]).trace)) ∧
    hasFlag (infoCat (PROC_RIN ||| PROC_POUT)).mode Stream.stdin.ownFlag = true ∧
    Stream.stdin.slot < ([5, -1, -1] : List Int).length ∧
    0 ≤ ([5, -1, -1] : List Int).getD Stream.stdin.slot (-1) ∧
    (proc_fork sysNoPipeOut procZero (infoCat (PROC_RIN ||| PROC_POUT)) [5, -1, -1]).ret =
      some (-1) ∧
    Event.close (([5, -1, -1] : List Int).getD Stream.stdin.slot (-1)) ∈
      (proc_fork sysNoPipeOut procZero (infoCat (PROC_RIN ||| PROC_POUT)) [5, -1, -1]).trace :=
  ⟨Or.inl ⟨Stream.stdout, by decide⟩, by decide, by decide, by decide,
    (failed_launch_closes_transferred sysNoPipeOut procZero (infoCat (PROC_RIN ||| PROC_POUT))
      [5, -1, -1] Stream.stdin (Or.inl ⟨Stream.stdout, by decide⟩) (by decide) (by decide)
      (by decide)).1,
    (failed_launch_closes_transferred sysNoPipeOut procZero (infoCat (PROC_RIN ||| PROC_POUT))
      [5, -1, -1] Stream.stdin (Or.inl ⟨Stream.stdout, by decide⟩) (by decide) (by decide)
      (by decide)).2.1⟩

/-! ## Lemmas on the descriptor table of the child -/

theorem childStep_frame (t : Int → ChildFile) (e : Event) (x : Int)
    (h : e.writes x = false) : childStep t e x = t x := by
  cases e <;> simp only [childStep] <;> simp only [Event.writes, beq_eq_false_iff_ne] at h
  · split_ifs with h1
    · rfl
    · simp only
      rw [if_neg (fun hx => h hx.symm)]
  · split_ifs with h1
    · rfl
    · simp only
      rw [if_neg (fun hx => h hx.symm)]

theorem foldl_childStep_frame (l : List Event) (t : Int → ChildFile) (x : Int)
    (h : ∀ e ∈ l, e.writes x = false) : (l.foldl childStep t) x = t x := by
  induction l generalizing t with
  | nil => rfl
  | cons e l ih =>
    rw [List.foldl_cons, ih _ (fun e' he' => h e' (List.mem_cons_of_mem _ he'))]
    exact childStep_frame t e x (h e (List.mem_cons_self _ _))

/-- The effect of one standard slot of the child on its descriptor table, when
no `dup2` onto a descriptor number fails: only the slot changes, and it takes
what the source referred to. -/
theorem foldl_childStd (sys : Sys) (src slot devNULL : Int) (k : List Event)
    (t : Int → ChildFile) (hs : 0 ≤ slot) (hd : ∀ a b, 0 ≤ b → sys.dup2Ret a b ≠ -1) :
    ∃ t' : Int → ChildFile,
      (childStd sys src slot devNULL k).foldl childStep t = k.foldl childStep t' ∧
      (∀ y, y ≠ slot → t' y = t y) ∧
      t' slot = (if src ≠ slot then t (if src ≥ 0 then src else devNULL) else t slot) := by
  unfold childStd
  generalize (if src ≥ 0 then src else devNULL) = s
  by_cases h1 : src ≠ slot
  · refine ⟨fun n => if n = slot then t s else t n, ?_, fun y hy => by simp [hy], by simp [h1]⟩
    rw [if_pos h1, if_neg (hd s slot hs), List.foldl_cons]
    simp only [childStep, if_neg (hd s slot hs)]
  · refine ⟨t, ?_, fun y _ => rfl, by rw [if_neg h1]⟩
    rw [if_neg h1]

theorem childExtra_writes (sys : Sys) (l : List Int) (i : Int) (k : List Event) (x : Int)
    (hx : x < i) (hk : ∀ e ∈ k, e.writes x = false) :
    ∀ e ∈ childExtra sys l i k, e.writes x = false := by
  intro e he
  rcases mem_childExtra sys l i k e he with h | h | ⟨n, fd, -, h⟩
  · exact hk e h
  · subst h
    rfl
  · subst h
    simp only [Event.writes, beq_eq_false_iff_ne]
    have : (0 : Int) ≤ (n : Int) := Int.ofNat_nonneg _
    omega

theorem childExec_writes (sys : Sys) (pinfo : procinfo_t) (x : Int) :
    ∀ e ∈ childExec sys pinfo, e.writes x = false := by
  intro e he
  rcases mem_childExec sys pinfo e he with ⟨_, h⟩ | ⟨_, h⟩ | h | h <;> subst h <;> rfl

/-- The descriptor table of the child at a standard slot after all its calls,
when `/dev/null` opens and no `dup2` onto a descriptor number fails: the slot
refers to what the source of its `dup2` referred to once `/dev/null` was open,
provided that source is not the number of a lower slot. -/
theorem forkChild_files (sys : Sys) (pinfo : procinfo_t) (st : ForkState)
    (t : Int → ChildFile) (hdn : sys.devNull ≠ -1)
    (hd : ∀ a b, 0 ≤ b → sys.dup2Ret a b ≠ -1) (s : Stream)
    (hx : (s.slot : Int) ≤ (if s.resolved st ≥ 0 then s.resolved st else sys.devNull)) :
    ((forkChild sys pinfo st).foldl childStep t) (s.slot : Int) =
      (if (if s.resolved st ≥ 0 then s.resolved st else sys.devNull) = sys.devNull
        then ChildFile.devNull
        else t (if s.resolved st ≥ 0 then s.resolved st else sys.devNull)) := by
  unfold forkChild
  rw [List.foldl_cons, if_neg hdn]
  obtain ⟨t0, e0, f0, g0⟩ := foldl_childStd sys st.pinsR 0 sys.devNull
    (childStd sys st.poutsW 1 sys.devNull
      (childStd sys st.perrsW 2 sys.devNull
        (childExtra sys (st.fds.drop 3) 3 (childExec sys pinfo))))
    (childStep t (Event.openDevNull sys.devNull)) (by decide) hd
  obtain ⟨t1, e1, f1, g1⟩ := foldl_childStd sys st.poutsW 1 sys.devNull
    (childStd sys st.perrsW 2 sys.devNull
      (childExtra sys (st.fds.drop 3) 3 (childExec sys pinfo))) t0 (by decide) hd
  obtain ⟨t2, e2, f2, g2⟩ := foldl_childStd sys st.perrsW 2 sys.devNull
    (childExtra sys (st.fds.drop 3) 3 (childExec sys pinfo)) t1 (by decide) hd
  rw [e0, e1, e2]
  have hfr : ∀ x : Int, x < 3 → ∀ e ∈ childExtra sys (st.fds.drop 3) 3 (childExec sys pinfo),
      e.writes x = false :=
    fun x hx3 => childExtra_writes sys _ 3 _ x hx3 (childExec_writes sys pinfo x)
  have hopen : ∀ y, childStep t (Event.openDevNull sys.devNull) y =
      if y = sys.devNull then ChildFile.devNull else t y := by
    intro y
    simp only [childStep, if_neg hdn]
  cases s <;> simp only [Stream.slot, Stream.resolved] at hx ⊢
  · have hsame : ¬ st.pinsR ≠ 0 → (if st.pinsR ≥ 0 then st.pinsR else sys.devNull) = 0 := by
      intro h
      rw [if_pos (by omega)]
      omega
    rw [foldl_childStep_frame _ _ _ (hfr _ (by decide)), f2 _ (by decide), f1 _ (by decide),
      Nat.cast_zero, g0]
    generalize (if st.pinsR ≥ 0 then st.pinsR else sys.devNull) = x at hx hsame ⊢
    by_cases h : st.pinsR ≠ 0
    · rw [if_pos h, hopen]
    · rw [if_neg h, ← hsame h, hopen]
  · have hsame : ¬ st.poutsW ≠ 1 → (if st.poutsW ≥ 0 then st.poutsW else sys.devNull) = 1 := by
      intro h
      rw [if_pos (by omega)]
      omega
    rw [foldl_childStep_frame _ _ _ (hfr _ (by decide)), f2 _ (by decide)]
    simp only [Nat.cast_one] at hx ⊢
    rw [g1]
    generalize (if st.poutsW ≥ 0 then st.poutsW else sys.devNull) = x at hx hsame ⊢
    have key : t0 x = if x = sys.devNull then ChildFile.devNull else t x := by
      rw [f0 x (by omega), hopen]
    by_cases h : st.poutsW ≠ 1
    · rw [if_pos h, key]
    · rw [if_neg h, ← hsame h, key]
  · have hsame : ¬ st.perrsW ≠ 2 → (if st.perrsW ≥ 0 then st.perrsW else sys.devNull) = 2 := by
      intro h
      rw [if_pos (by omega)]
      omega
    rw [foldl_childStep_frame _ _ _ (hfr _ (by decide))]
    simp only [Nat.cast_ofNat] at hx ⊢
    rw [g2]
    generalize (if st.perrsW ≥ 0 then st.perrsW else sys.devNull) = x at hx hsame ⊢
    have key : t1 x = if x = sys.devNull then ChildFile.devNull else t x := by
      rw [f1 x (by omega), f0 x (by omega), hopen]
    by_cases h : st.perrsW ≠ 2
    · rw [if_pos h, key]
    · rw [if_neg h, ← hsame h, key]

theorem childStep_of_parent (t : Int → ChildFile) (e : Event) (h : e.isChild = false) :
    childStep t e = t := by
  cases e <;> simp [Event.isChild] at h <;> rfl

theorem foldl_childStep_parent (l : List Event) (t : Int → ChildFile)
    (h : ∀ e ∈ l, e.isChild = false) : l.foldl childStep t = t := by
  induction l generalizing t with
  | nil => rfl
  | cons e l ih =>
    rw [List.foldl_cons, childStep_of_parent t e (h e (List.mem_cons_self _ _))]
    exact ih t (fun e' he' => h e' (List.mem_cons_of_mem _ he'))

/-- The child branch of `proc_fork` on the standard slots, in terms of the
request, the table and the outcomes of the pipe creations.  `R s` is the
descriptor resolved for the stream `s`; the source of the `dup2` onto the slot
is `R s`, or the descriptor of `/dev/null` when `R s` is negative.  When
`/dev/null` opens, no `dup2` onto a descriptor number fails and that source is
not the number of a lower slot, the slot ends up referring to the null device
if the source is the descriptor of `/dev/null`, and else to what the source
referred to at the fork. -/
theorem proc_fork_child_files (sys : Sys) (p : proc_t) (pinfo : procinfo_t) (fds : List Int)
    (h : (proc_fork sys p pinfo fds).ret = none) :
    ∃ R : Stream → Int,
      (∀ s, hasFlag pinfo.mode s.pipeFlag = false →
        R s = (if s.slot < fds.length then fds.getD s.slot (-1) else -1)) ∧
      (∀ s, hasFlag pinfo.mode s.pipeFlag = true →
        ∃ rw, s.pipeOf sys = some rw ∧ R s = s.childEnd rw) ∧
      (∀ s src ret, Event.dup2 src (s.slot : Int) ret ∈ (proc_fork sys p pinfo fds).trace →
        src = (if R s ≥ 0 then R s else sys.devNull) ∧ R s ≠ (s.slot : Int)) ∧
      (sys.devNull ≠ -1 → (∀ a b, 0 ≤ b → sys.dup2Ret a b ≠ -1) → ∀ s,
        (R s ≠ (s.slot : Int) →
          Event.dup2 (if R s ≥ 0 then R s else sys.devNull) (s.slot : Int)
            (sys.dup2Ret (if R s ≥ 0 then R s else sys.devNull) (s.slot : Int)) ∈
              (proc_fork sys p pinfo fds).trace) ∧
        ((s.slot : Int) ≤ (if R s ≥ 0 then R s else sys.devNull) →
          childFiles (proc_fork sys p pinfo fds).trace (s.slot : Int) =
            (if (if R s ≥ 0 then R s else sys.devNull) = sys.devNull then ChildFile.devNull
             else ChildFile.inherited (if R s ≥ 0 then R s else sys.devNull)))) := by
  obtain ⟨-, -, st, hst, hpl, hpi, e⟩ := proc_fork_in_child sys p pinfo fds h
  have hres : ∀ s : Stream, s.resolved (forkCall sys st) = s.resolved st := by
    intro s
    cases s <;> rfl
  refine ⟨fun s => s.resolved st, fun s => (resolved_of_ready sys _ p fds st hpl hpi s).1,
    fun s => (resolved_of_ready sys _ p fds st hpl hpi s).2, ?_, ?_⟩
  · intro s src ret hmem
    rw [e] at hmem
    simp only [List.mem_append, List.mem_cons] at hmem
    rcases hmem with hm | hm | hm
    · obtain ⟨s', x, hx⟩ := hst.wired.onlyPipes _ hm
      cases hx
    · cases hm
    · have := child_slot_source sys pinfo (forkCall sys st) s src ret hm
      rw [hres s] at this
      exact this
  · intro hdn hd s
    constructor
    · intro hne
      rw [e]
      simp only [List.mem_append, List.mem_cons]
      right
      right
      have := child_slot_reach sys pinfo (forkCall sys st) s hdn hd (by rw [hres s]; exact hne)
      rw [hres s] at this
      exact this
    · intro hx
      have hpre : ∀ ev ∈ st.trace ++ [Event.fork 0], ev.isChild = false := by
        intro ev hev
        simp only [List.mem_append, List.mem_singleton] at hev
        rcases hev with hev | hev
        · obtain ⟨s', x, hx'⟩ := hst.wired.onlyPipes _ hev
          subst hx'
          rfl
        · subst hev
          rfl
      have hsplit : st.trace ++ Event.fork 0 :: forkChild sys pinfo (forkCall sys st) =
          (st.trace ++ [Event.fork 0]) ++ forkChild sys pinfo (forkCall sys st) := by
        simp
      rw [e]
      simp only [childFiles]
      rw [hsplit, List.foldl_append, foldl_childStep_parent _ _ hpre]
      have := forkChild_files sys pinfo (forkCall sys st) (fun n => ChildFile.inherited n)
        hdn hd s (by rw [hres s]; exact hx)
      rw [hres s] at this
      exact this

/-! ## C7: the rollback of a failed launch attempt -/

/-- The claim C7 fails: with PROC_POUT and PROC_PERR on a zeroed handle, the
stdout pipe is created as (5, 6) and the stderr pipe creation fails.
`proc_fork` returns -1 having closed the write end 6 of the stdout pipe (and
descriptor 0, the value the zeroed handle holds in sRpin), but not the read
end 5: that descriptor, opened during this attempt, is still open and stays
recorded in pout. -/
theorem proc_fork_rollback_counterexample :
    (proc_fork sysNoPipeErr procZero (infoCat (PROC_POUT ||| PROC_PERR)) []).ret = some (-1) ∧
    (proc_fork sysNoPipeErr procZero (infoCat (PROC_POUT ||| PROC_PERR)) []).trace =
      [Event.pipe2 Stream.stdout (some (5, 6)), Event.pipe2 Stream.stderr none,
        Event.close 0, Event.close 6] ∧
    Event.close 5 ∉
      (proc_fork sysNoPipeErr procZero (infoCat (PROC_POUT ||| PROC_PERR)) []).trace ∧
    (proc_fork sysNoPipeErr procZero (infoCat (PROC_POUT ||| PROC_PERR)) []).proc.pout = 5 ∧
    openPipeFds
      (proc_fork sysNoPipeErr procZero (infoCat (PROC_POUT ||| PROC_PERR)) []).trace [] = [5] := by
  decide

/-- C7, amended: when a launch attempt fails at a pipe creation or at fork,
the child-facing end of every pipe created during this attempt (the read end
of the stdin pipe, the write end of the stdout and stderr pipes; `pipe2`
returning descriptors that are not negative) has been closed by the time
`proc_fork` returns -1; the read end of a stdout or stderr pipe created during
the attempt stays recorded in the handle's pout / perr field. -/
theorem proc_fork_rollback (sys : Sys) (p : proc_t) (pinfo : procinfo_t) (fds : List Int)
    (hret : (proc_fork sys p pinfo fds).ret = some (-1)) :
    (∀ r w, Event.pipe2 Stream.stdin (some (r, w)) ∈ (proc_fork sys p pinfo fds).trace →
      0 ≤ r → Event.close r ∈ (proc_fork sys p pinfo fds).trace) ∧
    (∀ r w, Event.pipe2 Stream.stdout (some (r, w)) ∈ (proc_fork sys p pinfo fds).trace →
      (proc_fork sys p pinfo fds).proc.pout = r ∧
        (0 ≤ w → Event.close w ∈ (proc_fork sys p pinfo fds).trace)) ∧
    (∀ r w, Event.pipe2 Stream.stderr (some (r, w)) ∈ (proc_fork sys p pinfo fds).trace →
      (proc_fork sys p pinfo fds).proc.perr = r ∧
        (0 ≤ w → Event.close w ∈ (proc_fork sys p pinfo fds).trace)) := by
  have key : ∀ out : ForkResult,
      ((∀ r w, Event.pipe2 Stream.stdin (some (r, w)) ∈ out.trace →
        out.proc.pin = w ∧ (0 ≤ r → Event.close r ∈ out.trace)) ∧
      (∀ r w, Event.pipe2 Stream.stdout (some (r, w)) ∈ out.trace →
        out.proc.pout = r ∧ (0 ≤ w → Event.close w ∈ out.trace)) ∧
      (∀ r w, Event.pipe2 Stream.stderr (some (r, w)) ∈ out.trace →
        out.proc.perr = r ∧ (0 ≤ w → Event.close w ∈ out.trace))) →
      ((∀ r w, Event.pipe2 Stream.stdin (some (r, w)) ∈ out.trace →
        0 ≤ r → Event.close r ∈ out.trace) ∧
      (∀ r w, Event.pipe2 Stream.stdout (some (r, w)) ∈ out.trace →
        out.proc.pout = r ∧ (0 ≤ w → Event.close w ∈ out.trace)) ∧
      (∀ r w, Event.pipe2 Stream.stderr (some (r, w)) ∈ out.trace →
        out.proc.perr = r ∧ (0 ≤ w → Event.close w ∈ out.trace))) :=
    fun out h => ⟨fun r w hm => (h.1 r w hm).2, h.2.1, h.2.2⟩
  rcases proc_fork_outcome sys p pinfo fds with ⟨-, e⟩ | ⟨-, -, e⟩ |
    ⟨-, -, -, st, ⟨hst, e⟩ | ⟨hst, -, e⟩ | ⟨-, -, e⟩ | ⟨-, -, e⟩⟩
  · rw [e]
    simp
  · rw [e]
    simp
  · rw [e]
    exact key _ (forkFail_pipe_ends sys st hst.wired.magic hst.wired.pipeMagic
      hst.wired.stdinEnds hst.wired.stdoutEnds hst.wired.stderrEnds)
  · rw [e]
    obtain ⟨m1, m2⟩ := forkCall_marks sys _ st hst.wired
    obtain ⟨a, b, c⟩ := forkCall_pipe_ends sys _ st hst.wired
    exact key _ (forkFail_pipe_ends sys _ m1 m2 a b c)
  · rw [e] at hret
    simp at hret
  · rw [e] at hret
    simp at hret

/-- Witness for the amended C7: the stdout pipe (5, 6) is created, the stderr
pipe is not; the write end 6 is closed and pout still holds the read end 5. -/
theorem proc_fork_rollback_witness :
    (proc_fork sysNoPipeErr procZero (infoCat (PROC_POUT ||| PROC_PERR)) []).ret = some (-1) ∧
    Event.pipe2 Stream.stdout (some (5, 6)) ∈
      (proc_fork sysNoPipeErr procZero (infoCat (PROC_POUT ||| PROC_PERR)) []).trace ∧
    (proc_fork sysNoPipeErr procZero (infoCat (PROC_POUT ||| PROC_PERR)) []).proc.pout = 5 ∧
    Event.close 6 ∈
      (proc_fork sysNoPipeErr procZero (infoCat (PROC_POUT ||| PROC_PERR)) []).trace :=
  ⟨by decide, by decide,
    ((proc_fork_rollback sysNoPipeErr procZero (infoCat (PROC_POUT ||| PROC_PERR)) []
      (by decide)).2.1 5 6 (by decide)).1,
    ((proc_fork_rollback sysNoPipeErr procZero (infoCat (PROC_POUT ||| PROC_PERR)) []
      (by decide)).2.1 5 6 (by decide)).2 (by decide)⟩

/-! ## C11: a stream with neither a pipe nor a table entry -/

/-- The claim C11 fails: a zeroed handle is launched with no flag and an empty
table.  No create-pipe flag is set and the table covers no slot, yet the
child, having opened `/dev/null` as 9, calls `dup2(9, 0)`, `dup2(9, 1)` and
`dup2(9, 2)`: every standard slot is remapped onto the null device. -/
theorem child_remap_counterexample :
    (proc_fork (childView sysOk) procZero (infoCat PROC_NONE) []).ret = none ∧
    hasFlag (infoCat PROC_NONE).mode PROC_PIN = false ∧
    Event.openDevNull 9 ∈ (proc_fork (childView sysOk) procZero (infoCat PROC_NONE) []).trace ∧
    Event.dup2 9 0 0 ∈ (proc_fork (childView sysOk) procZero (infoCat PROC_NONE) []).trace ∧
    Event.dup2 9 1 1 ∈ (proc_fork (childView sysOk) procZero (infoCat PROC_NONE) []).trace ∧
    Event.dup2 9 2 2 ∈ (proc_fork (childView sysOk) procZero (infoCat PROC_NONE) []).trace := by
  decide

/-- C11, amended: for every launch and every standard stream whose
create-pipe flag is not set and for which the descriptor table has no entry or
a negative entry, the child remaps that slot from the descriptor that
`open("/dev/null")` returned: the only `dup2` onto the slot it can issue is
from that descriptor; once `/dev/null` is open and provided no `dup2` onto a
descriptor number fails, it does issue `dup2(devNULL, slot)`, and when the
number `open` returned is not below the slot number, the slot of the child
refers to the null device after the last call of the child. -/
theorem child_null_fallback (sys : Sys) (p : proc_t) (pinfo : procinfo_t) (fds : List Int)
    (s : Stream) (hchild : (proc_fork sys p pinfo fds).ret = none)
    (hflag : hasFlag pinfo.mode s.pipeFlag = false)
    (hent : fds.length ≤ s.slot ∨ fds.getD s.slot (-1) < 0) :
    (∀ src ret, Event.dup2 src (s.slot : Int) ret ∈ (proc_fork sys p pinfo fds).trace →
      src = sys.devNull) ∧
    (sys.devNull ≠ -1 → (∀ a b, 0 ≤ b → sys.dup2Ret a b ≠ -1) →
      Event.dup2 sys.devNull (s.slot : Int) (sys.dup2Ret sys.devNull (s.slot : Int)) ∈
        (proc_fork sys p pinfo fds).trace ∧
      ((s.slot : Int) ≤ sys.devNull →
        childFiles (proc_fork sys p pinfo fds).trace (s.slot : Int) = ChildFile.devNull)) := by
  obtain ⟨R, hplain, -, hsrc, hreach⟩ := proc_fork_child_files sys p pinfo fds hchild
  have hR : R s < 0 := by
    rw [hplain s hflag]
    split_ifs with hl
    · rcases hent with h | h
      · omega
      · exact h
    · decide
  have hsel : (if R s ≥ 0 then R s else sys.devNull) = sys.devNull := by
    rw [if_neg (by omega)]
  have hne : R s ≠ (s.slot : Int) := by
    have : (0 : Int) ≤ (s.slot : Int) := Int.ofNat_nonneg _
    omega
  refine ⟨fun src ret hmem => ?_, fun hdn hd => ⟨?_, fun hle => ?_⟩⟩
  · rw [← hsel]
    exact (hsrc s src ret hmem).1
  · have := (hreach hdn hd s).1 hne
    rw [hsel] at this
    exact this
  · have := (hreach hdn hd s).2 (by rw [hsel]; exact hle)
    rw [hsel, if_pos rfl] at this
    exact this

/-- Witness for the amended C11: stdout of a launch whose table is
`[0, -1, 2]`; the child opens `/dev/null` as 9, runs `dup2(9, 1)`, and its
slot 1 refers to the null device. -/
theorem child_null_fallback_witness :
    (proc_fork (childView sysOk) procZero (infoCat PROC_NONE) [0, -1, 2]).ret = none ∧
    hasFlag (infoCat PROC_NONE).mode Stream.stdout.pipeFlag = false ∧
    (([0, -1, 2] : List Int).length ≤ Stream.stdout.slot ∨
      ([0, -1, 2] : List Int).getD Stream.stdout.slot (-1) < 0) ∧
    (childView sysOk).devNull ≠ -1 ∧ (∀ a b, 0 ≤ b → (childView sysOk).dup2Ret a b ≠ -1) ∧
    (Stream.stdout.slot : Int) ≤ (childView sysOk).devNull ∧
    Event.dup2 (childView sysOk).devNull (Stream.stdout.slot : Int)
        ((childView sysOk).dup2Ret (childView sysOk).devNull (Stream.stdout.slot : Int)) ∈
      (proc_fork (childView sysOk) procZero (infoCat PROC_NONE) [0, -1, 2]).trace ∧
    childFiles (proc_fork (childView sysOk) procZero (infoCat PROC_NONE) [0, -1, 2]).trace
      (Stream.stdout.slot : Int) = ChildFile.devNull :=
  ⟨by decide, by decide, by decide, by decide,
    fun a b hb => by simp only [childView, sysOk]; omega, by decide,
    ((child_null_fallback (childView sysOk) procZero (infoCat PROC_NONE) [0, -1, 2]
      Stream.stdout (by decide) (by decide) (by decide)).2 (by decide)
      (fun a b hb => by simp only [childView, sysOk]; omega)).1,
    ((child_null_fallback (childView sysOk) procZero (infoCat PROC_NONE) [0, -1, 2]
      Stream.stdout (by decide) (by decide) (by decide)).2 (by decide)
      (fun a b hb => by simp only [childView, sysOk]; omega)).2 (by decide)⟩

/-! ## C13: a descriptor whose ownership is transferred -/

end Process
